import Mathlib

/-!
# ShortMarch: scene assembly

A shallow embedding of `Material.h`, `Entity.h`, `Entity.cpp`, `Scene.h` and
`Scene.cpp`, followed by theorems about the aggregation pipeline
(`Scene::BuildAccelerationStructures`).

Conventions of the embedding.

* `float` values are rationals; the scene code only copies them.
* `int` and `size_t` counters are `Int` and `Nat`: the model describes the
  executions in which no counter leaves the range of its machine type.
* `std::shared_ptr<Entity>` is an address (`EntityPtr`) into a heap of `Entity`
  objects, so that one entity object can sit at several positions of
  `Scene::entities_`; a null pointer is `none`.
* A raw array pointer is `Option (Nat → α)`: `none` is `nullptr`, and reading
  through `nullptr` makes the enclosing function return `none`. An upload of
  more elements than a backend buffer holds returns `none` as well.
* A range-for loop is a structural recursion over the entity list that threads
  the loop's local variables.
-/

namespace ShortMarch

/-! ## glm value types -/

/-- A `glm::vec2`. -/
structure Vec2 where
  x : ℚ
  y : ℚ
deriving DecidableEq

/-- A `glm::vec3`. -/
structure Vec3 where
  x : ℚ
  y : ℚ
  z : ℚ
deriving DecidableEq

/-- A `glm::vec4`. -/
structure Vec4 where
  x : ℚ
  y : ℚ
  z : ℚ
  w : ℚ
deriving DecidableEq

/-- A `glm::mat4`, stored by columns. -/
structure Mat4 where
  c0 : Vec4
  c1 : Vec4
  c2 : Vec4
  c3 : Vec4
deriving DecidableEq

/-- A `glm::mat4x3`: four columns of three rows. -/
structure Mat4x3 where
  c0 : Vec3
  c1 : Vec3
  c2 : Vec3
  c3 : Vec3
deriving DecidableEq

/-- The conversion `glm::mat4x3(m)`: every column keeps its first three rows. -/
def Mat4x3.ofMat4 (m : Mat4) : Mat4x3 :=
  { c0 := ⟨m.c0.x, m.c0.y, m.c0.z⟩
    c1 := ⟨m.c1.x, m.c1.y, m.c1.z⟩
    c2 := ⟨m.c2.x, m.c2.y, m.c2.z⟩
    c3 := ⟨m.c3.x, m.c3.y, m.c3.z⟩ }

/-! ## Material.h -/

/-- The record `MaterialGPUData` of `Material.h`. -/
structure MaterialGPUData where
  base_color : Vec3
  roughness : ℚ
  metallic : ℚ
  texture_index : Int
  normal_index : Int
  emission : Vec3
deriving DecidableEq

/-- The record `Material` of `Material.h`. -/
structure Material where
  base_color : Vec3
  roughness : ℚ
  metallic : ℚ
  texture_index : Int
  normal_index : Int
  emission : Vec3
  texture_path : String
  normal_path : String
deriving DecidableEq

/-- The default constructor `Material()`. -/
def Material.default : Material :=
  { base_color := ⟨4 / 5, 4 / 5, 4 / 5⟩
    roughness := 1 / 2
    metallic := 0
    texture_index := -1
    normal_index := -1
    emission := ⟨0, 0, 0⟩
    texture_path := ""
    normal_path := "" }

/-- The method `Material::HasTexture`. -/
def Material.HasTexture (m : Material) : Bool := m.texture_path != ""

/-- The method `Material::HasNormal`. -/
def Material.HasNormal (m : Material) : Bool := m.normal_path != ""

/-- The method `Material::GetTexturePath`. -/
def Material.GetTexturePath (m : Material) : String := m.texture_path

/-- The method `Material::GetNormalPath`. -/
def Material.GetNormalPath (m : Material) : String := m.normal_path

/-- The method `Material::ToGPUData`. -/
def Material.ToGPUData (m : Material) : MaterialGPUData :=
  { base_color := m.base_color
    roughness := m.roughness
    metallic := m.metallic
    texture_index := m.texture_index
    normal_index := m.normal_index
    emission := m.emission }

/-! ## The collaborators: mesh loader, image decoder, graphics backend -/

/-- Modelled from the spec: one entry of the loader's material table
(`name, diffuse_rgb, specular_rgb, shininess, emission_rgb,
diffuse_texture_path`); `grassland::Mesh` is not among the sources. -/
structure MaterialData where
  name : String
  diffuse : Vec3
  specular : Vec3
  shininess : ℚ
  emission : Vec3
  diffuse_texture : String
deriving DecidableEq

/-- Modelled from the spec: the loaded mesh `grassland::Mesh<float>`, seen through
the accessors the sources call. `Positions` and `Indices` are arrays that are
always present; `TexCoords` and `MaterialIds` are pointers that may be null. -/
structure Mesh where
  NumVertices : Nat
  NumIndices : Nat
  Positions : Nat → Vec3
  Indices : Nat → Nat
  TexCoords : Option (Nat → Vec2)
  MaterialIds : Option (Nat → Int)
  GetMaterialData : List MaterialData

/-- Modelled from the spec: a default-constructed `grassland::Mesh<float>`, holding
nothing. -/
def Mesh.empty : Mesh :=
  { NumVertices := 0
    NumIndices := 0
    Positions := fun _ => ⟨0, 0, 0⟩
    Indices := fun _ => 0
    TexCoords := none
    MaterialIds := none
    GetMaterialData := [] }

/-- Modelled from the spec: the mesh/material loader and the path helpers around
it. `LoadObjFile path mesh` gives the return code of `mesh.LoadObjFile(path)`
(`0` on success) and the mesh afterwards. -/
structure Loader where
  FindAssetFile : String → String
  LoadObjFile : String → Mesh → Int × Mesh
  parent_path : String → String

/-- The function `glm::clamp(x, minVal, maxVal)`. -/
def glm_clamp (x minVal maxVal : ℚ) : ℚ := min (max x minVal) maxVal

/-- The counting loop `for (size_t i = 0; i < n; i++) out.push_back(f(ptr[i]));`
over an array pointer that may be null: an iteration that reads through
`nullptr` fails. -/
def pushLoop {α β : Type} (ptr : Option (Nat → α)) (f : α → β) (n : Nat) (out : List β) :
    Option (List β) :=
  (List.range n).foldlM
    (fun acc i => (ptr.map (fun a => a i)).map (fun v => acc ++ [f v])) out

/-- Modelled from the spec: a backend buffer (`buffer creation+upload`). `size` is
what `CreateBuffer` was given, counted in elements (the byte size over the
`sizeof` of the element type); `data` is what has been uploaded. -/
structure Buffer (α : Type) where
  size : Nat
  data : List α
deriving DecidableEq

/-- The backend call `core->CreateBuffer(size, BUFFER_TYPE_DYNAMIC, &buffer)`. -/
def CreateBuffer {α : Type} (size : Nat) : Buffer α :=
  { size := size, data := [] }

/-- The backend call `buffer->UploadData(src, size)`: the first `src.length`
elements are overwritten; more elements than the buffer holds do not fit. -/
def Buffer.UploadData {α : Type} (b : Buffer α) (src : List α) : Option (Buffer α) :=
  if src.length ≤ b.size then
    some { b with data := src ++ b.data.drop src.length }
  else
    none

/-- Modelled from the spec: a bottom-level acceleration structure, made from a
vertex buffer, an index buffer and a vertex stride. -/
structure AccelerationStructure where
  vertex_buffer : Buffer Vec3
  index_buffer : Buffer Nat
  stride : Nat
deriving DecidableEq

/-- The size in bytes of one `glm::vec3` position. -/
def sizeof_vec3 : Nat := 12

/-- The backend flag `RAYTRACING_INSTANCE_FLAG_NONE`. -/
def RAYTRACING_INSTANCE_FLAG_NONE : Nat := 0

/-- Modelled from the spec: a top-level instance value, carrying `(3×4 transform,
custom index, visibility mask, shader-table offset, flags)` and the
bottom-level structure it was made from. -/
structure RayTracingInstance where
  blas : AccelerationStructure
  transform : Mat4x3
  instanceCustomIndex : Nat
  instanceMask : Nat
  instanceShaderBindingTableRecordOffset : Nat
  flags : Nat
deriving DecidableEq

/-- The backend call `blas->MakeInstance(transform, index, mask, offset, flags)`. -/
def AccelerationStructure.MakeInstance (blas : AccelerationStructure) (transform : Mat4x3)
    (index mask offset flags : Nat) : RayTracingInstance :=
  { blas := blas
    transform := transform
    instanceCustomIndex := index
    instanceMask := mask
    instanceShaderBindingTableRecordOffset := offset
    flags := flags }

/-- Modelled from the spec: a top-level acceleration structure, made from an
instance list (`CreateTopLevelAccelerationStructure`) and refitted by
`UpdateInstances`. -/
structure TopLevelAS where
  instances : List RayTracingInstance
deriving DecidableEq

/-- The backend call `tlas->UpdateInstances(instances)`: the refit takes the new
instance list. -/
def TopLevelAS.UpdateInstances (_tlas : TopLevelAS) (instances : List RayTracingInstance) :
    TopLevelAS :=
  { instances := instances }

/-- Modelled from the spec: what the image decoder returns for a path that decodes
(`width, height, channel_count, rgba8_bytes`). -/
structure DecodedImage where
  width : Int
  height : Int
  channels : Int
  data : List Nat
deriving DecidableEq

/-- The decoder `stbi_load(path, &width, &height, &channels, 4)`; `none` is the
null result of a failed decode. -/
abbrev Decoder := String → Option DecodedImage

/-- Modelled from the spec: a backend image (`image creation+upload`) in the format
`IMAGE_FORMAT_R8G8B8A8_UNORM`. -/
structure Image where
  width : Int
  height : Int
  data : List Nat
deriving DecidableEq

/-- The backend call `core->CreateImage(width, height, format, &image)`. -/
def CreateImage (width height : Int) : Image :=
  { width := width, height := height, data := [] }

/-- The backend call `image->UploadData(data)`. -/
def Image.UploadData (img : Image) (data : List Nat) : Image :=
  { img with data := data }

/-! ## Entity.h, Entity.cpp -/

/-- The private fields of `class Entity`. -/
structure Entity where
  mesh_ : Mesh
  default_material_ : Material
  materials_ : List Material
  material_name_to_index_ : String → Option Int
  transform_ : Mat4
  vertex_buffer_ : Option (Buffer Vec3)
  index_buffer_ : Option (Buffer Nat)
  uv_buffer_ : Option (Buffer Vec2)
  material_id_buffer_ : Option (Buffer Int)
  blas_ : Option AccelerationStructure
  mesh_loaded_ : Bool
  has_uv_coords_ : Bool
  has_material_ids_ : Bool
  material_offset_ : Int

namespace Entity

/-- The getter `Entity::GetDefaultMaterial`. -/
def GetDefaultMaterial (e : Entity) : Material := e.default_material_

/-- The getter `Entity::GetMaterials`. -/
def GetMaterials (e : Entity) : List Material := e.materials_

/-- The getter `Entity::GetTransform`. -/
def GetTransform (e : Entity) : Mat4 := e.transform_

/-- The getter `Entity::GetBLAS`. -/
def GetBLAS (e : Entity) : Option AccelerationStructure := e.blas_

/-- The method `Entity::IsValid`. -/
def IsValid (e : Entity) : Bool := e.mesh_loaded_

/-- The method `Entity::HasUVCoordinates`. -/
def HasUVCoordinates (e : Entity) : Bool := e.has_uv_coords_

/-- The method `Entity::HasMTLMaterials`. -/
def HasMTLMaterials (e : Entity) : Bool := !e.materials_.isEmpty

/-- The method `Entity::HasMaterialIDs`. -/
def HasMaterialIDs (e : Entity) : Bool := e.has_material_ids_

/-- The method `Entity::GetNumVertices`. -/
def GetNumVertices (e : Entity) : Nat := e.mesh_.NumVertices

/-- The method `Entity::GetNumIndices`. -/
def GetNumIndices (e : Entity) : Nat := e.mesh_.NumIndices

/-- The method `Entity::GetNumTriangles`. -/
def GetNumTriangles (e : Entity) : Nat := e.mesh_.NumIndices / 3

/-- The getter `Entity::GetMaterialOffset`. -/
def GetMaterialOffset (e : Entity) : Int := e.material_offset_

/-- The setter `Entity::SetMaterialOffset`. -/
def SetMaterialOffset (e : Entity) (offset : Int) : Entity :=
  { e with material_offset_ := offset }

/-- The getter `Entity::GetUVCoordinates`. -/
def GetUVCoordinates (e : Entity) : Option (Nat → Vec2) := e.mesh_.TexCoords

/-- The getter `Entity::GetMaterialIDs`. -/
def GetMaterialIDs (e : Entity) : Option (Nat → Int) := e.mesh_.MaterialIds

/-- The getter `Entity::GetIndices`. -/
def GetIndices (e : Entity) : Nat → Nat := e.mesh_.Indices

/-- The UV part of `Entity::BuildBLAS`: the UV buffer is created only for an entity
with UV coordinates. -/
def BuildBLAS.uv (e : Entity) : Option Entity :=
  if e.has_uv_coords_ then do
    let uv_buffer_size := e.mesh_.NumVertices
    let uvs ← pushLoop e.mesh_.TexCoords id uv_buffer_size []
    let uv_buffer ← (CreateBuffer uv_buffer_size).UploadData uvs
    some { e with uv_buffer_ := some uv_buffer }
  else
    some e

/-- The material-ID part of `Entity::BuildBLAS`: the local IDs plus the entity's
current `material_offset_`, for an entity with per-triangle IDs. -/
def BuildBLAS.materialIDs (e : Entity) : Option Entity :=
  if e.has_material_ids_ then do
    let num_triangles := e.mesh_.NumIndices / 3
    let local_material_ids := e.mesh_.MaterialIds
    let global_material_ids ←
      pushLoop local_material_ids (fun id => id + e.material_offset_) num_triangles []
    let material_id_buffer ← (CreateBuffer num_triangles).UploadData global_material_ids
    some { e with material_id_buffer_ := some material_id_buffer }
  else
    some e

/-- The method `Entity::BuildBLAS`. -/
def BuildBLAS (e : Entity) : Option Entity :=
  if !e.mesh_loaded_ then
    some e
  else do
    let vertex_buffer_size := e.mesh_.NumVertices
    let positions ← pushLoop (some e.mesh_.Positions) id vertex_buffer_size []
    let vertex_buffer ← (CreateBuffer vertex_buffer_size).UploadData positions
    let index_buffer_size := e.mesh_.NumIndices
    let indices ← pushLoop (some e.mesh_.Indices) id index_buffer_size []
    let index_buffer ← (CreateBuffer index_buffer_size).UploadData indices
    let e1 := { e with vertex_buffer_ := some vertex_buffer, index_buffer_ := some index_buffer }
    let e2 ← BuildBLAS.uv e1
    let e3 ← BuildBLAS.materialIDs e2
    let blas : AccelerationStructure :=
      { vertex_buffer := vertex_buffer, index_buffer := index_buffer, stride := sizeof_vec3 }
    some { e3 with blas_ := some blas }

/-- The body of the material loop of `Entity::LoadMesh`: the `Material` made from one
entry of the loader's material table. -/
def LoadMesh.convert (base_dir : String) (mat_data : MaterialData) : Material :=
  let mat := Material.default
  let mat := { mat with
    base_color := ⟨mat_data.diffuse.x, mat_data.diffuse.y, mat_data.diffuse.z⟩ }
  let mat := { mat with roughness := 1 - glm_clamp (mat_data.shininess / 1000) 0 1 }
  let spec_avg := (mat_data.specular.x + mat_data.specular.y + mat_data.specular.z) / 3
  let mat := { mat with metallic := glm_clamp spec_avg 0 1 }
  let mat := { mat with
    emission := ⟨mat_data.emission.x, mat_data.emission.y, mat_data.emission.z⟩ }
  if mat_data.diffuse_texture != "" then
    { mat with texture_path := base_dir ++ "/" ++ mat_data.diffuse_texture }
  else
    mat

/-- The material loop of `Entity::LoadMesh`, threading the counter `i`, the vector
`materials_` and the map `material_name_to_index_`. -/
def LoadMesh.materialsLoop (base_dir : String) :
    List MaterialData → Nat → List Material → (String → Option Int) →
      List Material × (String → Option Int)
  | [], _, materials, names => (materials, names)
  | mat_data :: rest, i, materials, names =>
    LoadMesh.materialsLoop base_dir rest (i + 1)
      (materials ++ [LoadMesh.convert base_dir mat_data])
      (fun q => if q = mat_data.name then some (i : Int) else names q)

/-- The method `Entity::LoadMesh`: the returned flag and the entity afterwards. -/
def LoadMesh (L : Loader) (e : Entity) (obj_file_path : String) : Bool × Entity :=
  let full_path := L.FindAssetFile obj_file_path
  let r := L.LoadObjFile full_path e.mesh_
  let e0 := { e with mesh_ := r.2 }
  if r.1 ≠ 0 then
    (false, { e0 with mesh_loaded_ := false, has_uv_coords_ := false,
                      has_material_ids_ := false })
  else
    let e1 := { e0 with has_uv_coords_ := e0.mesh_.TexCoords.isSome }
    let e2 :=
      match e1.mesh_.MaterialIds with
      | some mtlid => if mtlid 0 ≠ -1 then { e1 with has_material_ids_ := true } else e1
      | none => e1
    let material_data := e2.mesh_.GetMaterialData
    let e3 :=
      if !material_data.isEmpty then
        let base_dir := L.parent_path full_path
        let r := LoadMesh.materialsLoop base_dir material_data 0 [] (fun _ => none)
        { e2 with materials_ := r.1, material_name_to_index_ := r.2 }
      else
        e2
    (true, { e3 with mesh_loaded_ := true })

/-- The constructor `Entity::Entity`: the fields are initialised, then the mesh is
loaded. -/
def ctor (L : Loader) (obj_file_path : String) (default_material : Material)
    (transform : Mat4) : Entity :=
  (LoadMesh L
    { mesh_ := Mesh.empty
      default_material_ := default_material
      materials_ := []
      material_name_to_index_ := fun _ => none
      transform_ := transform
      vertex_buffer_ := none
      index_buffer_ := none
      uv_buffer_ := none
      material_id_buffer_ := none
      blas_ := none
      mesh_loaded_ := false
      has_uv_coords_ := false
      has_material_ids_ := false
      material_offset_ := 0 } obj_file_path).2

/-- The method `Entity::GetMaterial(int index)`: the material at `index`, or `none`
for the null result. -/
def GetMaterial (e : Entity) (index : Int) : Option Material :=
  if index ≥ 0 ∧ index < (e.materials_.length : Int) then
    e.materials_[index.toNat]?
  else
    none

/-- The method `Entity::GetMaterial(const std::string& name)`. The inner `none` is the
null result; the index found in the map is used unchecked, and the outer `none`
is a read outside `materials_`. -/
def GetMaterialByName (e : Entity) (name : String) : Option (Option Material) :=
  match e.material_name_to_index_ name with
  | some index =>
    if index < 0 then none
    else (e.materials_[index.toNat]?).map some
  | none => some none

end Entity

/-! ## Scene.h -/

/-- The record `InstanceMetadata` of `Scene.h`. -/
structure InstanceMetadata where
  uv_offset : Int
  material_id_offset : Int
  has_uv : Int
  has_material_ids : Int
  vertex_count : Int
  triangle_count : Int
  index_offset : Int
  padding : Int
deriving DecidableEq

/-- The record `PointLight` of `Scene.h`. -/
structure PointLight where
  position : Vec3
  color : Vec3
deriving DecidableEq

/-- The address of an `Entity` object, as held by a `std::shared_ptr<Entity>`. -/
abbrev EntityPtr := Nat

/-- The private fields of `class Scene` (the backend handle `core_` apart). -/
structure Scene where
  entities_ : List EntityPtr
  tlas_ : Option TopLevelAS
  materials_buffer_ : Option (Buffer MaterialGPUData)
  point_lights_ : List PointLight
  global_uv_buffer_ : Option (Buffer Vec2)
  global_material_id_buffer_ : Option (Buffer Int)
  global_index_buffer_ : Option (Buffer Nat)
  instance_metadata_buffer_ : Option (Buffer InstanceMetadata)
  instance_metadata_ : List InstanceMetadata
  textures_ : List Image
  texture_path_to_index_ : String → Option Int
  normals_ : List Image

/-- The entity objects by address. -/
abbrev Heap := EntityPtr → Entity

/-- The object at address `p` replaced by `e`. -/
def Heap.set (h : Heap) (p : EntityPtr) (e : Entity) : Heap :=
  fun q => if q = p then e else h q

/-- The program state: the entity objects and one scene that points to them. -/
structure World where
  heap : Heap
  scene : Scene

/-! ## Scene.cpp -/

namespace Scene

/-- The constructor `Scene::Scene`: every container empty, every handle null. -/
def ctor : Scene :=
  { entities_ := []
    tlas_ := none
    materials_buffer_ := none
    point_lights_ := []
    global_uv_buffer_ := none
    global_material_id_buffer_ := none
    global_index_buffer_ := none
    instance_metadata_buffer_ := none
    instance_metadata_ := []
    textures_ := []
    texture_path_to_index_ := fun _ => none
    normals_ := [] }

/-- The method `Scene::GetEntityCount`. -/
def GetEntityCount (s : Scene) : Nat := s.entities_.length

/-- The method `Scene::GetTextureCount`. -/
def GetTextureCount (s : Scene) : Nat := s.textures_.length

/-- The method `Scene::GetNormalCount`. -/
def GetNormalCount (s : Scene) : Nat := s.normals_.length

/-- The method `Scene::AddEntity`; `none` is a null `shared_ptr`. -/
def AddEntity (w : World) (entity : Option EntityPtr) : Option World :=
  match entity with
  | none => some w
  | some p =>
    if !(w.heap p).IsValid then
      some w
    else do
      let built ← (w.heap p).BuildBLAS
      some
        { heap := w.heap.set p built
          scene := { w.scene with entities_ := w.scene.entities_ ++ [p] } }

/-- The method `Scene::AddPointLight`. -/
def AddPointLight (s : Scene) (light : PointLight) : Scene :=
  { s with point_lights_ := s.point_lights_ ++ [light] }

/-- The method `Scene::Clear`. -/
def Clear (s : Scene) : Scene :=
  { s with
    entities_ := []
    tlas_ := none
    materials_buffer_ := none
    textures_ := []
    texture_path_to_index_ := fun _ => none }

/-- The instance loop of `Scene::BuildAccelerationStructures`; `i` is the loop
counter. -/
def makeInstances (heap : Heap) :
    List EntityPtr → Nat → List RayTracingInstance → List RayTracingInstance
  | [], _, instances => instances
  | p :: rest, i, instances =>
    match (heap p).GetBLAS with
    | some blas =>
      let transform_3x4 := Mat4x3.ofMat4 (heap p).GetTransform
      let inst := blas.MakeInstance transform_3x4 i 0xFF 0 RAYTRACING_INSTANCE_FLAG_NONE
      makeInstances heap rest (i + 1) (instances ++ [inst])
    | none => makeInstances heap rest (i + 1) instances

/-- The loop of `Scene::AssignMaterialOffsets`, threading `global_material_offset`. -/
def AssignMaterialOffsets.loop : List EntityPtr → Heap → Int → Heap × Int
  | [], heap, global_material_offset => (heap, global_material_offset)
  | p :: rest, heap, global_material_offset =>
    let heap1 := heap.set p ((heap p).SetMaterialOffset global_material_offset)
    if (heap1 p).HasMTLMaterials then
      AssignMaterialOffsets.loop rest heap1
        (global_material_offset + ((heap1 p).GetMaterials.length : Int))
    else
      AssignMaterialOffsets.loop rest heap1 (global_material_offset + 1)

/-- The method `Scene::AssignMaterialOffsets`. -/
def AssignMaterialOffsets (w : World) : World :=
  { w with heap := (AssignMaterialOffsets.loop w.scene.entities_ w.heap 0).1 }

/-- The method `Scene::LoadTexture`: the scene afterwards and the returned index. -/
def LoadTexture (stbi_load : Decoder) (s : Scene) (filepath : String) : Scene × Int :=
  match s.texture_path_to_index_ filepath with
  | some index => (s, index)
  | none =>
    match stbi_load filepath with
    | none => (s, -1)
    | some img =>
      let texture := (CreateImage img.width img.height).UploadData img.data
      let index : Int := (s.textures_.length : Int)
      ({ s with
          textures_ := s.textures_ ++ [texture]
          texture_path_to_index_ := fun q =>
            if q = filepath then some index else s.texture_path_to_index_ q },
        index)

/-- The method `Scene::LoadNormal`: the scene afterwards and the returned index. -/
def LoadNormal (stbi_load : Decoder) (s : Scene) (filepath : String) : Scene × Int :=
  match stbi_load filepath with
  | none => (s, -1)
  | some img =>
    let normal := (CreateImage img.width img.height).UploadData img.data
    let index : Int := (s.normals_.length : Int)
    ({ s with normals_ := s.normals_ ++ [normal] }, index)

/-- The statement `if (mat.HasTexture()) mat.texture_index = LoadTexture(...)` of
`Scene::AssignTextureIndices`. -/
def AssignTextureIndices.texture (stbi_load : Decoder) (s : Scene) (mat : Material) :
    Scene × Material :=
  if mat.HasTexture then
    let r := LoadTexture stbi_load s mat.GetTexturePath
    (r.1, { mat with texture_index := r.2 })
  else
    (s, mat)

/-- The statement `if (mat.HasNormal()) mat.normal_index = LoadNormal(...)` of
`Scene::AssignTextureIndices`. -/
def AssignTextureIndices.normal (stbi_load : Decoder) (s : Scene) (mat : Material) :
    Scene × Material :=
  if mat.HasNormal then
    let r := LoadNormal stbi_load s mat.GetNormalPath
    (r.1, { mat with normal_index := r.2 })
  else
    (s, mat)

/-- What `Scene::AssignTextureIndices` does to one material `mat`: the texture
statement, then the normal statement. -/
def AssignTextureIndices.material (stbi_load : Decoder) (s : Scene) (mat : Material) :
    Scene × Material :=
  let r1 := AssignTextureIndices.texture stbi_load s mat
  AssignTextureIndices.normal stbi_load r1.1 r1.2

/-- The loop of `Scene::AssignTextureIndices` over the materials of one entity. -/
def AssignTextureIndices.materials (stbi_load : Decoder) :
    Scene → List Material → Scene × List Material
  | s, [] => (s, [])
  | s, mat :: rest =>
    let r := AssignTextureIndices.material stbi_load s mat
    let rs := AssignTextureIndices.materials stbi_load r.1 rest
    (rs.1, r.2 :: rs.2)

/-- The loop of `Scene::AssignTextureIndices` over the entities. -/
def AssignTextureIndices.loop (stbi_load : Decoder) : List EntityPtr → World → World
  | [], w => w
  | p :: rest, w =>
    let entity := w.heap p
    if entity.HasMTLMaterials then
      let r := AssignTextureIndices.materials stbi_load w.scene entity.materials_
      AssignTextureIndices.loop stbi_load rest
        { heap := w.heap.set p { entity with materials_ := r.2 }, scene := r.1 }
    else
      let r := AssignTextureIndices.material stbi_load w.scene entity.default_material_
      AssignTextureIndices.loop stbi_load rest
        { heap := w.heap.set p { entity with default_material_ := r.2 }, scene := r.1 }

/-- The method `Scene::AssignTextureIndices`. -/
def AssignTextureIndices (stbi_load : Decoder) (w : World) : World :=
  AssignTextureIndices.loop stbi_load w.scene.entities_ w

/-- The collecting loop of `Scene::ConstructUVBuffer`, threading `global_uv`. -/
def ConstructUVBuffer.collect (heap : Heap) : List EntityPtr → List Vec2 → Option (List Vec2)
  | [], global_uv => some global_uv
  | p :: rest, global_uv =>
    if (heap p).HasUVCoordinates then do
      let uv_data := (heap p).GetUVCoordinates
      let count := (heap p).GetNumVertices
      let global_uv1 ← pushLoop uv_data (fun uv => Vec2.mk uv.x uv.y) count global_uv
      ConstructUVBuffer.collect heap rest global_uv1
    else
      ConstructUVBuffer.collect heap rest global_uv

/-- The local vector `global_uv` that `Scene::ConstructUVBuffer` fills. -/
def global_uv (w : World) : Option (List Vec2) :=
  ConstructUVBuffer.collect w.heap w.scene.entities_ []

/-- The method `Scene::ConstructUVBuffer`. -/
def ConstructUVBuffer (w : World) : Option World :=
  if w.scene.entities_.isEmpty then
    some w
  else do
    let uvs ← global_uv w
    if !uvs.isEmpty then do
      let buffer ← (CreateBuffer uvs.length).UploadData uvs
      some { w with scene := { w.scene with global_uv_buffer_ := some buffer } }
    else
      some w

/-- The collecting loop of `Scene::ConstructMaterialIDBuffer`, threading
`global_material_ids`. -/
def ConstructMaterialIDBuffer.collect (heap : Heap) :
    List EntityPtr → List Int → Option (List Int)
  | [], global_material_ids => some global_material_ids
  | p :: rest, global_material_ids =>
    if (heap p).HasMaterialIDs then do
      let material_ids := (heap p).GetMaterialIDs
      let num_triangles := (heap p).GetNumTriangles
      let material_offset := (heap p).GetMaterialOffset
      let ids1 ←
        pushLoop material_ids (fun id => id + material_offset) num_triangles global_material_ids
      ConstructMaterialIDBuffer.collect heap rest ids1
    else
      ConstructMaterialIDBuffer.collect heap rest global_material_ids

/-- The local vector `global_material_ids` that `Scene::ConstructMaterialIDBuffer`
fills. -/
def global_material_ids (w : World) : Option (List Int) :=
  ConstructMaterialIDBuffer.collect w.heap w.scene.entities_ []

/-- The method `Scene::ConstructMaterialIDBuffer`. -/
def ConstructMaterialIDBuffer (w : World) : Option World :=
  if w.scene.entities_.isEmpty then
    some w
  else do
    let ids ← global_material_ids w
    if !ids.isEmpty then do
      let buffer ← (CreateBuffer ids.length).UploadData ids
      some { w with scene := { w.scene with global_material_id_buffer_ := some buffer } }
    else
      some w

/-- The collecting loop of `Scene::ConstructIndexBuffer`, threading `global_indices`. -/
def ConstructIndexBuffer.collect (heap : Heap) : List EntityPtr → List Nat → Option (List Nat)
  | [], global_indices => some global_indices
  | p :: rest, global_indices => do
    let indices := (heap p).GetIndices
    let num_indices := (heap p).GetNumIndices
    let global_indices1 ← pushLoop (some indices) id num_indices global_indices
    ConstructIndexBuffer.collect heap rest global_indices1

/-- The local vector `global_indices` that `Scene::ConstructIndexBuffer` fills. -/
def global_indices (w : World) : Option (List Nat) :=
  ConstructIndexBuffer.collect w.heap w.scene.entities_ []

/-- The method `Scene::ConstructIndexBuffer`. -/
def ConstructIndexBuffer (w : World) : Option World :=
  if w.scene.entities_.isEmpty then
    some w
  else do
    let idx ← global_indices w
    if !idx.isEmpty then do
      let buffer ← (CreateBuffer idx.length).UploadData idx
      some { w with scene := { w.scene with global_index_buffer_ := some buffer } }
    else
      some w

/-- The loop of `Scene::ConstructInstanceMetadataBuffer`, threading `uv_offset`,
`mat_id_offset`, `index_offset` and the vector `instance_metadata_`. -/
def ConstructInstanceMetadataBuffer.loop (heap : Heap) :
    List EntityPtr → Int → Int → Int → List InstanceMetadata → List InstanceMetadata
  | [], _, _, _, instance_metadata => instance_metadata
  | p :: rest, uv_offset, mat_id_offset, index_offset, instance_metadata =>
    let entity := heap p
    let m0 : InstanceMetadata :=
      { uv_offset := 0, material_id_offset := 0, has_uv := 0, has_material_ids := 0,
        vertex_count := 0, triangle_count := 0, index_offset := 0, padding := 0 }
    let m1 : InstanceMetadata :=
      if entity.HasUVCoordinates then
        { m0 with uv_offset := uv_offset, has_uv := 1,
                  vertex_count := (entity.GetNumVertices : Int) }
      else
        { m0 with uv_offset := -1, has_uv := 0, vertex_count := 0 }
    let uv_offset1 : Int :=
      if entity.HasUVCoordinates then uv_offset + m1.vertex_count else uv_offset
    let m2 : InstanceMetadata :=
      if entity.HasMaterialIDs then
        { m1 with material_id_offset := mat_id_offset, has_material_ids := 1,
                  triangle_count := (entity.GetNumTriangles : Int) }
      else
        { m1 with material_id_offset := entity.GetMaterialOffset, has_material_ids := 0,
                  triangle_count := 0 }
    let mat_id_offset1 : Int :=
      if entity.HasMaterialIDs then mat_id_offset + m2.triangle_count else mat_id_offset
    let m3 : InstanceMetadata := { m2 with index_offset := index_offset }
    ConstructInstanceMetadataBuffer.loop heap rest uv_offset1 mat_id_offset1
      (index_offset + (entity.GetNumIndices : Int)) (instance_metadata ++ [m3])

/-- The method `Scene::ConstructInstanceMetadataBuffer`. -/
def ConstructInstanceMetadataBuffer (w : World) : Option World :=
  if w.scene.entities_.isEmpty then
    some w
  else do
    let table := ConstructInstanceMetadataBuffer.loop w.heap w.scene.entities_ 0 0 0 []
    let buffer ← (CreateBuffer table.length).UploadData table
    some { w with scene :=
      { w.scene with instance_metadata_ := table, instance_metadata_buffer_ := some buffer } }

/-- The collecting loop of `Scene::UpdateMaterialsBuffer`, threading `materials`. -/
def UpdateMaterialsBuffer.collect (heap : Heap) :
    List EntityPtr → List MaterialGPUData → List MaterialGPUData
  | [], materials => materials
  | p :: rest, materials =>
    if (heap p).HasMTLMaterials then
      let mtl_materials := (heap p).GetMaterials
      UpdateMaterialsBuffer.collect heap rest
        (mtl_materials.foldl (fun acc mat => acc ++ [mat.ToGPUData]) materials)
    else
      UpdateMaterialsBuffer.collect heap rest
        (materials ++ [(heap p).GetDefaultMaterial.ToGPUData])

/-- The local vector `materials` that `Scene::UpdateMaterialsBuffer` fills. -/
def materials (w : World) : List MaterialGPUData :=
  UpdateMaterialsBuffer.collect w.heap w.scene.entities_ []

/-- The method `Scene::UpdateMaterialsBuffer`: the buffer is created only when the
scene has none yet. -/
def UpdateMaterialsBuffer (w : World) : Option World :=
  if w.scene.entities_.isEmpty then
    some w
  else do
    let rows := materials w
    let buffer_size := rows.length
    let buffer : Buffer MaterialGPUData :=
      match w.scene.materials_buffer_ with
      | none => CreateBuffer buffer_size
      | some b => b
    let uploaded ← buffer.UploadData rows
    some { w with scene := { w.scene with materials_buffer_ := some uploaded } }

/-- The method `Scene::BuildAccelerationStructures`. -/
def BuildAccelerationStructures (stbi_load : Decoder) (w : World) : Option World :=
  if w.scene.entities_.isEmpty then
    some w
  else do
    let instances := makeInstances w.heap w.scene.entities_ 0 []
    let w1 : World := { w with scene := { w.scene with tlas_ := some ⟨instances⟩ } }
    let w2 := AssignMaterialOffsets w1
    let w3 := AssignTextureIndices stbi_load w2
    let w4 ← ConstructUVBuffer w3
    let w5 ← ConstructMaterialIDBuffer w4
    let w6 ← ConstructIndexBuffer w5
    let w7 ← ConstructInstanceMetadataBuffer w6
    UpdateMaterialsBuffer w7

/-- The instance loop of `Scene::UpdateInstances`; `i` is the loop counter. -/
def UpdateInstances.instances (heap : Heap) :
    List EntityPtr → Nat → List RayTracingInstance → List RayTracingInstance
  | [], _, instances => instances
  | p :: rest, i, instances =>
    match (heap p).GetBLAS with
    | some blas =>
      let transform_3x4 := Mat4x3.ofMat4 (heap p).GetTransform
      let inst := blas.MakeInstance transform_3x4 i 0xFF 0 RAYTRACING_INSTANCE_FLAG_NONE
      UpdateInstances.instances heap rest (i + 1) (instances ++ [inst])
    | none => UpdateInstances.instances heap rest (i + 1) instances

/-- The method `Scene::UpdateInstances`. -/
def UpdateInstances (w : World) : World :=
  match w.scene.tlas_ with
  | none => w
  | some tlas =>
    if w.scene.entities_.isEmpty then
      w
    else
      let instances := UpdateInstances.instances w.heap w.scene.entities_ 0 []
      { w with scene := { w.scene with tlas_ := some (tlas.UpdateInstances instances) } }

/-- The method `Scene::GetTexture`; `none` is the null result. -/
def GetTexture (s : Scene) (index : Int) : Option Image :=
  if index < 0 ∨ index ≥ (s.textures_.length : Int) then none
  else s.textures_[index.toNat]?

/-- The method `Scene::GetNormal`; `none` is the null result. -/
def GetNormal (s : Scene) (index : Int) : Option Image :=
  if index < 0 ∨ index ≥ (s.normals_.length : Int) then none
  else s.normals_[index.toNat]?

/-- A run of `AddEntity` calls, one per element of `es`, in order. -/
def AddEntities : World → List (Option EntityPtr) → Option World
  | w, [] => some w
  | w, e :: rest => do
    let w1 ← AddEntity w e
    AddEntities w1 rest

end Scene

/-! ## Definitions used to state and prove the properties

Chunks of the global lists, running totals, the relations between the entity
states before and after a pass, and example scenes. -/

/-- What a successful `pushLoop` appends to `out`: the `n` elements `f (ptr[i])`
(nothing when the pointer is null, in which case `n` is `0`). -/
def readAll {α β : Type} (ptr : Option (Nat → α)) (f : α → β) (n : Nat) : List β :=
  match ptr with
  | some a => (List.range n).map (fun i => f (a i))
  | none => []

/-- The sum of `f` over the first `i` elements of `ps`. -/
def prefixSum {α : Type} (f : α → Nat) (ps : List α) (i : Nat) : Nat :=
  ((ps.take i).map f).sum

/-- The number of rows an entity owns in the global material array: the size of its
material list, or one (its default material) when the list is empty. -/
def Entity.materialSlots (e : Entity) : Nat :=
  if e.HasMTLMaterials then e.GetMaterials.length else 1

/-- Two materials that differ at most in `texture_index` and `normal_index`. -/
def Material.SameButIndices (m m' : Material) : Prop :=
  m' = { m with texture_index := m'.texture_index, normal_index := m'.normal_index }

/-- Two entity states that differ at most in the texture and normal indices of
their materials. -/
def Entity.SameButIndices (e e' : Entity) : Prop :=
  List.Forall₂ Material.SameButIndices e.materials_ e'.materials_ ∧
  e.default_material_.SameButIndices e'.default_material_ ∧
  e' = { e with materials_ := e'.materials_, default_material_ := e'.default_material_ }

/-- Two scene states that differ at most in the texture and normal caches. -/
def Scene.SameButCaches (s s' : Scene) : Prop :=
  s' = { s with textures_ := s'.textures_
                texture_path_to_index_ := s'.texture_path_to_index_
                normals_ := s'.normals_ }

/-- The UV entries an entity contributes to the global UV list. -/
def Entity.uvChunk (e : Entity) : List Vec2 :=
  if e.HasUVCoordinates then
    readAll e.GetUVCoordinates (fun uv => Vec2.mk uv.x uv.y) e.GetNumVertices
  else []

/-- The number of UV entries an entity contributes: its vertex count when it has
UV coordinates, nothing otherwise. -/
def Entity.uvCount (e : Entity) : Nat :=
  if e.HasUVCoordinates then e.GetNumVertices else 0

/-- The UV pointer of a UV-bearing entity with vertices is not null. -/
def Entity.UVReadable (e : Entity) : Prop :=
  e.HasUVCoordinates = true → 0 < e.GetNumVertices → ∃ a, e.GetUVCoordinates = some a

/-- The material IDs an entity contributes to the global material-ID list. -/
def Entity.idChunk (e : Entity) : List Int :=
  if e.HasMaterialIDs then
    readAll e.GetMaterialIDs (fun id => id + e.GetMaterialOffset) e.GetNumTriangles
  else []

/-- The number of material-ID entries an entity contributes: its triangle count
when it has per-triangle IDs, nothing otherwise. -/
def Entity.idCount (e : Entity) : Nat :=
  if e.HasMaterialIDs then e.GetNumTriangles else 0

/-- The material-ID pointer of an ID-bearing entity with triangles is not null. -/
def Entity.IDsReadable (e : Entity) : Prop :=
  e.HasMaterialIDs = true → 0 < e.GetNumTriangles → ∃ a, e.GetMaterialIDs = some a

/-- The indices an entity contributes to the global index list. -/
def Entity.indexChunk (e : Entity) : List Nat :=
  readAll (some e.GetIndices) id e.GetNumIndices

/-- The rows an entity contributes to the flattened materials list. -/
def Entity.materialChunk (e : Entity) : List MaterialGPUData :=
  if e.HasMTLMaterials then e.GetMaterials.map Material.ToGPUData
  else [e.GetDefaultMaterial.ToGPUData]

/-- The record the metadata loop emits for entity state `e` when the three running
offsets are `uv`, `mid` and `idx`. -/
def Entity.metadataRow (e : Entity) (uv mid idx : Int) : InstanceMetadata :=
  { uv_offset := if e.HasUVCoordinates then uv else -1
    material_id_offset := if e.HasMaterialIDs then mid else e.GetMaterialOffset
    has_uv := if e.HasUVCoordinates then 1 else 0
    has_material_ids := if e.HasMaterialIDs then 1 else 0
    vertex_count := if e.HasUVCoordinates then (e.GetNumVertices : Int) else 0
    triangle_count := if e.HasMaterialIDs then (e.GetNumTriangles : Int) else 0
    index_offset := idx
    padding := 0 }

namespace Scene

/-- The rows the metadata loop appends, one per entity. -/
def metadataRows (heap : Heap) : List EntityPtr → Int → Int → Int → List InstanceMetadata
  | [], _, _, _ => []
  | p :: rest, uv, mid, idx =>
    (heap p).metadataRow uv mid idx ::
      metadataRows heap rest (uv + ((heap p).uvCount : Int)) (mid + ((heap p).idCount : Int))
        (idx + ((heap p).GetNumIndices : Int))

end Scene

/-- The buffer a `Construct…Buffer` step leaves behind for the local list `l`: a fresh
buffer holding `l`, or the previous handle `old` when `l` is empty. -/
def uploaded {α : Type} (old : Option (Buffer α)) (l : List α) : Option (Buffer α) :=
  if l.isEmpty then old else some { size := l.length, data := l }

namespace Scene

/-- The buffer `UpdateMaterialsBuffer` uploads into: the one the scene has, or a
fresh one of the needed size. -/
def materialsTarget (w : World) : Buffer MaterialGPUData :=
  match w.scene.materials_buffer_ with
  | none => CreateBuffer (materials w).length
  | some b => b

/-- The state in which the buffer steps of `BuildAccelerationStructures` run: after
the instance list, the offset pass and the texture pass. -/
def prepared (stbi_load : Decoder) (w : World) : World :=
  AssignTextureIndices stbi_load (AssignMaterialOffsets
    { w with scene := { w.scene with
      tlas_ := some ⟨makeInstances w.heap w.scene.entities_ 0 []⟩ } })

end Scene

/-- Two entity states with the same mesh, the same flags and as many materials. -/
def Entity.SameGeometry (e e' : Entity) : Prop :=
  e'.mesh_ = e.mesh_ ∧ e'.mesh_loaded_ = e.mesh_loaded_ ∧
  e'.has_uv_coords_ = e.has_uv_coords_ ∧ e'.has_material_ids_ = e.has_material_ids_ ∧
  e'.materials_.length = e.materials_.length

/-- Two entity states that differ at most in their backend handles. -/
def Entity.SameButHandles (e e' : Entity) : Prop :=
  e' = { e with vertex_buffer_ := e'.vertex_buffer_
                index_buffer_ := e'.index_buffer_
                uv_buffer_ := e'.uv_buffer_
                material_id_buffer_ := e'.material_id_buffer_
                blas_ := e'.blas_ }

/-- A mesh with `nv` vertices and `ni` indices whose arrays hold simple values. -/
def exampleMesh (nv ni : Nat) (uv ids : Bool) : Mesh :=
  { NumVertices := nv
    NumIndices := ni
    Positions := fun i => ⟨i, 0, 0⟩
    Indices := fun i => i % 3
    TexCoords := if uv then some (fun i => ⟨i, 1⟩) else none
    MaterialIds := if ids then some (fun _ => 0) else none
    GetMaterialData := [] }

/-- A loaded entity over `exampleMesh` with the material list `mats`, before any
backend handle exists. -/
def exampleEntity (nv ni : Nat) (uv ids : Bool) (mats : List Material) : Entity :=
  { mesh_ := exampleMesh nv ni uv ids
    default_material_ := Material.default
    materials_ := mats
    material_name_to_index_ := fun _ => none
    transform_ := ⟨⟨1, 0, 0, 0⟩, ⟨0, 1, 0, 0⟩, ⟨0, 0, 1, 0⟩, ⟨0, 0, 0, 1⟩⟩
    vertex_buffer_ := none
    index_buffer_ := none
    uv_buffer_ := none
    material_id_buffer_ := none
    blas_ := none
    mesh_loaded_ := true
    has_uv_coords_ := uv
    has_material_ids_ := ids
    material_offset_ := 0 }

/-- A decoder that decodes every path to a one-pixel image. -/
def exampleDecoder : Decoder :=
  fun _ => some { width := 1, height := 1, channels := 4, data := [255, 255, 255, 255] }

/-- Entity `0` has three materials and UVs, every other entity has no material list
and per-triangle IDs over two triangles. -/
def exampleHeap : Heap :=
  fun p =>
    if p = 0 then
      exampleEntity 4 6 true false [Material.default, Material.default, Material.default]
    else
      exampleEntity 4 6 false true []

/-- An entity without material list, UVs or IDs at every address. -/
def plainHeap : Heap :=
  fun _ => exampleEntity 3 3 false false []

/-- An entity flagged as ID-bearing whose mesh has no index at all, at every address. -/
def noTriangleHeap : Heap :=
  fun _ => exampleEntity 0 0 false true []

/-- The whole example scene of two entities, added to a fresh scene and aggregated. -/
def exampleBuild : Option World :=
  (Scene.AddEntities { heap := exampleHeap, scene := Scene.ctor } [some 0, some 1]).bind
    (Scene.BuildAccelerationStructures exampleDecoder)

/-- An entity without material list whose default material names the normal map
`n.png`, at every address. -/
def normalMapHeap : Heap :=
  fun _ =>
    { exampleEntity 3 3 false false [] with
      default_material_ := { Material.default with normal_path := "n.png" } }

/-- A run of `LoadMesh` calls on one entity, one per element of `calls`, each with
the loader (the files) of its time. -/
def Entity.LoadMeshes (e : Entity) : List (Loader × String) → Entity
  | [] => e
  | call :: rest => Entity.LoadMeshes (Entity.LoadMesh call.1 e call.2).2 rest

/-- The name map of an entity holds only indices into its material list. -/
def Entity.NamesValid (e : Entity) : Prop :=
  ∀ (name : String) (index : Int), e.material_name_to_index_ name = some index →
    0 ≤ index ∧ index < (e.materials_.length : Int)

/-- The value `glm::clamp` is meant to give, case by case. -/
def clampCases (x lo hi : ℚ) : ℚ :=
  if x < lo then lo else if hi < x then hi else x

/-- One scalar of a GPU record: a `float` or an `int`. -/
inductive Scalar where
  | float (x : ℚ)
  | int (n : Int)
deriving DecidableEq

/-- The size of a scalar in bytes: `float` and `int` both take 4. -/
def Scalar.sizeof : Scalar → Nat
  | Scalar.float _ => 4
  | Scalar.int _ => 4

/-- The three `float` members of a `glm::vec3`, in order. -/
def Vec3.scalars (v : Vec3) : List Scalar :=
  [Scalar.float v.x, Scalar.float v.y, Scalar.float v.z]

/-- The members of `MaterialGPUData` in declaration order, flattened to scalars. -/
def MaterialGPUData.scalars (m : MaterialGPUData) : List Scalar :=
  m.base_color.scalars ++ [Scalar.float m.roughness] ++ [Scalar.float m.metallic] ++
    [Scalar.int m.texture_index] ++ [Scalar.int m.normal_index] ++ m.emission.scalars

/-- The size of a `MaterialGPUData` record laid out without padding: the sizes of
its scalars added up. -/
def MaterialGPUData.sizeof (m : MaterialGPUData) : Nat :=
  (m.scalars.map Scalar.sizeof).sum

/-- A mesh of one triangle with per-triangle material IDs and the material table
`table`. -/
def tableMesh (table : List MaterialData) : Mesh :=
  { exampleMesh 3 3 false true with GetMaterialData := table }

/-- Two entries of a loader's material table: a dull red and a glossy white with a
diffuse texture. -/
def exampleTable : List MaterialData :=
  [{ name := "red", diffuse := ⟨1, 0, 0⟩, specular := ⟨0, 0, 0⟩, shininess := 250,
     emission := ⟨0, 0, 0⟩, diffuse_texture := "" },
   { name := "white", diffuse := ⟨1, 1, 1⟩, specular := ⟨2, 2, 2⟩, shininess := 4000,
     emission := ⟨0, 0, 0⟩, diffuse_texture := "w.png" }]

/-- A mesh of one triangle whose per-triangle material IDs are all the sentinel `-1`. -/
def sentinelMesh : Mesh :=
  { exampleMesh 3 3 false false with MaterialIds := some (fun _ => -1) }

/-- A loader over three files: `ids.obj` (one triangle, per-triangle IDs, two
materials), `plain.obj` (one triangle, no UVs, no IDs, no materials) and
`sentinel.obj` (one triangle, IDs that are all `-1`); every other path fails
to load. -/
def exampleLoader : Loader :=
  { FindAssetFile := fun path => path
    LoadObjFile := fun path mesh =>
      if path = "ids.obj" then (0, tableMesh exampleTable)
      else if path = "plain.obj" then (0, exampleMesh 3 3 false false)
      else if path = "sentinel.obj" then (0, sentinelMesh)
      else (-1, mesh)
    parent_path := fun _ => "assets" }

/-- The identity transform. -/
def Mat4.identity : Mat4 :=
  ⟨⟨1, 0, 0, 0⟩, ⟨0, 1, 0, 0⟩, ⟨0, 0, 1, 0⟩, ⟨0, 0, 0, 1⟩⟩

/-- The materials the texture pass processes for an entity: its listed materials, or
its default material when the list is empty. -/
def Entity.owned (e : Entity) : List Material :=
  if e.HasMTLMaterials then e.GetMaterials else [e.GetDefaultMaterial]

namespace Scene

/-- The texture-cache invariant: the path-to-index map is injective, and its values
are exactly the indices `0, ..., texture count - 1`. -/
def CacheInv (s : Scene) : Prop :=
  (∀ (p q : String) (i : Int), s.texture_path_to_index_ p = some i →
    s.texture_path_to_index_ q = some i → p = q) ∧
  (∀ (p : String) (i : Int), s.texture_path_to_index_ p = some i →
    0 ≤ i ∧ i < (s.textures_.length : Int)) ∧
  (∀ i : Nat, i < s.textures_.length → ∃ p, s.texture_path_to_index_ p = some (i : Int))

/-- The operations that take a scene from one state to the next: the calls that
reach the texture cache, and `AddEntity`. -/
inductive Op where
  | AddEntity (entity : Option EntityPtr)
  | LoadTexture (stbi_load : Decoder) (filepath : String)
  | AssignTextureIndices (stbi_load : Decoder)
  | BuildAccelerationStructures (stbi_load : Decoder)
  | Clear

/-- Whether an operation is `Clear`. -/
def Op.isClear : Op → Bool
  | Op.Clear => true
  | _ => false

/-- Whether an operation resolves texture indices: `AssignTextureIndices`, alone or
inside `BuildAccelerationStructures`. -/
def Op.isAggregation : Op → Bool
  | Op.AssignTextureIndices _ => true
  | Op.BuildAccelerationStructures _ => true
  | _ => false

/-- One operation on a state. -/
def step (w : World) : Op → Option World
  | Op.AddEntity entity => AddEntity w entity
  | Op.LoadTexture stbi_load filepath =>
    some { w with scene := (LoadTexture stbi_load w.scene filepath).1 }
  | Op.AssignTextureIndices stbi_load => some (AssignTextureIndices stbi_load w)
  | Op.BuildAccelerationStructures stbi_load => BuildAccelerationStructures stbi_load w
  | Op.Clear => some { w with scene := w.scene.Clear }

/-- A sequence of operations, in order. -/
def run : World → List Op → Option World
  | w, [] => some w
  | w, op :: rest => (step w op).bind (fun w1 => run w1 rest)

end Scene

/-- An entity with two listed materials that both name the texture `a.png` and the
normal map `n.png`, at every address. -/
def texturedHeap : Heap :=
  fun _ =>
    exampleEntity 3 3 false false
      [{ Material.default with texture_path := "a.png", normal_path := "n.png" },
       { Material.default with texture_path := "a.png", normal_path := "n.png" }]

/-- A material with a texture path has a texture index that is negative or below `n`. -/
def Material.TextureIndexBelow (n : Nat) (mat : Material) : Prop :=
  mat.HasTexture = true → 0 ≤ mat.texture_index → mat.texture_index < (n : Int)

/-- The texture index of a material with a texture path is what the cache of `s`
resolves the path to: the cached index, or `-1` for a path that is not cached
and does not decode. -/
def Material.TextureResolved (d : Decoder) (s : Scene) (mat : Material) : Prop :=
  mat.HasTexture = true →
    s.texture_path_to_index_ mat.texture_path = some mat.texture_index ∨
    (s.texture_path_to_index_ mat.texture_path = none ∧ d mat.texture_path = none ∧
      mat.texture_index = -1)

/-- The cache of `s'` extends the cache of `s`: every entry is kept, and a path that
does not decode has not been entered. -/
def Scene.CacheExtends (d : Decoder) (s s' : Scene) : Prop :=
  (∀ (p : String) (i : Int), s.texture_path_to_index_ p = some i →
    s'.texture_path_to_index_ p = some i) ∧
  (∀ p : String, s.texture_path_to_index_ p = none → d p = none →
    s'.texture_path_to_index_ p = none)

/-! ## Reading arrays and concatenating per-entity chunks -/

theorem pushLoop_some {α β : Type} (a : Nat → α) (f : α → β) (n : Nat) (out : List β) :
    pushLoop (some a) f n out = some (out ++ (List.range n).map (fun i => f (a i))) := by
  induction n with
  | zero => simp [pushLoop]
  | succ n ih =>
    unfold pushLoop at ih ⊢
    rw [List.range_succ, List.foldlM_append, ih]
    simp [List.range_succ]

theorem pushLoop_zero {α β : Type} (ptr : Option (Nat → α)) (f : α → β) (out : List β) :
    pushLoop ptr f 0 out = some out := by
  simp [pushLoop]

theorem pushLoop_none_succ {α β : Type} (f : α → β) (n : Nat) (out : List β) :
    pushLoop (none : Option (Nat → α)) f (n + 1) out = none := by
  unfold pushLoop
  rw [List.range_succ, List.foldlM_append]
  cases h : List.foldlM (fun acc i =>
      (Option.map (fun a => a i) (none : Option (Nat → α))).map (fun v => acc ++ [f v]))
      out (List.range n) <;> simp

theorem pushLoop_eq_some {α β : Type} {ptr : Option (Nat → α)} {f : α → β} {n : Nat}
    {out r : List β} (h : pushLoop ptr f n out = some r) :
    r = out ++ readAll ptr f n ∧ (readAll ptr f n).length = n ∧
      (0 < n → ∃ a, ptr = some a) := by
  cases ptr with
  | some a =>
    rw [pushLoop_some] at h
    simp only [Option.some.injEq] at h
    subst h
    simp [readAll]
  | none =>
    cases n with
    | zero =>
      rw [pushLoop_zero] at h
      simp only [Option.some.injEq] at h
      subst h
      simp [readAll]
    | succ n =>
      rw [pushLoop_none_succ] at h
      exact absurd h (by simp)

theorem readAll_getElem? {α β : Type} (a : Nat → α) (f : α → β) (n v : Nat) (hv : v < n) :
    (readAll (some a) f n)[v]? = some (f (a v)) := by
  simp [readAll, List.getElem?_map, List.getElem?_range hv]

theorem prefixSum_zero {α : Type} (f : α → Nat) (ps : List α) : prefixSum f ps 0 = 0 := by
  simp [prefixSum]

theorem prefixSum_cons_succ {α : Type} (f : α → Nat) (p : α) (ps : List α) (i : Nat) :
    prefixSum f (p :: ps) (i + 1) = f p + prefixSum f ps i := by
  simp [prefixSum]

theorem prefixSum_length {α : Type} (f : α → Nat) (ps : List α) :
    prefixSum f ps ps.length = (ps.map f).sum := by
  simp [prefixSum]

theorem prefixSum_congr {α : Type} (f g : α → Nat) (ps : List α) (i : Nat)
    (h : ∀ p ∈ ps, f p = g p) : prefixSum f ps i = prefixSum g ps i := by
  induction ps generalizing i with
  | nil => simp [prefixSum]
  | cons q qs ih =>
    cases i with
    | zero => simp [prefixSum]
    | succ i =>
      rw [prefixSum_cons_succ, prefixSum_cons_succ, h q (List.mem_cons_self _ _),
        ih i (fun p hp => h p (List.mem_cons_of_mem _ hp))]

theorem sum_map_congr {α : Type} (f g : α → Nat) (ps : List α)
    (h : ∀ p ∈ ps, f p = g p) : (ps.map f).sum = (ps.map g).sum := by
  rw [← prefixSum_length, ← prefixSum_length, prefixSum_congr f g ps _ h]

/-- In the concatenation of the chunks `c p`, the chunk of position `i` starts at the
total length of the chunks before it. -/
theorem flatMap_getElem?_offset {α β : Type} (c : α → List β) (ps : List α) (i : Nat)
    (p : α) (j : Nat) (hp : ps[i]? = some p) (hj : j < (c p).length) :
    (ps.flatMap c)[prefixSum (fun q => (c q).length) ps i + j]? = (c p)[j]? := by
  induction ps generalizing i with
  | nil => simp at hp
  | cons q qs ih =>
    cases i with
    | zero =>
      simp only [List.getElem?_cons_zero, Option.some.injEq] at hp
      subst hp
      rw [prefixSum_zero, Nat.zero_add, List.flatMap_cons, List.getElem?_append_left hj]
    | succ i =>
      simp only [List.getElem?_cons_succ] at hp
      rw [prefixSum_cons_succ, List.flatMap_cons, List.getElem?_append_right (by omega)]
      have : (c q).length + prefixSum (fun q => (c q).length) qs i + j - (c q).length =
          prefixSum (fun q => (c q).length) qs i + j := by omega
      rw [this]
      exact ih i hp

theorem length_flatMap_eq_sum {α β : Type} (c : α → List β) (ps : List α) :
    (ps.flatMap c).length = (ps.map (fun q => (c q).length)).sum := by
  rw [List.length_flatMap]
  rfl

/-! ## Material offsets -/

theorem Entity.materialSlots_eq (e : Entity) :
    e.materialSlots = if 0 < e.materials_.length then e.materials_.length else 1 := by
  unfold Entity.materialSlots Entity.HasMTLMaterials Entity.GetMaterials
  cases h : e.materials_ <;> simp

theorem Entity.materialSlots_pos (e : Entity) : 0 < e.materialSlots := by
  rw [Entity.materialSlots_eq]
  split <;> omega

theorem Entity.materialSlots_setOffset (e : Entity) (g : Int) :
    (e.SetMaterialOffset g).materialSlots = e.materialSlots := rfl

theorem Heap.set_same (h : Heap) (p : EntityPtr) (e : Entity) : h.set p e p = e := by
  simp [Heap.set]

theorem Heap.set_other (h : Heap) (p q : EntityPtr) (e : Entity) (hq : q ≠ p) :
    h.set p e q = h q := by
  simp [Heap.set, hq]

namespace Scene

theorem AssignMaterialOffsets.loop_cons (p : EntityPtr) (rest : List EntityPtr) (h : Heap)
    (g : Int) :
    AssignMaterialOffsets.loop (p :: rest) h g =
      AssignMaterialOffsets.loop rest (h.set p ((h p).SetMaterialOffset g))
        (g + ((h p).materialSlots : Int)) := by
  simp only [AssignMaterialOffsets.loop, Heap.set_same]
  unfold Entity.materialSlots
  have e1 : ((h p).SetMaterialOffset g).HasMTLMaterials = (h p).HasMTLMaterials := rfl
  have e2 : ((h p).SetMaterialOffset g).GetMaterials = (h p).GetMaterials := rfl
  rw [e1, e2]
  cases (h p).HasMTLMaterials <;> simp

/-- The offset pass changes nothing but `material_offset_`. -/
theorem AssignMaterialOffsets.loop_frame_offsets (ps : List EntityPtr) (h : Heap) (g : Int)
    (q : EntityPtr) :
    (AssignMaterialOffsets.loop ps h g).1 q =
      { h q with material_offset_ := ((AssignMaterialOffsets.loop ps h g).1 q).material_offset_ } := by
  induction ps generalizing h g with
  | nil => rfl
  | cons p rest ih =>
    rw [AssignMaterialOffsets.loop_cons]
    rw [ih]
    by_cases hq : q = p
    · subst hq
      simp [Heap.set_same, Entity.SetMaterialOffset]
    · simp [Heap.set_other _ _ _ _ hq]

theorem AssignMaterialOffsets.loop_slots (ps : List EntityPtr) (h : Heap) (g : Int)
    (q : EntityPtr) :
    ((AssignMaterialOffsets.loop ps h g).1 q).materialSlots = (h q).materialSlots := by
  rw [AssignMaterialOffsets.loop_frame_offsets]
  rfl

theorem AssignMaterialOffsets.loop_not_mem (ps : List EntityPtr) (h : Heap) (g : Int)
    (q : EntityPtr) (hq : q ∉ ps) : (AssignMaterialOffsets.loop ps h g).1 q = h q := by
  induction ps generalizing h g with
  | nil => rfl
  | cons p rest ih =>
    rw [AssignMaterialOffsets.loop_cons]
    have h1 : q ≠ p := fun e => hq (e ▸ List.mem_cons_self _ _)
    have h2 : q ∉ rest := fun e => hq (List.mem_cons_of_mem _ e)
    rw [ih _ _ h2, Heap.set_other _ _ _ _ h1]

/-- The final running total of the offset pass. -/
theorem AssignMaterialOffsets.loop_total (ps : List EntityPtr) (h : Heap) (g : Int) :
    (AssignMaterialOffsets.loop ps h g).2 =
      g + ((ps.map (fun q => (h q).materialSlots)).sum : Nat) := by
  induction ps generalizing h g with
  | nil => simp [AssignMaterialOffsets.loop]
  | cons p rest ih =>
    rw [AssignMaterialOffsets.loop_cons, ih]
    have hs : (rest.map (fun q => ((h.set p ((h p).SetMaterialOffset g)) q).materialSlots)) =
        rest.map (fun q => (h q).materialSlots) := by
      apply List.map_congr_left
      intro q _
      by_cases hq : q = p
      · subst hq; simp [Heap.set_same, Entity.materialSlots_setOffset]
      · simp [Heap.set_other _ _ _ _ hq]
    rw [hs]
    simp only [List.map_cons, List.sum_cons]
    push_cast
    ring

theorem prefixSum_slots_set (ps : List EntityPtr) (h : Heap) (p : EntityPtr) (g : Int)
    (i : Nat) :
    prefixSum (fun q => ((h.set p ((h p).SetMaterialOffset g)) q).materialSlots) ps i =
      prefixSum (fun q => (h q).materialSlots) ps i := by
  apply prefixSum_congr
  intro q _
  by_cases hq : q = p
  · subst hq; simp [Heap.set_same, Entity.materialSlots_setOffset]
  · simp [Heap.set_other _ _ _ _ hq]

/-- The offset an entity ends with is the running total at its last position. -/
theorem AssignMaterialOffsets.loop_offset_last (ps : List EntityPtr) (h : Heap) (g : Int)
    (i : Nat) (p : EntityPtr) (hp : ps[i]? = some p) (hlast : p ∉ ps.drop (i + 1)) :
    ((AssignMaterialOffsets.loop ps h g).1 p).material_offset_ =
      g + (prefixSum (fun q => (h q).materialSlots) ps i : Nat) := by
  induction ps generalizing h g i with
  | nil => simp at hp
  | cons q rest ih =>
    rw [AssignMaterialOffsets.loop_cons]
    cases i with
    | zero =>
      simp only [List.getElem?_cons_zero, Option.some.injEq] at hp
      subst hp
      simp only [Nat.zero_add, List.drop_succ_cons, List.drop_zero] at hlast
      rw [AssignMaterialOffsets.loop_not_mem _ _ _ _ hlast, Heap.set_same, prefixSum_zero]
      simp [Entity.SetMaterialOffset]
    | succ i =>
      simp only [List.getElem?_cons_succ] at hp
      simp only [List.drop_succ_cons] at hlast
      rw [ih _ _ i hp hlast, prefixSum_slots_set, prefixSum_cons_succ]
      push_cast
      ring

/-- Every entity of the sequence ends with the running total of one of its
positions. -/
theorem AssignMaterialOffsets.loop_offset_mem (ps : List EntityPtr) (h : Heap) (g : Int)
    (p : EntityPtr) (hp : p ∈ ps) :
    ∃ i, ps[i]? = some p ∧
      ((AssignMaterialOffsets.loop ps h g).1 p).material_offset_ =
        g + (prefixSum (fun q => (h q).materialSlots) ps i : Nat) := by
  induction ps generalizing h g with
  | nil => simp at hp
  | cons q rest ih =>
    rw [AssignMaterialOffsets.loop_cons]
    by_cases hr : p ∈ rest
    · obtain ⟨i, hi, ho⟩ := ih (h.set q ((h q).SetMaterialOffset g))
        (g + ((h q).materialSlots : Int)) hr
      refine ⟨i + 1, by simpa using hi, ?_⟩
      rw [ho, prefixSum_slots_set, prefixSum_cons_succ]
      push_cast
      ring
    · have hq : p = q := by
        rcases List.mem_cons.mp hp with e | e
        · exact e
        · exact absurd e hr
      subst hq
      refine ⟨0, by simp, ?_⟩
      rw [AssignMaterialOffsets.loop_not_mem _ _ _ _ hr, Heap.set_same, prefixSum_zero]
      simp [Entity.SetMaterialOffset]

end Scene

/-! ## What the texture pass leaves alone -/

theorem Material.SameButIndices.refl_material (m : Material) : m.SameButIndices m := rfl

theorem Material.SameButIndices.trans_material {a b c : Material} (h1 : a.SameButIndices b)
    (h2 : b.SameButIndices c) : a.SameButIndices c := by
  unfold Material.SameButIndices at *
  rw [h2, h1]

theorem Entity.SameButIndices.refl_indices (e : Entity) : e.SameButIndices e := by
  refine ⟨?_, Material.SameButIndices.refl_material _, rfl⟩
  induction e.materials_ with
  | nil => exact List.Forall₂.nil
  | cons m ms ih => exact List.Forall₂.cons (Material.SameButIndices.refl_material m) ih

theorem forall₂_sameButIndices_trans {a b c : List Material}
    (h1 : List.Forall₂ Material.SameButIndices a b)
    (h2 : List.Forall₂ Material.SameButIndices b c) :
    List.Forall₂ Material.SameButIndices a c := by
  induction h1 generalizing c with
  | nil => cases h2; exact List.Forall₂.nil
  | cons hab _ ih =>
    cases h2 with
    | cons hbc hrest => exact List.Forall₂.cons (hab.trans_material hbc) (ih hrest)

theorem Entity.SameButIndices.trans_indices {a b c : Entity} (h1 : a.SameButIndices b)
    (h2 : b.SameButIndices c) : a.SameButIndices c := by
  obtain ⟨m1, d1, e1⟩ := h1
  obtain ⟨m2, d2, e2⟩ := h2
  refine ⟨forall₂_sameButIndices_trans m1 m2, d1.trans_material d2, ?_⟩
  rw [e2, e1]

theorem Entity.SameButIndices.materials_length {e e' : Entity} (h : e.SameButIndices e') :
    e'.materials_.length = e.materials_.length :=
  (List.Forall₂.length_eq h.1).symm

theorem Entity.SameButIndices.mesh_eq {e e' : Entity} (h : e.SameButIndices e') :
    e'.mesh_ = e.mesh_ := by
  rw [h.2.2]

theorem Entity.SameButIndices.offset_eq_of_indices {e e' : Entity} (h : e.SameButIndices e') :
    e'.material_offset_ = e.material_offset_ := by
  rw [h.2.2]

theorem Entity.SameButIndices.has_uv_coords_eq {e e' : Entity} (h : e.SameButIndices e') :
    e'.has_uv_coords_ = e.has_uv_coords_ := by
  rw [h.2.2]

theorem Entity.SameButIndices.has_material_ids_eq {e e' : Entity} (h : e.SameButIndices e') :
    e'.has_material_ids_ = e.has_material_ids_ := by
  rw [h.2.2]

theorem Entity.SameButIndices.mesh_loaded_eq {e e' : Entity} (h : e.SameButIndices e') :
    e'.mesh_loaded_ = e.mesh_loaded_ := by
  rw [h.2.2]

theorem Entity.SameButIndices.blas_eq {e e' : Entity} (h : e.SameButIndices e') :
    e'.blas_ = e.blas_ := by
  rw [h.2.2]

theorem Entity.SameButIndices.transform_eq {e e' : Entity} (h : e.SameButIndices e') :
    e'.transform_ = e.transform_ := by
  rw [h.2.2]

theorem Entity.SameButIndices.slots_eq_of_indices {e e' : Entity} (h : e.SameButIndices e') :
    e'.materialSlots = e.materialSlots := by
  rw [Entity.materialSlots_eq, Entity.materialSlots_eq, h.materials_length]

theorem Scene.SameButCaches.refl_caches (s : Scene) : s.SameButCaches s := rfl

theorem Scene.SameButCaches.trans_caches {a b c : Scene} (h1 : a.SameButCaches b)
    (h2 : b.SameButCaches c) : a.SameButCaches c := by
  unfold Scene.SameButCaches at *
  rw [h2, h1]

theorem Scene.SameButCaches.entities_eq {s s' : Scene} (h : s.SameButCaches s') :
    s'.entities_ = s.entities_ := by
  rw [h]

theorem Scene.SameButCaches.materials_buffer_eq {s s' : Scene} (h : s.SameButCaches s') :
    s'.materials_buffer_ = s.materials_buffer_ := by
  rw [h]

theorem Scene.SameButCaches.tlas_eq {s s' : Scene} (h : s.SameButCaches s') :
    s'.tlas_ = s.tlas_ := by
  rw [h]

namespace Scene

theorem LoadTexture_frame (d : Decoder) (s : Scene) (f : String) :
    s.SameButCaches (LoadTexture d s f).1 := by
  unfold LoadTexture
  cases s.texture_path_to_index_ f with
  | some i => exact SameButCaches.refl_caches s
  | none =>
    cases d f with
    | none => exact SameButCaches.refl_caches s
    | some img => rfl

theorem LoadNormal_frame (d : Decoder) (s : Scene) (f : String) :
    s.SameButCaches (LoadNormal d s f).1 := by
  unfold LoadNormal
  cases d f with
  | none => exact SameButCaches.refl_caches s
  | some img => rfl

theorem AssignTextureIndices.texture_frame (d : Decoder) (s : Scene) (m : Material) :
    s.SameButCaches (AssignTextureIndices.texture d s m).1 ∧
      m.SameButIndices (AssignTextureIndices.texture d s m).2 := by
  unfold AssignTextureIndices.texture
  split
  · exact ⟨LoadTexture_frame d s _, rfl⟩
  · exact ⟨SameButCaches.refl_caches s, rfl⟩

theorem AssignTextureIndices.normal_frame (d : Decoder) (s : Scene) (m : Material) :
    s.SameButCaches (AssignTextureIndices.normal d s m).1 ∧
      m.SameButIndices (AssignTextureIndices.normal d s m).2 := by
  unfold AssignTextureIndices.normal
  split
  · exact ⟨LoadNormal_frame d s _, rfl⟩
  · exact ⟨SameButCaches.refl_caches s, rfl⟩

theorem AssignTextureIndices.material_frame (d : Decoder) (s : Scene) (m : Material) :
    s.SameButCaches (AssignTextureIndices.material d s m).1 ∧
      m.SameButIndices (AssignTextureIndices.material d s m).2 := by
  unfold AssignTextureIndices.material
  obtain ⟨h1, h2⟩ := AssignTextureIndices.texture_frame d s m
  obtain ⟨h3, h4⟩ := AssignTextureIndices.normal_frame d
    (AssignTextureIndices.texture d s m).1 (AssignTextureIndices.texture d s m).2
  exact ⟨h1.trans_caches h3, h2.trans_material h4⟩

theorem AssignTextureIndices.materials_frame (d : Decoder) (s : Scene) (ms : List Material) :
    s.SameButCaches (AssignTextureIndices.materials d s ms).1 ∧
      List.Forall₂ Material.SameButIndices ms (AssignTextureIndices.materials d s ms).2 := by
  induction ms generalizing s with
  | nil => exact ⟨SameButCaches.refl_caches s, List.Forall₂.nil⟩
  | cons m rest ih =>
    simp only [AssignTextureIndices.materials]
    obtain ⟨h1, h2⟩ := AssignTextureIndices.material_frame d s m
    obtain ⟨h3, h4⟩ := ih (AssignTextureIndices.material d s m).1
    exact ⟨h1.trans_caches h3, List.Forall₂.cons h2 h4⟩

/-- The texture pass changes the two caches and the indices stored in materials,
nothing else. -/
theorem AssignTextureIndices.loop_frame_textures (d : Decoder) (ps : List EntityPtr) (w : World) :
    w.scene.SameButCaches (AssignTextureIndices.loop d ps w).scene ∧
      ∀ q, (w.heap q).SameButIndices ((AssignTextureIndices.loop d ps w).heap q) := by
  induction ps generalizing w with
  | nil => exact ⟨SameButCaches.refl_caches _, fun q => Entity.SameButIndices.refl_indices _⟩
  | cons p rest ih =>
    simp only [AssignTextureIndices.loop]
    by_cases hm : (w.heap p).HasMTLMaterials = true
    · simp only [hm, if_true]
      obtain ⟨h1, h2⟩ := AssignTextureIndices.materials_frame d w.scene (w.heap p).materials_
      obtain ⟨h3, h4⟩ := ih
        { heap := w.heap.set p { w.heap p with
            materials_ := (AssignTextureIndices.materials d w.scene (w.heap p).materials_).2 },
          scene := (AssignTextureIndices.materials d w.scene (w.heap p).materials_).1 }
      refine ⟨h1.trans_caches h3, fun q => Entity.SameButIndices.trans_indices ?_ (h4 q)⟩
      by_cases hq : q = p
      · subst hq
        simp only [Heap.set_same]
        exact ⟨h2, Material.SameButIndices.refl_material _, rfl⟩
      · simp only [Heap.set_other _ _ _ _ hq]
        exact Entity.SameButIndices.refl_indices _
    · simp only [hm, if_false]
      obtain ⟨h1, h2⟩ := AssignTextureIndices.material_frame d w.scene (w.heap p).default_material_
      obtain ⟨h3, h4⟩ := ih
        { heap := w.heap.set p { w.heap p with
            default_material_ :=
              (AssignTextureIndices.material d w.scene (w.heap p).default_material_).2 },
          scene := (AssignTextureIndices.material d w.scene (w.heap p).default_material_).1 }
      refine ⟨h1.trans_caches h3, fun q => Entity.SameButIndices.trans_indices ?_ (h4 q)⟩
      by_cases hq : q = p
      · subst hq
        simp only [Heap.set_same]
        exact ⟨(Entity.SameButIndices.refl_indices _).1, h2, rfl⟩
      · simp only [Heap.set_other _ _ _ _ hq]
        exact Entity.SameButIndices.refl_indices _

end Scene

/-! ## The global lists as concatenations of per-entity chunks -/

theorem pushLoop_eq_some_iff {α β : Type} (ptr : Option (Nat → α)) (f : α → β) (n : Nat)
    (out r : List β) :
    pushLoop ptr f n out = some r ↔
      (0 < n → ∃ a, ptr = some a) ∧ r = out ++ readAll ptr f n := by
  constructor
  · intro h
    obtain ⟨h1, _, h3⟩ := pushLoop_eq_some h
    exact ⟨h3, h1⟩
  · rintro ⟨h1, h2⟩
    cases ptr with
    | some a => rw [pushLoop_some, h2]; rfl
    | none =>
      cases n with
      | zero => rw [pushLoop_zero, h2]; simp [readAll]
      | succ n =>
        obtain ⟨a, ha⟩ := h1 (Nat.succ_pos n)
        exact absurd ha (by simp)

theorem readAll_length_of {α β : Type} (ptr : Option (Nat → α)) (f : α → β) (n : Nat)
    (h : 0 < n → ∃ a, ptr = some a) : (readAll ptr f n).length = n := by
  cases ptr with
  | some a => simp [readAll]
  | none =>
    cases n with
    | zero => simp [readAll]
    | succ n =>
      obtain ⟨a, ha⟩ := h (Nat.succ_pos n)
      exact absurd ha (by simp)

theorem Entity.uvChunk_length (e : Entity) (h : e.UVReadable) :
    e.uvChunk.length = e.uvCount := by
  unfold Entity.uvChunk Entity.uvCount
  by_cases hu : e.HasUVCoordinates = true
  · rw [if_pos hu, if_pos hu]
    exact readAll_length_of _ _ _ (h hu)
  · rw [if_neg hu, if_neg hu]
    rfl

theorem Entity.idChunk_length (e : Entity) (h : e.IDsReadable) :
    e.idChunk.length = e.idCount := by
  unfold Entity.idChunk Entity.idCount
  by_cases hu : e.HasMaterialIDs = true
  · rw [if_pos hu, if_pos hu]
    exact readAll_length_of _ _ _ (h hu)
  · rw [if_neg hu, if_neg hu]
    rfl

theorem Entity.indexChunk_length (e : Entity) : e.indexChunk.length = e.GetNumIndices := by
  simp [Entity.indexChunk, readAll]

theorem Entity.materialChunk_length (e : Entity) :
    e.materialChunk.length = e.materialSlots := by
  unfold Entity.materialChunk Entity.materialSlots
  split <;> simp

namespace Scene

theorem ConstructUVBuffer.collect_uv_iff (heap : Heap) (ps : List EntityPtr)
    (g r : List Vec2) :
    ConstructUVBuffer.collect heap ps g = some r ↔
      (∀ p ∈ ps, (heap p).UVReadable) ∧ r = g ++ ps.flatMap (fun p => (heap p).uvChunk) := by
  induction ps generalizing g with
  | nil => simp [ConstructUVBuffer.collect, eq_comm]
  | cons p rest ih =>
    unfold ConstructUVBuffer.collect
    by_cases hu : (heap p).HasUVCoordinates = true
    · rw [if_pos hu]
      simp only [Option.bind_eq_bind, Option.bind_eq_some, pushLoop_eq_some_iff, ih,
        List.mem_cons, forall_eq_or_imp, List.flatMap_cons]
      have hc : (heap p).uvChunk = readAll (heap p).GetUVCoordinates
          (fun uv => Vec2.mk uv.x uv.y) (heap p).GetNumVertices := by
        unfold Entity.uvChunk; rw [if_pos hu]
      constructor
      · rintro ⟨g1, ⟨hread, rfl⟩, hall, rfl⟩
        exact ⟨⟨fun _ => hread, hall⟩, by rw [hc, List.append_assoc]⟩
      · rintro ⟨⟨hread, hall⟩, rfl⟩
        exact ⟨_, ⟨hread hu, rfl⟩, hall, by rw [hc, List.append_assoc]⟩
    · rw [if_neg hu]
      simp only [ih, List.mem_cons, forall_eq_or_imp, List.flatMap_cons]
      have hc : (heap p).uvChunk = [] := by
        unfold Entity.uvChunk; rw [if_neg hu]
      rw [hc, List.nil_append]
      constructor
      · rintro ⟨hall, rfl⟩
        exact ⟨⟨fun h => absurd h hu, hall⟩, rfl⟩
      · rintro ⟨⟨_, hall⟩, rfl⟩
        exact ⟨hall, rfl⟩

theorem ConstructMaterialIDBuffer.collect_ids_iff (heap : Heap) (ps : List EntityPtr)
    (g r : List Int) :
    ConstructMaterialIDBuffer.collect heap ps g = some r ↔
      (∀ p ∈ ps, (heap p).IDsReadable) ∧ r = g ++ ps.flatMap (fun p => (heap p).idChunk) := by
  induction ps generalizing g with
  | nil => simp [ConstructMaterialIDBuffer.collect, eq_comm]
  | cons p rest ih =>
    unfold ConstructMaterialIDBuffer.collect
    by_cases hu : (heap p).HasMaterialIDs = true
    · rw [if_pos hu]
      simp only [Option.bind_eq_bind, Option.bind_eq_some, pushLoop_eq_some_iff, ih,
        List.mem_cons, forall_eq_or_imp, List.flatMap_cons]
      have hc : (heap p).idChunk = readAll (heap p).GetMaterialIDs
          (fun id => id + (heap p).GetMaterialOffset) (heap p).GetNumTriangles := by
        unfold Entity.idChunk; rw [if_pos hu]
      constructor
      · rintro ⟨g1, ⟨hread, rfl⟩, hall, rfl⟩
        exact ⟨⟨fun _ => hread, hall⟩, by rw [hc, List.append_assoc]⟩
      · rintro ⟨⟨hread, hall⟩, rfl⟩
        exact ⟨_, ⟨hread hu, rfl⟩, hall, by rw [hc, List.append_assoc]⟩
    · rw [if_neg hu]
      simp only [ih, List.mem_cons, forall_eq_or_imp, List.flatMap_cons]
      have hc : (heap p).idChunk = [] := by
        unfold Entity.idChunk; rw [if_neg hu]
      rw [hc, List.nil_append]
      constructor
      · rintro ⟨hall, rfl⟩
        exact ⟨⟨fun h => absurd h hu, hall⟩, rfl⟩
      · rintro ⟨⟨_, hall⟩, rfl⟩
        exact ⟨hall, rfl⟩

theorem ConstructIndexBuffer.collect_indices_eq (heap : Heap) (ps : List EntityPtr) (g : List Nat) :
    ConstructIndexBuffer.collect heap ps g =
      some (g ++ ps.flatMap (fun p => (heap p).indexChunk)) := by
  induction ps generalizing g with
  | nil => simp [ConstructIndexBuffer.collect]
  | cons p rest ih =>
    unfold ConstructIndexBuffer.collect
    simp only [Option.bind_eq_bind, pushLoop_some, Option.some_bind, ih, List.flatMap_cons]
    simp [Entity.indexChunk, readAll]

theorem foldl_push_eq {α β : Type} (f : α → β) (ms : List α) (init : List β) :
    ms.foldl (fun acc m => acc ++ [f m]) init = init ++ ms.map f := by
  induction ms generalizing init with
  | nil => simp
  | cons m rest ih => simp [ih]

theorem UpdateMaterialsBuffer.collect_materials_eq (heap : Heap) (ps : List EntityPtr)
    (g : List MaterialGPUData) :
    UpdateMaterialsBuffer.collect heap ps g =
      g ++ ps.flatMap (fun p => (heap p).materialChunk) := by
  induction ps generalizing g with
  | nil => simp [UpdateMaterialsBuffer.collect]
  | cons p rest ih =>
    unfold UpdateMaterialsBuffer.collect
    by_cases hm : (heap p).HasMTLMaterials = true
    · simp only [if_pos hm, ih, foldl_push_eq, List.flatMap_cons, Entity.materialChunk,
        List.append_assoc]
    · simp only [if_neg hm, ih, List.flatMap_cons, Entity.materialChunk, List.append_assoc]

end Scene

/-! ## The instance-metadata table -/

namespace Scene

theorem ConstructInstanceMetadataBuffer.loop_eq (heap : Heap) (ps : List EntityPtr)
    (uv mid idx : Int) (md : List InstanceMetadata) :
    ConstructInstanceMetadataBuffer.loop heap ps uv mid idx md =
      md ++ metadataRows heap ps uv mid idx := by
  induction ps generalizing uv mid idx md with
  | nil => simp [ConstructInstanceMetadataBuffer.loop, metadataRows]
  | cons p rest ih =>
    unfold ConstructInstanceMetadataBuffer.loop metadataRows
    simp only [ih, List.append_assoc, List.singleton_append]
    unfold Entity.metadataRow Entity.uvCount Entity.idCount
    cases (heap p).HasUVCoordinates <;> cases (heap p).HasMaterialIDs <;> simp

theorem metadataRows_length (heap : Heap) (ps : List EntityPtr) (uv mid idx : Int) :
    (metadataRows heap ps uv mid idx).length = ps.length := by
  induction ps generalizing uv mid idx with
  | nil => rfl
  | cons p rest ih => simp [metadataRows, ih]

/-- Row `i` of the table is the record of entity `i` at the running totals of the
entities before it. -/
theorem metadataRows_getElem? (heap : Heap) (ps : List EntityPtr) (uv mid idx : Int)
    (i : Nat) (p : EntityPtr) (hp : ps[i]? = some p) :
    (metadataRows heap ps uv mid idx)[i]? =
      some ((heap p).metadataRow
        (uv + (prefixSum (fun q => (heap q).uvCount) ps i : Nat))
        (mid + (prefixSum (fun q => (heap q).idCount) ps i : Nat))
        (idx + (prefixSum (fun q => (heap q).GetNumIndices) ps i : Nat))) := by
  induction ps generalizing uv mid idx i with
  | nil => simp at hp
  | cons q rest ih =>
    cases i with
    | zero =>
      simp only [List.getElem?_cons_zero, Option.some.injEq] at hp
      subst hp
      simp [metadataRows, prefixSum_zero]
    | succ i =>
      simp only [List.getElem?_cons_succ] at hp
      simp only [metadataRows, List.getElem?_cons_succ, ih _ _ _ i hp, prefixSum_cons_succ]
      push_cast
      simp only [add_assoc]

end Scene

/-! ## The steps of `BuildAccelerationStructures` -/

theorem CreateBuffer_UploadData {α : Type} (l : List α) :
    (CreateBuffer l.length).UploadData l = some { size := l.length, data := l } := by
  simp [CreateBuffer, Buffer.UploadData]

theorem isEmpty_eq_false_of_ne_nil {α : Type} {l : List α} (h : l ≠ []) :
    l.isEmpty = false := by
  cases l with
  | nil => exact absurd rfl h
  | cons a t => rfl

namespace Scene

theorem ConstructUVBuffer_eq_some {w w' : World} (h : ConstructUVBuffer w = some w')
    (hne : w.scene.entities_ ≠ []) :
    ∃ uvs, global_uv w = some uvs ∧
      w' = { w with scene := { w.scene with
        global_uv_buffer_ := uploaded w.scene.global_uv_buffer_ uvs } } := by
  unfold ConstructUVBuffer at h
  rw [isEmpty_eq_false_of_ne_nil hne] at h
  simp only [Bool.false_eq_true, if_false, Option.bind_eq_bind, Option.bind_eq_some] at h
  obtain ⟨uvs, h1, h2⟩ := h
  refine ⟨uvs, h1, ?_⟩
  unfold uploaded
  cases hu : uvs.isEmpty with
  | true =>
    simp only [hu, Bool.not_true, Bool.false_eq_true, if_false, Option.some.injEq] at h2
    simp [← h2]
  | false =>
    simp only [hu, Bool.not_false, if_true, CreateBuffer_UploadData, Option.some_bind,
      Option.some.injEq] at h2
    simp [← h2]

theorem ConstructMaterialIDBuffer_eq_some {w w' : World} (h : ConstructMaterialIDBuffer w = some w')
    (hne : w.scene.entities_ ≠ []) :
    ∃ ids, global_material_ids w = some ids ∧
      w' = { w with scene := { w.scene with
        global_material_id_buffer_ := uploaded w.scene.global_material_id_buffer_ ids } } := by
  unfold ConstructMaterialIDBuffer at h
  rw [isEmpty_eq_false_of_ne_nil hne] at h
  simp only [Bool.false_eq_true, if_false, Option.bind_eq_bind, Option.bind_eq_some] at h
  obtain ⟨ids, h1, h2⟩ := h
  refine ⟨ids, h1, ?_⟩
  unfold uploaded
  cases hu : ids.isEmpty with
  | true =>
    simp only [hu, Bool.not_true, Bool.false_eq_true, if_false, Option.some.injEq] at h2
    simp [← h2]
  | false =>
    simp only [hu, Bool.not_false, if_true, CreateBuffer_UploadData, Option.some_bind,
      Option.some.injEq] at h2
    simp [← h2]

theorem ConstructIndexBuffer_eq_some {w w' : World} (h : ConstructIndexBuffer w = some w')
    (hne : w.scene.entities_ ≠ []) :
    ∃ idx, global_indices w = some idx ∧
      w' = { w with scene := { w.scene with
        global_index_buffer_ := uploaded w.scene.global_index_buffer_ idx } } := by
  unfold ConstructIndexBuffer at h
  rw [isEmpty_eq_false_of_ne_nil hne] at h
  simp only [Bool.false_eq_true, if_false, Option.bind_eq_bind, Option.bind_eq_some] at h
  obtain ⟨idx, h1, h2⟩ := h
  refine ⟨idx, h1, ?_⟩
  unfold uploaded
  cases hu : idx.isEmpty with
  | true =>
    simp only [hu, Bool.not_true, Bool.false_eq_true, if_false, Option.some.injEq] at h2
    simp [← h2]
  | false =>
    simp only [hu, Bool.not_false, if_true, CreateBuffer_UploadData, Option.some_bind,
      Option.some.injEq] at h2
    simp [← h2]

theorem ConstructInstanceMetadataBuffer_eq (w : World) (hne : w.scene.entities_ ≠ []) :
    ConstructInstanceMetadataBuffer w = some
      { w with scene := { w.scene with
        instance_metadata_ := metadataRows w.heap w.scene.entities_ 0 0 0
        instance_metadata_buffer_ := some
          { size := (metadataRows w.heap w.scene.entities_ 0 0 0).length
            data := metadataRows w.heap w.scene.entities_ 0 0 0 } } } := by
  unfold ConstructInstanceMetadataBuffer
  rw [isEmpty_eq_false_of_ne_nil hne]
  simp [ConstructInstanceMetadataBuffer.loop_eq, CreateBuffer_UploadData]

theorem ConstructInstanceMetadataBuffer_eq_some {w w' : World}
    (h : ConstructInstanceMetadataBuffer w = some w') (hne : w.scene.entities_ ≠ []) :
    w' = { w with scene := { w.scene with
        instance_metadata_ := metadataRows w.heap w.scene.entities_ 0 0 0
        instance_metadata_buffer_ := some
          { size := (metadataRows w.heap w.scene.entities_ 0 0 0).length
            data := metadataRows w.heap w.scene.entities_ 0 0 0 } } } := by
  rw [ConstructInstanceMetadataBuffer_eq w hne] at h
  simp only [Option.some.injEq] at h
  exact h.symm

theorem UpdateMaterialsBuffer_eq_some {w w' : World} (h : UpdateMaterialsBuffer w = some w')
    (hne : w.scene.entities_ ≠ []) :
    ∃ b, (materialsTarget w).UploadData (materials w) = some b ∧
      w' = { w with scene := { w.scene with materials_buffer_ := some b } } := by
  unfold UpdateMaterialsBuffer at h
  rw [isEmpty_eq_false_of_ne_nil hne] at h
  simp only [Bool.false_eq_true, if_false, Option.bind_eq_bind, Option.bind_eq_some] at h
  obtain ⟨b, h1, h2⟩ := h
  refine ⟨b, h1, ?_⟩
  simp only [Option.some.injEq] at h2
  exact h2.symm

theorem prepared_entities (d : Decoder) (w : World) :
    (prepared d w).scene.entities_ = w.scene.entities_ := by
  unfold prepared AssignTextureIndices
  rw [(AssignTextureIndices.loop_frame_textures d _ _).1.entities_eq]
  rfl

theorem prepared_materials_buffer (d : Decoder) (w : World) :
    (prepared d w).scene.materials_buffer_ = w.scene.materials_buffer_ := by
  unfold prepared AssignTextureIndices
  rw [(AssignTextureIndices.loop_frame_textures d _ _).1.materials_buffer_eq]
  rfl

/-- A successful aggregation, step by step: the entity states are those of
`prepared`, and the scene is the one of `prepared` with the buffers, the table
and the handles of the five construction steps. -/
theorem BuildAccelerationStructures_eq_some {d : Decoder} {w w' : World}
    (hne : w.scene.entities_ ≠ []) (h : BuildAccelerationStructures d w = some w') :
    ∃ uvs ids idx b,
      ConstructUVBuffer.collect (prepared d w).heap w.scene.entities_ [] = some uvs ∧
      ConstructMaterialIDBuffer.collect (prepared d w).heap w.scene.entities_ [] = some ids ∧
      ConstructIndexBuffer.collect (prepared d w).heap w.scene.entities_ [] = some idx ∧
      (match w.scene.materials_buffer_ with
        | none => CreateBuffer
            (UpdateMaterialsBuffer.collect (prepared d w).heap w.scene.entities_ []).length
        | some b0 => b0).UploadData
          (UpdateMaterialsBuffer.collect (prepared d w).heap w.scene.entities_ []) = some b ∧
      w' = { heap := (prepared d w).heap
             scene := { (prepared d w).scene with
               global_uv_buffer_ := uploaded (prepared d w).scene.global_uv_buffer_ uvs
               global_material_id_buffer_ :=
                 uploaded (prepared d w).scene.global_material_id_buffer_ ids
               global_index_buffer_ := uploaded (prepared d w).scene.global_index_buffer_ idx
               instance_metadata_ := metadataRows (prepared d w).heap w.scene.entities_ 0 0 0
               instance_metadata_buffer_ := some
                 { size := (metadataRows (prepared d w).heap w.scene.entities_ 0 0 0).length
                   data := metadataRows (prepared d w).heap w.scene.entities_ 0 0 0 }
               materials_buffer_ := some b } } := by
  unfold BuildAccelerationStructures at h
  rw [isEmpty_eq_false_of_ne_nil hne] at h
  simp only [Bool.false_eq_true, if_false, Option.bind_eq_bind, Option.bind_eq_some] at h
  obtain ⟨w4, h4, w5, h5, w6, h6, w7, h7, h8⟩ := h
  change ConstructUVBuffer (prepared d w) = some w4 at h4
  have e3 : (prepared d w).scene.entities_ = w.scene.entities_ := prepared_entities d w
  have hne3 : (prepared d w).scene.entities_ ≠ [] := by rw [e3]; exact hne
  obtain ⟨uvs, hu, rfl⟩ := ConstructUVBuffer_eq_some h4 hne3
  obtain ⟨ids, hi, rfl⟩ := ConstructMaterialIDBuffer_eq_some h5 hne3
  obtain ⟨idx, hx, rfl⟩ := ConstructIndexBuffer_eq_some h6 hne3
  have e7 := ConstructInstanceMetadataBuffer_eq_some h7 hne3
  subst e7
  obtain ⟨b, hb, rfl⟩ := UpdateMaterialsBuffer_eq_some h8 hne3
  refine ⟨uvs, ids, idx, b, ?_, ?_, ?_, ?_, ?_⟩
  · rw [← e3]; exact hu
  · rw [← e3]; exact hi
  · rw [← e3]; exact hx
  · rw [← e3, ← prepared_materials_buffer d w]; exact hb
  · rw [← e3]

end Scene

/-! ## What the passes preserve of an entity -/

theorem Entity.SameGeometry.refl_geometry (e : Entity) : e.SameGeometry e :=
  ⟨rfl, rfl, rfl, rfl, rfl⟩

theorem Entity.SameGeometry.trans_geometry {a b c : Entity} (h1 : a.SameGeometry b)
    (h2 : b.SameGeometry c) : a.SameGeometry c :=
  ⟨h2.1.trans h1.1, h2.2.1.trans h1.2.1, h2.2.2.1.trans h1.2.2.1,
    h2.2.2.2.1.trans h1.2.2.2.1, h2.2.2.2.2.trans h1.2.2.2.2⟩

theorem Entity.SameButIndices.geometry_of_indices {e e' : Entity} (h : e.SameButIndices e') :
    e.SameGeometry e' :=
  ⟨h.mesh_eq, h.mesh_loaded_eq, h.has_uv_coords_eq, h.has_material_ids_eq, h.materials_length⟩

theorem Entity.SameGeometry.uvCount_eq {e e' : Entity} (h : e.SameGeometry e') :
    e'.uvCount = e.uvCount := by
  unfold Entity.uvCount Entity.HasUVCoordinates Entity.GetNumVertices
  rw [h.1, h.2.2.1]

theorem Entity.SameGeometry.idCount_eq {e e' : Entity} (h : e.SameGeometry e') :
    e'.idCount = e.idCount := by
  unfold Entity.idCount Entity.HasMaterialIDs Entity.GetNumTriangles
  rw [h.1, h.2.2.2.1]

theorem Entity.SameGeometry.numIndices_eq {e e' : Entity} (h : e.SameGeometry e') :
    e'.GetNumIndices = e.GetNumIndices := by
  unfold Entity.GetNumIndices
  rw [h.1]

theorem Entity.SameGeometry.slots_eq_of_geometry {e e' : Entity} (h : e.SameGeometry e') :
    e'.materialSlots = e.materialSlots := by
  rw [Entity.materialSlots_eq, Entity.materialSlots_eq, h.2.2.2.2]

theorem Entity.SameGeometry.uvReadable {e e' : Entity} (h : e.SameGeometry e')
    (hr : e.UVReadable) : e'.UVReadable := by
  unfold Entity.UVReadable Entity.HasUVCoordinates Entity.GetNumVertices
    Entity.GetUVCoordinates at *
  rw [h.1, h.2.2.1]
  exact hr

theorem Entity.SameGeometry.idsReadable {e e' : Entity} (h : e.SameGeometry e')
    (hr : e.IDsReadable) : e'.IDsReadable := by
  unfold Entity.IDsReadable Entity.HasMaterialIDs Entity.GetNumTriangles
    Entity.GetMaterialIDs at *
  rw [h.1, h.2.2.2.1]
  exact hr

theorem Entity.SameButHandles.refl_handles (e : Entity) : e.SameButHandles e := rfl

theorem Entity.SameButHandles.trans_handles {a b c : Entity} (h1 : a.SameButHandles b)
    (h2 : b.SameButHandles c) : a.SameButHandles c := by
  unfold Entity.SameButHandles at *
  rw [h2, h1]

theorem Entity.SameButHandles.geometry_of_handles {e e' : Entity} (h : e.SameButHandles e') :
    e.SameGeometry e' := by
  unfold Entity.SameButHandles at h
  unfold Entity.SameGeometry
  rw [h]
  exact ⟨rfl, rfl, rfl, rfl, rfl⟩

theorem Entity.SameButHandles.offset_eq_of_handles {e e' : Entity} (h : e.SameButHandles e') :
    e'.material_offset_ = e.material_offset_ := by
  rw [h]

theorem Entity.SameButHandles.materials_eq {e e' : Entity} (h : e.SameButHandles e') :
    e'.materials_ = e.materials_ := by
  rw [h]

theorem Entity.SameButHandles.default_material_eq {e e' : Entity} (h : e.SameButHandles e') :
    e'.default_material_ = e.default_material_ := by
  rw [h]

theorem Entity.BuildBLAS.uv_frame {e e' : Entity} (h : Entity.BuildBLAS.uv e = some e') :
    e.SameButHandles e' := by
  unfold Entity.BuildBLAS.uv at h
  split at h
  · simp only [Option.bind_eq_bind, Option.bind_eq_some] at h
    obtain ⟨uvs, _, ub, _, h5⟩ := h
    simp only [Option.some.injEq] at h5
    subst h5
    rfl
  · simp only [Option.some.injEq] at h
    subst h
    rfl

theorem Entity.BuildBLAS.materialIDs_frame {e e' : Entity}
    (h : Entity.BuildBLAS.materialIDs e = some e') : e.SameButHandles e' := by
  unfold Entity.BuildBLAS.materialIDs at h
  split at h
  · simp only [Option.bind_eq_bind, Option.bind_eq_some] at h
    obtain ⟨gids, _, mb, _, h5⟩ := h
    simp only [Option.some.injEq] at h5
    subst h5
    rfl
  · simp only [Option.some.injEq] at h
    subst h
    rfl

/-- The method `BuildBLAS` touches the backend handles of the entity only. -/
theorem Entity.BuildBLAS_frame {e e' : Entity} (h : e.BuildBLAS = some e') :
    e.SameButHandles e' := by
  unfold Entity.BuildBLAS at h
  split at h
  · simp only [Option.some.injEq] at h
    subst h
    exact Entity.SameButHandles.refl_handles e
  · simp only [Option.bind_eq_bind, Option.bind_eq_some] at h
    obtain ⟨positions, _, vb, _, indices, _, ib, _, e2, h2, e3, h3, h4⟩ := h
    simp only [Option.some.injEq] at h4
    subst h4
    have r1 : e.SameButHandles
        { e with vertex_buffer_ := some vb, index_buffer_ := some ib } := rfl
    have r2 := Entity.BuildBLAS.uv_frame h2
    have r3 := Entity.BuildBLAS.materialIDs_frame h3
    have r4 : e3.SameButHandles
        { e3 with blas_ := some ⟨vb, ib, sizeof_vec3⟩ } := rfl
    exact ((r1.trans_handles r2).trans_handles r3).trans_handles r4

theorem pushLoop_isSome_of {α β : Type} (ptr : Option (Nat → α)) (f : α → β) (n : Nat)
    (h : 0 < n → ∃ a, ptr = some a) :
    ∃ l, pushLoop ptr f n [] = some l ∧ l.length = n := by
  refine ⟨[] ++ readAll ptr f n, (pushLoop_eq_some_iff ptr f n [] _).mpr ⟨h, rfl⟩, ?_⟩
  rw [List.nil_append]
  exact readAll_length_of ptr f n h

theorem CreateBuffer_UploadData_of_length {α : Type} (n : Nat) (l : List α) (h : l.length = n) :
    (CreateBuffer n).UploadData l = some { size := n, data := l } := by
  subst h
  exact CreateBuffer_UploadData l

/-- The method `BuildBLAS` completes when the optional arrays it reads are present. -/
theorem Entity.BuildBLAS_isSome (e : Entity) (huv : e.UVReadable) (hid : e.IDsReadable) :
    ∃ e', e.BuildBLAS = some e' := by
  unfold Entity.BuildBLAS
  split
  · exact ⟨e, rfl⟩
  · obtain ⟨ps, hps, hpl⟩ := pushLoop_isSome_of (some e.mesh_.Positions) id e.mesh_.NumVertices
      (fun _ => ⟨_, rfl⟩)
    obtain ⟨ix, hix, hil⟩ := pushLoop_isSome_of (some e.mesh_.Indices) id e.mesh_.NumIndices
      (fun _ => ⟨_, rfl⟩)
    simp only [Option.bind_eq_bind, hps, hix, Option.some_bind,
      CreateBuffer_UploadData_of_length _ _ hpl, CreateBuffer_UploadData_of_length _ _ hil]
    have h2 : ∃ e2, Entity.BuildBLAS.uv
        { e with vertex_buffer_ := some { size := e.mesh_.NumVertices, data := ps },
                 index_buffer_ := some { size := e.mesh_.NumIndices, data := ix } } = some e2 := by
      unfold Entity.BuildBLAS.uv
      split
      · rename_i hflag
        obtain ⟨uvs, hu, hul⟩ := pushLoop_isSome_of e.mesh_.TexCoords id e.mesh_.NumVertices
          (huv hflag)
        simp only [Option.bind_eq_bind, hu, Option.some_bind,
          CreateBuffer_UploadData_of_length _ _ hul]
        exact ⟨_, rfl⟩
      · exact ⟨_, rfl⟩
    obtain ⟨e2, he2⟩ := h2
    have hf2 := Entity.BuildBLAS.uv_frame he2
    rw [he2, Option.some_bind]
    have h3 : ∃ e3, Entity.BuildBLAS.materialIDs e2 = some e3 := by
      unfold Entity.BuildBLAS.materialIDs
      split
      · rename_i hflag
        have hg := hf2.geometry_of_handles
        have hflag2 : e.has_material_ids_ = true := by
          rw [← hflag]
          exact hg.2.2.2.1.symm
        obtain ⟨gids, hu, hul⟩ := pushLoop_isSome_of e2.mesh_.MaterialIds
          (fun id => id + e2.material_offset_) (e2.mesh_.NumIndices / 3) (by
            rw [hg.1]
            exact hid hflag2)
        simp only [Option.bind_eq_bind, hu, Option.some_bind,
          CreateBuffer_UploadData_of_length _ _ hul]
        exact ⟨_, rfl⟩
      · exact ⟨_, rfl⟩
    obtain ⟨e3, he3⟩ := h3
    rw [he3, Option.some_bind]
    exact ⟨_, rfl⟩

namespace Scene

/-- What a successful `AddEntity` does: nothing for a null or invalid entity; for a
valid one the entity is appended and only its backend handles change. -/
theorem AddEntity_eq_some {w w' : World} {entity : Option EntityPtr}
    (h : AddEntity w entity = some w') :
    (∀ q, (w.heap q).SameButHandles (w'.heap q)) ∧
    w'.scene = { w.scene with entities_ := w'.scene.entities_ } ∧
    w'.scene.entities_ = w.scene.entities_ ++
      (match entity with
        | none => []
        | some p => if (w.heap p).IsValid then [p] else []) := by
  unfold AddEntity at h
  cases entity with
  | none =>
    simp only [Option.some.injEq] at h
    subst h
    exact ⟨fun q => Entity.SameButHandles.refl_handles _, rfl, by simp⟩
  | some p =>
    simp only at h
    by_cases hv : (w.heap p).IsValid = true
    · simp only [hv, Bool.not_true, Bool.false_eq_true, if_false, Option.bind_eq_bind,
        Option.bind_eq_some, Option.some.injEq] at h
      obtain ⟨built, hb, rfl⟩ := h
      refine ⟨fun q => ?_, rfl, by simp [hv]⟩
      by_cases hq : q = p
      · subst hq
        simp only [Heap.set_same]
        exact Entity.BuildBLAS_frame hb
      · simp only [Heap.set_other _ _ _ _ hq]
        exact Entity.SameButHandles.refl_handles _
    · simp only [hv, Bool.not_false, if_true, Option.some.injEq] at h
      subst h
      exact ⟨fun q => Entity.SameButHandles.refl_handles _, rfl, by simp [hv]⟩

/-- A run of `AddEntity` calls over valid entities appends them in order. -/
theorem AddEntities_valid {w w' : World} {ps : List EntityPtr}
    (hvalid : ∀ p ∈ ps, (w.heap p).IsValid = true)
    (h : AddEntities w (ps.map some) = some w') :
    (∀ q, (w.heap q).SameButHandles (w'.heap q)) ∧
    w'.scene = { w.scene with entities_ := w'.scene.entities_ } ∧
    w'.scene.entities_ = w.scene.entities_ ++ ps := by
  induction ps generalizing w with
  | nil =>
    simp only [List.map_nil, AddEntities, Option.some.injEq] at h
    subst h
    exact ⟨fun q => Entity.SameButHandles.refl_handles _, rfl, by simp⟩
  | cons p rest ih =>
    simp only [List.map_cons, AddEntities, Option.bind_eq_bind, Option.bind_eq_some] at h
    obtain ⟨w1, h1, h2⟩ := h
    obtain ⟨f1, s1, e1⟩ := AddEntity_eq_some h1
    have hv1 : ∀ q ∈ rest, (w1.heap q).IsValid = true := by
      intro q hq
      have := (f1 q).geometry_of_handles.2.1
      unfold Entity.IsValid
      rw [this]
      exact hvalid q (List.mem_cons_of_mem _ hq)
    obtain ⟨f2, s2, e2⟩ := ih hv1 h2
    refine ⟨fun q => (f1 q).trans_handles (f2 q), ?_, ?_⟩
    · rw [s2, s1]
    · rw [e2, e1]
      simp [hvalid p (List.mem_cons_self _ _)]

/-- A call of `AddEntity` completes when the optional arrays of the entity are
present (a null or invalid entity is rejected without reading anything). -/
theorem AddEntity_isSome (w : World) (entity : Option EntityPtr)
    (hr : ∀ p, entity = some p → (w.heap p).UVReadable ∧ (w.heap p).IDsReadable) :
    ∃ w', AddEntity w entity = some w' := by
  unfold AddEntity
  cases entity with
  | none => exact ⟨w, rfl⟩
  | some p =>
    simp only
    split
    · exact ⟨w, rfl⟩
    · obtain ⟨e', he⟩ := Entity.BuildBLAS_isSome (w.heap p) (hr p rfl).1 (hr p rfl).2
      rw [he]
      exact ⟨_, rfl⟩

/-- A run of `AddEntity` calls completes when the optional arrays of the entities
are present. -/
theorem AddEntities_isSome (w : World) (ps : List EntityPtr)
    (hr : ∀ p ∈ ps, (w.heap p).UVReadable ∧ (w.heap p).IDsReadable) :
    ∃ w', AddEntities w (ps.map some) = some w' := by
  induction ps generalizing w with
  | nil => exact ⟨w, rfl⟩
  | cons p rest ih =>
    obtain ⟨w1, h1⟩ := AddEntity_isSome w (some p) (fun q hq => by
      simp only [Option.some.injEq] at hq
      subst hq
      exact hr _ (List.mem_cons_self _ _))
    obtain ⟨f1, _, _⟩ := AddEntity_eq_some h1
    obtain ⟨w2, h2⟩ := ih w1 (fun q hq =>
      ⟨(f1 q).geometry_of_handles.uvReadable (hr q (List.mem_cons_of_mem _ hq)).1,
        (f1 q).geometry_of_handles.idsReadable (hr q (List.mem_cons_of_mem _ hq)).2⟩)
    refine ⟨w2, ?_⟩
    simp only [List.map_cons, AddEntities, Option.bind_eq_bind, h1, Option.some_bind]
    exact h2

theorem AssignMaterialOffsets_sameGeometry (w : World) (q : EntityPtr) :
    (w.heap q).SameGeometry ((AssignMaterialOffsets w).heap q) := by
  unfold AssignMaterialOffsets
  simp only
  rw [AssignMaterialOffsets.loop_frame_offsets]
  exact ⟨rfl, rfl, rfl, rfl, rfl⟩

/-- The offset of an entity in the state `prepared` is the one the offset pass gave
it. -/
theorem prepared_material_offset (d : Decoder) (w : World) (q : EntityPtr) :
    ((prepared d w).heap q).material_offset_ =
      ((AssignMaterialOffsets.loop w.scene.entities_ w.heap 0).1 q).material_offset_ := by
  unfold prepared AssignTextureIndices
  rw [((AssignTextureIndices.loop_frame_textures d _ _).2 q).offset_eq_of_indices]
  rfl

theorem prepared_sameGeometry (d : Decoder) (w : World) (q : EntityPtr) :
    (w.heap q).SameGeometry ((prepared d w).heap q) := by
  unfold prepared AssignTextureIndices
  refine Entity.SameGeometry.trans_geometry ?_ ((AssignTextureIndices.loop_frame_textures d _ _).2 q).geometry_of_indices
  exact AssignMaterialOffsets_sameGeometry _ q

theorem prepared_prefixSum_slots (d : Decoder) (w : World) (ps : List EntityPtr) (i : Nat) :
    prefixSum (fun q => ((prepared d w).heap q).materialSlots) ps i =
      prefixSum (fun q => (w.heap q).materialSlots) ps i :=
  prefixSum_congr _ _ _ _ (fun q _ => (prepared_sameGeometry d w q).slots_eq_of_geometry)

/-- In the state `prepared`, the entity at a last position `i` has the running total
of the positions before `i` as its offset. -/
theorem prepared_offset_last (d : Decoder) (w : World) (i : Nat) (p : EntityPtr)
    (hp : w.scene.entities_[i]? = some p) (hlast : p ∉ w.scene.entities_.drop (i + 1)) :
    ((prepared d w).heap p).material_offset_ =
      (prefixSum (fun q => ((prepared d w).heap q).materialSlots) w.scene.entities_ i : Nat) := by
  rw [prepared_material_offset, prepared_prefixSum_slots,
    AssignMaterialOffsets.loop_offset_last _ _ _ i p hp hlast]
  simp

/-- In the state `prepared`, every entity of the sequence has the running total of
one of its positions as its offset. -/
theorem prepared_offset_mem (d : Decoder) (w : World) (p : EntityPtr)
    (hp : p ∈ w.scene.entities_) :
    ∃ i, w.scene.entities_[i]? = some p ∧
      ((prepared d w).heap p).material_offset_ =
        (prefixSum (fun q => ((prepared d w).heap q).materialSlots) w.scene.entities_ i : Nat) := by
  obtain ⟨i, hi, ho⟩ := AssignMaterialOffsets.loop_offset_mem w.scene.entities_ w.heap 0 p hp
  refine ⟨i, hi, ?_⟩
  rw [prepared_material_offset, prepared_prefixSum_slots, ho]
  simp

end Scene

/-! ## Example scenes -/

/-! ## Shared facts about a finished aggregation -/

theorem Entity.SameGeometry.metadataRow_eq {e e' : Entity} (h : e.SameGeometry e')
    (uv mid idx : Int) :
    e'.metadataRow uv mid idx =
      { uv_offset := if e.HasUVCoordinates then uv else -1
        material_id_offset := if e.HasMaterialIDs then mid else e'.GetMaterialOffset
        has_uv := if e.HasUVCoordinates then 1 else 0
        has_material_ids := if e.HasMaterialIDs then 1 else 0
        vertex_count := if e.HasUVCoordinates then (e.GetNumVertices : Int) else 0
        triangle_count := if e.HasMaterialIDs then (e.GetNumTriangles : Int) else 0
        index_offset := idx
        padding := 0 } := by
  unfold Entity.metadataRow Entity.HasUVCoordinates Entity.HasMaterialIDs
    Entity.GetNumVertices Entity.GetNumTriangles
  rw [h.1, h.2.2.1, h.2.2.2.1]

namespace Scene

/-- After a successful aggregation of a non-empty scene, the entity sequence is
unchanged, the entity states are those of `prepared`, and the table is
`metadataRows` over them. -/
theorem BuildAccelerationStructures_table {d : Decoder} {w w' : World}
    (hne : w.scene.entities_ ≠ []) (h : BuildAccelerationStructures d w = some w') :
    w'.scene.entities_ = w.scene.entities_ ∧ w'.heap = (prepared d w).heap ∧
      w'.scene.instance_metadata_ = metadataRows w'.heap w'.scene.entities_ 0 0 0 := by
  obtain ⟨uvs, ids, idx, b, _, _, _, _, rfl⟩ := BuildAccelerationStructures_eq_some hne h
  exact ⟨prepared_entities d w, rfl, by simp only [prepared_entities]⟩

/-- An aggregation never changes the mesh, the flags or the number of materials
of an entity. -/
theorem BuildAccelerationStructures_sameGeometry {d : Decoder} {w w' : World}
    (h : BuildAccelerationStructures d w = some w') (q : EntityPtr) :
    (w.heap q).SameGeometry (w'.heap q) := by
  by_cases hne : w.scene.entities_ = []
  · unfold BuildAccelerationStructures at h
    rw [hne] at h
    simp only [List.isEmpty_nil, if_true, Option.some.injEq] at h
    subst h
    exact Entity.SameGeometry.refl_geometry _
  · rw [(BuildAccelerationStructures_table hne h).2.1]
    exact prepared_sameGeometry d w q

/-- An aggregation of an empty scene returns the state it was given. -/
theorem BuildAccelerationStructures_nil {d : Decoder} {w w' : World}
    (hnil : w.scene.entities_ = []) (h : BuildAccelerationStructures d w = some w') :
    w' = w := by
  unfold BuildAccelerationStructures at h
  rw [hnil] at h
  simp only [List.isEmpty_nil, if_true, Option.some.injEq] at h
  exact h.symm

/-- After a successful aggregation of a non-empty scene: the three global lists,
taken over the final state, are the concatenations of the per-entity chunks,
every pointer that was read is non-null, and a non-empty list sits in a fresh
buffer of its own length. -/
theorem BuildAccelerationStructures_lists {d : Decoder} {w w' : World}
    (hne : w.scene.entities_ ≠ []) (h : BuildAccelerationStructures d w = some w') :
    (∀ p ∈ w'.scene.entities_, (w'.heap p).UVReadable) ∧
    (∀ p ∈ w'.scene.entities_, (w'.heap p).IDsReadable) ∧
    global_uv w' = some (w'.scene.entities_.flatMap (fun p => (w'.heap p).uvChunk)) ∧
    global_material_ids w' = some (w'.scene.entities_.flatMap (fun p => (w'.heap p).idChunk)) ∧
    global_indices w' = some (w'.scene.entities_.flatMap (fun p => (w'.heap p).indexChunk)) ∧
    (∀ uvs, global_uv w' = some uvs → uvs ≠ [] →
      w'.scene.global_uv_buffer_ = some { size := uvs.length, data := uvs }) ∧
    (∀ ids, global_material_ids w' = some ids → ids ≠ [] →
      w'.scene.global_material_id_buffer_ = some { size := ids.length, data := ids }) ∧
    (∀ idx, global_indices w' = some idx → idx ≠ [] →
      w'.scene.global_index_buffer_ = some { size := idx.length, data := idx }) := by
  obtain ⟨uvs, ids, idx, b, hu, hi, hx, _, rfl⟩ := BuildAccelerationStructures_eq_some hne h
  have he : (prepared d w).scene.entities_ = w.scene.entities_ := prepared_entities d w
  have hu2 := (ConstructUVBuffer.collect_uv_iff _ _ _ _).mp hu
  have hi2 := (ConstructMaterialIDBuffer.collect_ids_iff _ _ _ _).mp hi
  simp only [global_uv, global_material_ids, global_indices, he]
  refine ⟨hu2.1, hi2.1, ?_, ?_, ?_, ?_, ?_, ?_⟩
  · rw [hu, hu2.2]; rfl
  · rw [hi, hi2.2]; rfl
  · rw [ConstructIndexBuffer.collect_indices_eq]; rfl
  · intro l hl hne2
    rw [hu] at hl
    simp only [Option.some.injEq] at hl
    subst hl
    cases uvs with
    | nil => exact absurd rfl hne2
    | cons a t => rfl
  · intro l hl hne2
    rw [hi] at hl
    simp only [Option.some.injEq] at hl
    subst hl
    cases ids with
    | nil => exact absurd rfl hne2
    | cons a t => rfl
  · intro l hl hne2
    rw [hx] at hl
    simp only [Option.some.injEq] at hl
    subst hl
    cases idx with
    | nil => exact absurd rfl hne2
    | cons a t => rfl

/-- After a successful aggregation, row `i` of the table is the record of the entity
at position `i`, at the running totals of the positions before `i`. -/
theorem BuildAccelerationStructures_row {d : Decoder} {w w' : World}
    (h : BuildAccelerationStructures d w = some w') (i : Nat) (p : EntityPtr)
    (hp : w'.scene.entities_[i]? = some p) :
    w'.scene.instance_metadata_[i]? = some ((w'.heap p).metadataRow
      (prefixSum (fun q => (w'.heap q).uvCount) w'.scene.entities_ i : Nat)
      (prefixSum (fun q => (w'.heap q).idCount) w'.scene.entities_ i : Nat)
      (prefixSum (fun q => (w'.heap q).GetNumIndices) w'.scene.entities_ i : Nat)) := by
  by_cases hnil : w.scene.entities_ = []
  · rw [BuildAccelerationStructures_nil hnil h, hnil] at hp
    simp at hp
  · obtain ⟨_, _, hmd⟩ := BuildAccelerationStructures_table hnil h
    rw [hmd, metadataRows_getElem? _ _ _ _ _ i p hp]
    simp only [zero_add]

/-- After a successful aggregation, the materials list and the buffer it was
uploaded to. -/
theorem BuildAccelerationStructures_materials {d : Decoder} {w w' : World}
    (hne : w.scene.entities_ ≠ []) (h : BuildAccelerationStructures d w = some w') :
    materials w' = w'.scene.entities_.flatMap (fun p => (w'.heap p).materialChunk) ∧
    ∃ b, w'.scene.materials_buffer_ = some b ∧
      (match w.scene.materials_buffer_ with
        | none => CreateBuffer (materials w').length
        | some b0 => b0).UploadData (materials w') = some b := by
  obtain ⟨uvs, ids, idx, b, _, _, _, hb, rfl⟩ := BuildAccelerationStructures_eq_some hne h
  have he : (prepared d w).scene.entities_ = w.scene.entities_ := prepared_entities d w
  simp only [materials, he]
  refine ⟨by rw [UpdateMaterialsBuffer.collect_materials_eq]; rfl, b, rfl, hb⟩

/-- After a successful aggregation, the flattened materials list holds the rows of
every entity of the sequence from the entity's `material_offset` on. -/
theorem BuildAccelerationStructures_material_row {d : Decoder} {w w' : World}
    (h : BuildAccelerationStructures d w = some w') (p : EntityPtr)
    (hp : p ∈ w'.scene.entities_) (j : Nat) (hj : j < (w'.heap p).materialChunk.length) :
    (materials w')[((w'.heap p).GetMaterialOffset + (j : Int)).toNat]? =
      (w'.heap p).materialChunk[j]? := by
  by_cases hnil : w.scene.entities_ = []
  · rw [BuildAccelerationStructures_nil hnil h, hnil] at hp
    simp at hp
  · obtain ⟨he, hh, _⟩ := BuildAccelerationStructures_table hnil h
    obtain ⟨hm, _⟩ := BuildAccelerationStructures_materials hnil h
    rw [he] at hp
    obtain ⟨i, hi, ho⟩ := prepared_offset_mem d w p hp
    rw [← hh] at ho
    rw [hm, he]
    unfold Entity.GetMaterialOffset
    rw [ho]
    have hs : prefixSum (fun q => (w'.heap q).materialSlots) w.scene.entities_ i =
        prefixSum (fun q => ((fun r => (w'.heap r).materialChunk) q).length)
          w.scene.entities_ i :=
      prefixSum_congr _ _ _ _ (fun q _ => (Entity.materialChunk_length _).symm)
    rw [hs]
    have ht : (((prefixSum (fun q => ((fun r => (w'.heap r).materialChunk) q).length)
        w.scene.entities_ i : Nat) : Int) + (j : Int)).toNat =
        prefixSum (fun q => ((fun r => (w'.heap r).materialChunk) q).length)
          w.scene.entities_ i + j := by
      omega
    rw [ht]
    exact flatMap_getElem?_offset (fun r => (w'.heap r).materialChunk) _ i p j hi hj

end Scene

theorem sum_map_ite_eq_sum_filter {α : Type} (c : α → Bool) (f : α → Nat) (ps : List α) :
    (ps.map (fun p => if c p then f p else 0)).sum = ((ps.filter c).map f).sum := by
  induction ps with
  | nil => rfl
  | cons q rest ih =>
    cases hc : c q <;> simp [List.filter_cons, hc, ih]

theorem prefixSum_uvCount (heap : Heap) (ps : List EntityPtr) (i : Nat) :
    prefixSum (fun q => (heap q).uvCount) ps i =
      (((ps.take i).filter (fun q => (heap q).HasUVCoordinates)).map
        (fun q => (heap q).GetNumVertices)).sum := by
  unfold prefixSum
  rw [← sum_map_ite_eq_sum_filter]
  rfl

theorem prefixSum_idCount (heap : Heap) (ps : List EntityPtr) (i : Nat) :
    prefixSum (fun q => (heap q).idCount) ps i =
      (((ps.take i).filter (fun q => (heap q).HasMaterialIDs)).map
        (fun q => (heap q).GetNumTriangles)).sum := by
  unfold prefixSum
  rw [← sum_map_ite_eq_sum_filter]
  rfl

theorem Vec2.eta (v : Vec2) : Vec2.mk v.x v.y = v := rfl

namespace Scene

theorem ConstructUVBuffer_isSome (w : World)
    (hr : ∀ p ∈ w.scene.entities_, (w.heap p).UVReadable) :
    ∃ w', ConstructUVBuffer w = some w' := by
  unfold ConstructUVBuffer
  split
  · exact ⟨w, rfl⟩
  · have hg : global_uv w = some ([] ++ w.scene.entities_.flatMap (fun p => (w.heap p).uvChunk)) :=
      (ConstructUVBuffer.collect_uv_iff _ _ _ _).mpr ⟨hr, rfl⟩
    rw [hg]
    simp only [Option.bind_eq_bind, Option.some_bind, CreateBuffer_UploadData]
    split
    · exact ⟨_, rfl⟩
    · exact ⟨_, rfl⟩

theorem ConstructMaterialIDBuffer_isSome (w : World)
    (hr : ∀ p ∈ w.scene.entities_, (w.heap p).IDsReadable) :
    ∃ w', ConstructMaterialIDBuffer w = some w' := by
  unfold ConstructMaterialIDBuffer
  split
  · exact ⟨w, rfl⟩
  · have hg : global_material_ids w =
        some ([] ++ w.scene.entities_.flatMap (fun p => (w.heap p).idChunk)) :=
      (ConstructMaterialIDBuffer.collect_ids_iff _ _ _ _).mpr ⟨hr, rfl⟩
    rw [hg]
    simp only [Option.bind_eq_bind, Option.some_bind, CreateBuffer_UploadData]
    split
    · exact ⟨_, rfl⟩
    · exact ⟨_, rfl⟩

theorem ConstructIndexBuffer_isSome (w : World) : ∃ w', ConstructIndexBuffer w = some w' := by
  unfold ConstructIndexBuffer
  split
  · exact ⟨w, rfl⟩
  · unfold global_indices
    rw [ConstructIndexBuffer.collect_indices_eq]
    simp only [Option.bind_eq_bind, Option.some_bind, CreateBuffer_UploadData]
    split
    · exact ⟨_, rfl⟩
    · exact ⟨_, rfl⟩

/-- An aggregation completes when every pointer it reads is non-null and the
materials buffer the scene holds, if any, has room for the rows of all
entities. -/
theorem BuildAccelerationStructures_isSome (d : Decoder) (w : World)
    (huv : ∀ p ∈ w.scene.entities_, (w.heap p).UVReadable)
    (hid : ∀ p ∈ w.scene.entities_, (w.heap p).IDsReadable)
    (hbuf : ∀ b, w.scene.materials_buffer_ = some b →
      (w.scene.entities_.map (fun q => (w.heap q).materialSlots)).sum ≤ b.size) :
    ∃ w', BuildAccelerationStructures d w = some w' := by
  by_cases hnil : w.scene.entities_ = []
  · refine ⟨w, ?_⟩
    unfold BuildAccelerationStructures
    rw [hnil]
    rfl
  · have he : (prepared d w).scene.entities_ = w.scene.entities_ := prepared_entities d w
    have hne3 : (prepared d w).scene.entities_ ≠ [] := by rw [he]; exact hnil
    obtain ⟨w4, h4⟩ := ConstructUVBuffer_isSome (prepared d w) (by
      rw [he]
      exact fun p hp => (prepared_sameGeometry d w p).uvReadable (huv p hp))
    obtain ⟨uvs, _, e4⟩ := ConstructUVBuffer_eq_some h4 hne3
    obtain ⟨w5, h5⟩ := ConstructMaterialIDBuffer_isSome w4 (by
      rw [e4]
      simp only [he]
      exact fun p hp => (prepared_sameGeometry d w p).idsReadable (hid p hp))
    have hne4 : w4.scene.entities_ ≠ [] := by rw [e4]; exact hne3
    obtain ⟨ids, _, e5⟩ := ConstructMaterialIDBuffer_eq_some h5 hne4
    obtain ⟨w6, h6⟩ := ConstructIndexBuffer_isSome w5
    have hne5 : w5.scene.entities_ ≠ [] := by rw [e5]; exact hne4
    obtain ⟨idx, _, e6⟩ := ConstructIndexBuffer_eq_some h6 hne5
    have hne6 : w6.scene.entities_ ≠ [] := by rw [e6]; exact hne5
    have h7 := ConstructInstanceMetadataBuffer_eq w6 hne6
    have hrows : (materials (prepared d w)).length =
        (w.scene.entities_.map (fun q => (w.heap q).materialSlots)).sum := by
      unfold materials
      rw [UpdateMaterialsBuffer.collect_materials_eq, List.nil_append, length_flatMap_eq_sum, he]
      apply sum_map_congr
      intro q _
      rw [Entity.materialChunk_length]
      exact (prepared_sameGeometry d w q).slots_eq_of_geometry
    have h8 : ∃ w', UpdateMaterialsBuffer
        { w6 with scene := { w6.scene with
          instance_metadata_ := metadataRows w6.heap w6.scene.entities_ 0 0 0
          instance_metadata_buffer_ := some
            { size := (metadataRows w6.heap w6.scene.entities_ 0 0 0).length
              data := metadataRows w6.heap w6.scene.entities_ 0 0 0 } } } = some w' := by
      unfold UpdateMaterialsBuffer
      rw [isEmpty_eq_false_of_ne_nil (by exact hne6)]
      simp only [Bool.false_eq_true, if_false, Option.bind_eq_bind]
      have hm : materials
          { w6 with scene := { w6.scene with
            instance_metadata_ := metadataRows w6.heap w6.scene.entities_ 0 0 0
            instance_metadata_buffer_ := some
              { size := (metadataRows w6.heap w6.scene.entities_ 0 0 0).length
                data := metadataRows w6.heap w6.scene.entities_ 0 0 0 } } } =
          materials (prepared d w) := by
        rw [e6, e5, e4]
        rfl
      rw [hm]
      have hmb : w6.scene.materials_buffer_ = w.scene.materials_buffer_ := by
        rw [e6, e5, e4]
        exact prepared_materials_buffer d w
      simp only [hmb]
      cases hb : w.scene.materials_buffer_ with
      | none =>
        simp only [CreateBuffer_UploadData, Option.some_bind]
        exact ⟨_, rfl⟩
      | some b =>
        have hfit := hbuf b hb
        rw [← hrows] at hfit
        simp only [Buffer.UploadData, if_pos hfit, Option.some_bind]
        exact ⟨_, rfl⟩
    obtain ⟨w', h8⟩ := h8
    refine ⟨w', ?_⟩
    unfold BuildAccelerationStructures
    rw [isEmpty_eq_false_of_ne_nil hnil]
    simp only [Bool.false_eq_true, if_false, Option.bind_eq_bind]
    change (ConstructUVBuffer (prepared d w)).bind _ = some w'
    rw [h4, Option.some_bind, h5, Option.some_bind, h6, Option.some_bind, h7, Option.some_bind]
    exact h8

end Scene

/-! ## The claims -/

/-- C1: for every sequence `ps` of K ≥ 1 valid entities (entities whose mesh is loaded
and whose optional arrays are present where the flags announce them), adding
them to a fresh scene with `AddEntity` and then aggregating with
`BuildAccelerationStructures` completes, and afterwards the entity sequence is
`ps`, the instance-metadata table has exactly K rows, row `i` is the record of
the `i`-th added entity (its flags, its counts, and the running totals of the
entities before it), and its `index_offset` is the sum of the index counts of
the entities at positions `0..i-1`. -/
theorem C1_metadata_rows_in_addition_order (d : Decoder) (heap : Heap) (ps : List EntityPtr)
    (hK : 1 ≤ ps.length)
    (hvalid : ∀ p ∈ ps, (heap p).IsValid = true)
    (hread : ∀ p ∈ ps, (heap p).UVReadable ∧ (heap p).IDsReadable) :
    ∃ w1 w2 : World,
      Scene.AddEntities { heap := heap, scene := Scene.ctor } (ps.map some) = some w1 ∧
      Scene.BuildAccelerationStructures d w1 = some w2 ∧
      w2.scene.entities_ = ps ∧
      w2.scene.instance_metadata_.length = ps.length ∧
      ∀ i p, ps[i]? = some p →
        w2.scene.instance_metadata_[i]? = some
          ({ uv_offset :=
               if (heap p).HasUVCoordinates then
                 ((((ps.take i).map (fun q => (heap q).uvCount)).sum : Nat) : Int)
               else -1,
             material_id_offset :=
               if (heap p).HasMaterialIDs then
                 ((((ps.take i).map (fun q => (heap q).idCount)).sum : Nat) : Int)
               else (w2.heap p).GetMaterialOffset,
             has_uv := if (heap p).HasUVCoordinates then 1 else 0,
             has_material_ids := if (heap p).HasMaterialIDs then 1 else 0,
             vertex_count :=
               if (heap p).HasUVCoordinates then ((heap p).GetNumVertices : Int) else 0,
             triangle_count :=
               if (heap p).HasMaterialIDs then ((heap p).GetNumTriangles : Int) else 0,
             index_offset :=
               ((((ps.take i).map (fun q => (heap q).GetNumIndices)).sum : Nat) : Int),
             padding := 0 } : InstanceMetadata) := by
  obtain ⟨w1, hadd⟩ := Scene.AddEntities_isSome { heap := heap, scene := Scene.ctor } ps hread
  obtain ⟨f1, s1, e1⟩ := Scene.AddEntities_valid hvalid hadd
  have e1 : w1.scene.entities_ = ps := by simpa [Scene.ctor] using e1
  have hne : w1.scene.entities_ ≠ [] := by
    rw [e1]
    intro hnil
    rw [hnil] at hK
    exact absurd hK (by decide)
  have hfresh : w1.scene.materials_buffer_ = none := by
    rw [s1]
    rfl
  obtain ⟨w2, hbuild⟩ := Scene.BuildAccelerationStructures_isSome d w1
    (by
      rw [e1]
      exact fun p hp => (f1 p).geometry_of_handles.uvReadable (hread p hp).1)
    (by
      rw [e1]
      exact fun p hp => (f1 p).geometry_of_handles.idsReadable (hread p hp).2)
    (by
      intro b hb
      rw [hfresh] at hb
      exact absurd hb (by simp))
  obtain ⟨he, _, hmd⟩ := Scene.BuildAccelerationStructures_table hne hbuild
  have hgeo : ∀ q, (heap q).SameGeometry (w2.heap q) := fun q =>
    (f1 q).geometry_of_handles.trans_geometry
      (Scene.BuildAccelerationStructures_sameGeometry hbuild q)
  rw [e1] at he
  rw [he] at hmd
  refine ⟨w1, w2, hadd, hbuild, he, by rw [hmd, Scene.metadataRows_length], ?_⟩
  intro i p hp
  rw [hmd, Scene.metadataRows_getElem? _ _ _ _ _ i p hp, (hgeo p).metadataRow_eq]
  have h1 : prefixSum (fun q => (w2.heap q).uvCount) ps i =
      ((ps.take i).map (fun q => (heap q).uvCount)).sum :=
    prefixSum_congr _ _ _ _ (fun q _ => (hgeo q).uvCount_eq)
  have h2 : prefixSum (fun q => (w2.heap q).idCount) ps i =
      ((ps.take i).map (fun q => (heap q).idCount)).sum :=
    prefixSum_congr _ _ _ _ (fun q _ => (hgeo q).idCount_eq)
  have h3 : prefixSum (fun q => (w2.heap q).GetNumIndices) ps i =
      ((ps.take i).map (fun q => (heap q).GetNumIndices)).sum :=
    prefixSum_congr _ _ _ _ (fun q _ => (hgeo q).numIndices_eq)
  rw [h1, h2, h3]
  simp only [zero_add]

/-- C1, witness: the two entities of the example scene; the table has two rows and
the second row has `index_offset` 6, the index count of the first entity. -/
theorem C1_metadata_rows_in_addition_order_witness :
    ∃ w2 : World, exampleBuild = some w2 ∧ w2.scene.entities_ = [0, 1] ∧
      w2.scene.instance_metadata_.length = 2 ∧
      (w2.scene.instance_metadata_[1]?).map (fun row => row.index_offset) = some 6 := by
  have hread : ∀ p ∈ [0, 1], (exampleHeap p).UVReadable ∧ (exampleHeap p).IDsReadable := by
    intro p hp
    simp only [List.mem_cons, List.mem_singleton, List.not_mem_nil, or_false] at hp
    rcases hp with rfl | rfl
    · exact ⟨fun _ _ => ⟨_, rfl⟩, fun hf => absurd hf (by decide)⟩
    · exact ⟨fun hf => absurd hf (by decide), fun _ _ => ⟨_, rfl⟩⟩
  obtain ⟨w1, w2, h1, h2, he, hl, hrow⟩ :=
    C1_metadata_rows_in_addition_order exampleDecoder exampleHeap [0, 1]
      (by decide) (by decide) hread
  refine ⟨w2, ?_, he, hl, ?_⟩
  · show (Scene.AddEntities _ _).bind _ = some w2
    rw [show ([some 0, some 1] : List (Option EntityPtr)) = List.map some [0, 1] from rfl, h1]
    exact h2
  · rw [hrow 1 1 (by decide)]
    rfl

/-- C2, counterexample: the same entity object (without material list) added twice
to a fresh scene. After `AssignMaterialOffsets` the entity at position `0`
carries the offset `1` written at position `1`, while the sum over the (zero)
positions before position `0` is `0`. -/
theorem C2_counterexample_entity_added_twice :
    (Scene.AddEntities { heap := plainHeap, scene := Scene.ctor } [some 0, some 0]).map
      (fun w =>
        (w.scene.entities_[0]?,
          ((Scene.AssignMaterialOffsets w).heap 0).GetMaterialOffset,
          ((w.scene.entities_.take 0).map (fun q =>
            if 0 < ((Scene.AssignMaterialOffsets w).heap q).GetMaterials.length then
              ((Scene.AssignMaterialOffsets w).heap q).GetMaterials.length
            else 1)).sum)) = some (some 0, 1, 0) := by
  decide

/-- C2, as amended: after `AssignMaterialOffsets`, for every position `i` whose entity
does not occur again at a later position of the sequence, the `material_offset`
of entity `i` equals the sum over the positions `0..i-1` of (the material count
of that entity if it is greater than 0, else 1). -/
theorem C2_material_offset_is_running_total (w : World) (i : Nat) (p : EntityPtr)
    (hp : w.scene.entities_[i]? = some p) (hlast : p ∉ w.scene.entities_.drop (i + 1)) :
    ((Scene.AssignMaterialOffsets w).heap p).GetMaterialOffset =
      ((((w.scene.entities_.take i).map (fun q =>
        if 0 < ((Scene.AssignMaterialOffsets w).heap q).GetMaterials.length then
          ((Scene.AssignMaterialOffsets w).heap q).GetMaterials.length
        else 1)).sum : Nat) : Int) := by
  have hs : ∀ q, (if 0 < ((Scene.AssignMaterialOffsets w).heap q).GetMaterials.length then
      ((Scene.AssignMaterialOffsets w).heap q).GetMaterials.length else 1) =
      (w.heap q).materialSlots := by
    intro q
    have h1 := (Scene.AssignMaterialOffsets_sameGeometry w q).slots_eq_of_geometry
    rw [Entity.materialSlots_eq] at h1
    exact h1
  simp only [hs]
  unfold Scene.AssignMaterialOffsets Entity.GetMaterialOffset
  simp only
  rw [Scene.AssignMaterialOffsets.loop_offset_last _ _ _ i p hp hlast]
  simp [prefixSum]

/-- C2, witness: two different entities; position `1` is a last position. -/
theorem C2_material_offset_is_running_total_witness :
    ((Scene.AssignMaterialOffsets
        { heap := exampleHeap, scene := { Scene.ctor with entities_ := [0, 1] } }).heap
          1).GetMaterialOffset = ((3 : Nat) : Int) :=
  C2_material_offset_is_running_total
    { heap := exampleHeap, scene := { Scene.ctor with entities_ := [0, 1] } } 1 1
    (by decide) (by decide)

/-- On a first build (the scene holds no materials buffer yet) of a non-empty scene,
the materials buffer is created with exactly `T` rows, `T` being the final
running total of the offset pass, and holds the flattened materials list, which
lists the rows of the entities in sequence order. -/
theorem first_build_materials_buffer (d : Decoder) (w w' : World)
    (hne : w.scene.entities_ ≠ []) (hfirst : w.scene.materials_buffer_ = none)
    (h : Scene.BuildAccelerationStructures d w = some w') :
    w'.scene.materials_buffer_ =
      some { size := (Scene.materials w').length, data := Scene.materials w' } ∧
    ((Scene.materials w').length : Int) =
      (Scene.AssignMaterialOffsets.loop w.scene.entities_ w.heap 0).2 ∧
    Scene.materials w' = w'.scene.entities_.flatMap (fun p =>
      if (w'.heap p).HasMTLMaterials then (w'.heap p).GetMaterials.map Material.ToGPUData
      else [(w'.heap p).GetDefaultMaterial.ToGPUData]) := by
  obtain ⟨hm, b, hb1, hb2⟩ := Scene.BuildAccelerationStructures_materials hne h
  obtain ⟨he, _, _⟩ := Scene.BuildAccelerationStructures_table hne h
  rw [hfirst] at hb2
  simp only [CreateBuffer_UploadData, Option.some.injEq] at hb2
  refine ⟨by rw [hb1, hb2], ?_, hm⟩
  rw [Scene.AssignMaterialOffsets.loop_total, hm, length_flatMap_eq_sum, he, zero_add]
  congr 1
  apply sum_map_congr
  intro q _
  rw [Entity.materialChunk_length]
  exact (Scene.BuildAccelerationStructures_sameGeometry h q).slots_eq_of_geometry

/-- C3, evaluated at the failing input: one entity is added and aggregated (the
materials buffer is created with 1 row), then a second entity is added and the
scene is aggregated again. Before the second aggregation the scene still holds
the 1-row buffer while the offset pass totals `T = 2` and the flattened list has
2 rows; the upload of 2 rows into the 1-row buffer does not fit, and the second
aggregation does not complete. -/
theorem C3_rebuild_after_adding_an_entity :
    (((Scene.AddEntity { heap := plainHeap, scene := Scene.ctor } (some 0)).bind
        (Scene.BuildAccelerationStructures exampleDecoder)).bind
          (fun w => Scene.AddEntity w (some 1))).map
      (fun w =>
        (w.scene.materials_buffer_.map (fun b => b.size),
          (Scene.AssignMaterialOffsets.loop w.scene.entities_ w.heap 0).2,
          (Scene.materials w).length,
          (Scene.BuildAccelerationStructures exampleDecoder w).isSome)) =
      some (some 1, 2, 2, false) := by
  decide

theorem Buffer.UploadData_take {α : Type} {b b' : Buffer α} {src : List α}
    (h : b.UploadData src = some b') : b'.data.take src.length = src := by
  unfold Buffer.UploadData at h
  split at h
  · simp only [Option.some.injEq] at h
    subst h
    simp
  · exact absurd h (by simp)

theorem exampleBuild_eq_some :
    ∃ w1 w2, Scene.BuildAccelerationStructures exampleDecoder w1 = some w2 ∧
      exampleBuild = some w2 := by
  have hsome : exampleBuild.isSome = true := by decide
  obtain ⟨w2, h2⟩ := Option.isSome_iff_exists.mp hsome
  obtain ⟨w1, _, hb⟩ := Option.bind_eq_some.mp h2
  exact ⟨w1, w2, hb, h2⟩

/-- C4: after aggregation, for every position `i` with entity `p` and every local
material index `j`: if the entity has its own material list and `m` is its
`j`-th material, row `material_offset + j` of the flattened materials list is
`m.ToGPUData`; if the entity has no material list, row `material_offset` is
`ToGPUData` of its default material. The flattened list is what the materials
buffer holds from its first row on. -/
theorem C4_materials_rows_at_material_offset (d : Decoder) (w w' : World)
    (h : Scene.BuildAccelerationStructures d w = some w') (i : Nat) (p : EntityPtr)
    (hp : w'.scene.entities_[i]? = some p) :
    (∀ (j : Nat) (m : Material), (w'.heap p).GetMaterials[j]? = some m →
      (Scene.materials w')[((w'.heap p).GetMaterialOffset + (j : Int)).toNat]? =
        some m.ToGPUData) ∧
    ((w'.heap p).HasMTLMaterials = false →
      (Scene.materials w')[(w'.heap p).GetMaterialOffset.toNat]? =
        some (w'.heap p).GetDefaultMaterial.ToGPUData) ∧
    ∃ b, w'.scene.materials_buffer_ = some b ∧
      b.data.take (Scene.materials w').length = Scene.materials w' := by
  have hmem : p ∈ w'.scene.entities_ := List.mem_iff_getElem?.mpr ⟨i, hp⟩
  refine ⟨?_, ?_, ?_⟩
  · intro j m hj
    have hlen : j < (w'.heap p).GetMaterials.length := by
      rcases Nat.lt_or_ge j (w'.heap p).GetMaterials.length with hlt | hge
      · exact hlt
      · rw [List.getElem?_eq_none hge] at hj
        exact absurd hj (by simp)
    have hmtl : (w'.heap p).HasMTLMaterials = true := by
      unfold Entity.HasMTLMaterials
      unfold Entity.GetMaterials at hlen
      cases hc : (w'.heap p).materials_ with
      | nil => rw [hc] at hlen; exact absurd hlen (by simp)
      | cons a t => rfl
    have hchunk : (w'.heap p).materialChunk =
        (w'.heap p).GetMaterials.map Material.ToGPUData := by
      unfold Entity.materialChunk
      rw [if_pos hmtl]
    rw [Scene.BuildAccelerationStructures_material_row h p hmem j
      (by rw [hchunk, List.length_map]; exact hlen), hchunk, List.getElem?_map, hj]
    rfl
  · intro hno
    have hchunk : (w'.heap p).materialChunk = [(w'.heap p).GetDefaultMaterial.ToGPUData] := by
      unfold Entity.materialChunk
      rw [hno]
      rfl
    have := Scene.BuildAccelerationStructures_material_row h p hmem 0
      (by rw [hchunk]; exact Nat.zero_lt_one)
    rw [hchunk] at this
    simpa using this
  · have hne : w.scene.entities_ ≠ [] := by
      intro hnil
      rw [Scene.BuildAccelerationStructures_nil hnil h, hnil] at hp
      simp at hp
    obtain ⟨_, b, hb1, hb2⟩ := Scene.BuildAccelerationStructures_materials hne h
    exact ⟨b, hb1, Buffer.UploadData_take hb2⟩

/-- C4, witness: entity `0` of the example scene, which has three materials. -/
theorem C4_materials_rows_at_material_offset_witness :
    ∃ w' : World, exampleBuild = some w' ∧
      ∀ (j : Nat) (m : Material), (w'.heap 0).GetMaterials[j]? = some m →
        (Scene.materials w')[((w'.heap 0).GetMaterialOffset + (j : Int)).toNat]? =
          some m.ToGPUData := by
  obtain ⟨w1, w2, hb, h2⟩ := exampleBuild_eq_some
  have he : w2.scene.entities_[0]? = some 0 := by
    have hd : exampleBuild.map (fun w => w.scene.entities_[0]?) = some (some 0) := by decide
    rw [h2] at hd
    simpa using hd
  exact ⟨w2, h2, (C4_materials_rows_at_material_offset exampleDecoder w1 w2 hb 0 0 he).1⟩

/-- C6: after aggregation, the global UV list has as many entries as the UV-bearing
entities have vertices; for every UV-bearing entity at position `i`, the
`uv_offset` of metadata row `i` is the total vertex count of the UV-bearing
entities before position `i` and `vertex_count` is its own vertex count (so the
windows `[uv_offset, uv_offset + vertex_count)` follow one another without gap
or overlap and fill the list), and for every vertex `v < vertex_count` the
entry at position `uv_offset + v` is the entity's own UV of vertex `v`. A
non-empty list is what the global UV buffer holds. -/
theorem C6_global_uv_list_windows (d : Decoder) (w w' : World)
    (h : Scene.BuildAccelerationStructures d w = some w') :
    ∃ uvs, Scene.global_uv w' = some uvs ∧
      (uvs ≠ [] → w'.scene.global_uv_buffer_ = some { size := uvs.length, data := uvs }) ∧
      uvs.length =
        ((w'.scene.entities_.filter (fun q => (w'.heap q).HasUVCoordinates)).map
          (fun q => (w'.heap q).GetNumVertices)).sum ∧
      ∀ (i : Nat) (p : EntityPtr) (row : InstanceMetadata),
        w'.scene.entities_[i]? = some p → (w'.heap p).HasUVCoordinates = true →
        w'.scene.instance_metadata_[i]? = some row →
          row.uv_offset =
            (((((w'.scene.entities_.take i).filter
              (fun q => (w'.heap q).HasUVCoordinates)).map
                (fun q => (w'.heap q).GetNumVertices)).sum : Nat) : Int) ∧
          row.vertex_count = ((w'.heap p).GetNumVertices : Int) ∧
          ∀ v : Nat, (v : Int) < row.vertex_count →
            ∃ a, (w'.heap p).GetUVCoordinates = some a ∧
              uvs[(row.uv_offset + (v : Int)).toNat]? = some (a v) := by
  by_cases hnil : w.scene.entities_ = []
  · have hw := Scene.BuildAccelerationStructures_nil hnil h
    subst hw
    refine ⟨[], by simp [Scene.global_uv, hnil, Scene.ConstructUVBuffer.collect],
      fun hc => absurd rfl hc, by simp [hnil], ?_⟩
    intro i p row hp
    rw [hnil] at hp
    simp at hp
  · obtain ⟨hread, _, hu, _, _, hbuf, _, _⟩ := Scene.BuildAccelerationStructures_lists hnil h
    refine ⟨_, hu, hbuf _ hu, ?_, ?_⟩
    · rw [length_flatMap_eq_sum,
        sum_map_congr _ (fun q => (w'.heap q).uvCount) _
          (fun q hq => Entity.uvChunk_length _ (hread q hq)),
        ← prefixSum_length, prefixSum_uvCount, List.take_length]
    · intro i p row hp huv hrow
      rw [Scene.BuildAccelerationStructures_row h i p hp] at hrow
      simp only [Option.some.injEq] at hrow
      subst hrow
      have hoff : ((w'.heap p).metadataRow
          (prefixSum (fun q => (w'.heap q).uvCount) w'.scene.entities_ i : Nat)
          (prefixSum (fun q => (w'.heap q).idCount) w'.scene.entities_ i : Nat)
          (prefixSum (fun q => (w'.heap q).GetNumIndices) w'.scene.entities_ i : Nat)).uv_offset
          = (prefixSum (fun q => (w'.heap q).uvCount) w'.scene.entities_ i : Nat) := by
        simp [Entity.metadataRow, huv]
      have hcnt : ((w'.heap p).metadataRow
          (prefixSum (fun q => (w'.heap q).uvCount) w'.scene.entities_ i : Nat)
          (prefixSum (fun q => (w'.heap q).idCount) w'.scene.entities_ i : Nat)
          (prefixSum (fun q => (w'.heap q).GetNumIndices) w'.scene.entities_ i : Nat)).vertex_count
          = ((w'.heap p).GetNumVertices : Int) := by
        simp [Entity.metadataRow, huv]
      rw [hoff, hcnt]
      refine ⟨by rw [prefixSum_uvCount], rfl, ?_⟩
      intro v hv
      have hv2 : v < (w'.heap p).GetNumVertices := by exact_mod_cast hv
      have hmem : p ∈ w'.scene.entities_ := List.mem_iff_getElem?.mpr ⟨i, hp⟩
      obtain ⟨a, ha⟩ := hread p hmem huv (Nat.lt_of_le_of_lt (Nat.zero_le v) hv2)
      refine ⟨a, ha, ?_⟩
      have hchunk : (w'.heap p).uvChunk =
          readAll (some a) (fun uv => Vec2.mk uv.x uv.y) (w'.heap p).GetNumVertices := by
        unfold Entity.uvChunk
        rw [if_pos huv, ha]
      have hlen : v < ((fun q => (w'.heap q).uvChunk) p).length := by
        simp only [hchunk, readAll, List.length_map, List.length_range]
        exact hv2
      have hs : prefixSum (fun q => (w'.heap q).uvCount) w'.scene.entities_ i =
          prefixSum (fun q => ((fun r => (w'.heap r).uvChunk) q).length) w'.scene.entities_ i :=
        prefixSum_congr _ _ _ _ (fun q hq => (Entity.uvChunk_length _ (hread q hq)).symm)
      have ht : (((prefixSum (fun q => (w'.heap q).uvCount) w'.scene.entities_ i : Nat) : Int)
          + (v : Int)).toNat =
          prefixSum (fun q => ((fun r => (w'.heap r).uvChunk) q).length) w'.scene.entities_ i
            + v := by
        rw [hs]
        omega
      rw [ht, flatMap_getElem?_offset (fun r => (w'.heap r).uvChunk) _ i p v hp hlen]
      simp only [hchunk]
      rw [readAll_getElem? a _ _ v hv2, Vec2.eta]

/-- C6, witness: entity `0` of the example scene has UV coordinates and 4 vertices. -/
theorem C6_global_uv_list_windows_witness :
    ∃ (w' : World) (uvs : List Vec2), exampleBuild = some w' ∧
      Scene.global_uv w' = some uvs ∧ uvs.length = 4 := by
  obtain ⟨w1, w2, hb, h2⟩ := exampleBuild_eq_some
  obtain ⟨uvs, hu, _, hlen, _⟩ := C6_global_uv_list_windows exampleDecoder w1 w2 hb
  refine ⟨w2, uvs, h2, hu, ?_⟩
  have hd : exampleBuild.map (fun w =>
      ((w.scene.entities_.filter (fun q => (w.heap q).HasUVCoordinates)).map
        (fun q => (w.heap q).GetNumVertices)).sum) = some 4 := by decide
  rw [h2] at hd
  simp only [Option.map_some', Option.some.injEq] at hd
  rw [hlen, hd]

/-- C5: after aggregation, the global material-ID list has as many entries as the
ID-bearing entities have triangles (entities without IDs contribute nothing);
for every entity at position `i` that has per-triangle material IDs and every
triangle `t < triangle_count` of metadata row `i`, the entry at position
`material_id_offset + t` is the entity's local material ID of triangle `t` plus
the entity's `material_offset`. A non-empty list is what the global material-ID
buffer holds. -/
theorem C5_global_material_ids (d : Decoder) (w w' : World)
    (h : Scene.BuildAccelerationStructures d w = some w') :
    ∃ ids, Scene.global_material_ids w' = some ids ∧
      (ids ≠ [] →
        w'.scene.global_material_id_buffer_ = some { size := ids.length, data := ids }) ∧
      ids.length =
        ((w'.scene.entities_.filter (fun q => (w'.heap q).HasMaterialIDs)).map
          (fun q => (w'.heap q).GetNumTriangles)).sum ∧
      ∀ (i : Nat) (p : EntityPtr) (row : InstanceMetadata),
        w'.scene.entities_[i]? = some p → (w'.heap p).HasMaterialIDs = true →
        w'.scene.instance_metadata_[i]? = some row →
          row.triangle_count = ((w'.heap p).GetNumTriangles : Int) ∧
          ∀ t : Nat, (t : Int) < row.triangle_count →
            ∃ a, (w'.heap p).GetMaterialIDs = some a ∧
              ids[(row.material_id_offset + (t : Int)).toNat]? =
                some (a t + (w'.heap p).GetMaterialOffset) := by
  by_cases hnil : w.scene.entities_ = []
  · have hw := Scene.BuildAccelerationStructures_nil hnil h
    subst hw
    refine ⟨[], by simp [Scene.global_material_ids, hnil, Scene.ConstructMaterialIDBuffer.collect],
      fun hc => absurd rfl hc, by simp [hnil], ?_⟩
    intro i p row hp
    rw [hnil] at hp
    simp at hp
  · obtain ⟨_, hread, _, hu, _, _, hbuf, _⟩ := Scene.BuildAccelerationStructures_lists hnil h
    refine ⟨_, hu, hbuf _ hu, ?_, ?_⟩
    · rw [length_flatMap_eq_sum,
        sum_map_congr _ (fun q => (w'.heap q).idCount) _
          (fun q hq => Entity.idChunk_length _ (hread q hq)),
        ← prefixSum_length, prefixSum_idCount, List.take_length]
    · intro i p row hp hid hrow
      rw [Scene.BuildAccelerationStructures_row h i p hp] at hrow
      simp only [Option.some.injEq] at hrow
      subst hrow
      have hoff : ((w'.heap p).metadataRow
          (prefixSum (fun q => (w'.heap q).uvCount) w'.scene.entities_ i : Nat)
          (prefixSum (fun q => (w'.heap q).idCount) w'.scene.entities_ i : Nat)
          (prefixSum (fun q => (w'.heap q).GetNumIndices)
            w'.scene.entities_ i : Nat)).material_id_offset
          = (prefixSum (fun q => (w'.heap q).idCount) w'.scene.entities_ i : Nat) := by
        simp [Entity.metadataRow, hid]
      have hcnt : ((w'.heap p).metadataRow
          (prefixSum (fun q => (w'.heap q).uvCount) w'.scene.entities_ i : Nat)
          (prefixSum (fun q => (w'.heap q).idCount) w'.scene.entities_ i : Nat)
          (prefixSum (fun q => (w'.heap q).GetNumIndices)
            w'.scene.entities_ i : Nat)).triangle_count
          = ((w'.heap p).GetNumTriangles : Int) := by
        simp [Entity.metadataRow, hid]
      rw [hoff, hcnt]
      refine ⟨rfl, ?_⟩
      intro t ht0
      have ht2 : t < (w'.heap p).GetNumTriangles := by exact_mod_cast ht0
      have hmem : p ∈ w'.scene.entities_ := List.mem_iff_getElem?.mpr ⟨i, hp⟩
      obtain ⟨a, ha⟩ := hread p hmem hid (Nat.lt_of_le_of_lt (Nat.zero_le t) ht2)
      refine ⟨a, ha, ?_⟩
      have hchunk : (w'.heap p).idChunk =
          readAll (some a) (fun id => id + (w'.heap p).GetMaterialOffset)
            (w'.heap p).GetNumTriangles := by
        unfold Entity.idChunk
        rw [if_pos hid, ha]
      have hlen : t < ((fun q => (w'.heap q).idChunk) p).length := by
        simp only [hchunk, readAll, List.length_map, List.length_range]
        exact ht2
      have hs : prefixSum (fun q => (w'.heap q).idCount) w'.scene.entities_ i =
          prefixSum (fun q => ((fun r => (w'.heap r).idChunk) q).length) w'.scene.entities_ i :=
        prefixSum_congr _ _ _ _ (fun q hq => (Entity.idChunk_length _ (hread q hq)).symm)
      have ht : (((prefixSum (fun q => (w'.heap q).idCount) w'.scene.entities_ i : Nat) : Int)
          + (t : Int)).toNat =
          prefixSum (fun q => ((fun r => (w'.heap r).idChunk) q).length) w'.scene.entities_ i
            + t := by
        rw [hs]
        omega
      rw [ht, flatMap_getElem?_offset (fun r => (w'.heap r).idChunk) _ i p t hp hlen]
      simp only [hchunk]
      rw [readAll_getElem? a _ _ t ht2]

/-- C5, witness: entity `1` of the example scene has IDs over two triangles. -/
theorem C5_global_material_ids_witness :
    ∃ (w' : World) (ids : List Int), exampleBuild = some w' ∧
      Scene.global_material_ids w' = some ids ∧ ids.length = 2 := by
  obtain ⟨w1, w2, hb, h2⟩ := exampleBuild_eq_some
  obtain ⟨ids, hu, _, hlen, _⟩ := C5_global_material_ids exampleDecoder w1 w2 hb
  refine ⟨w2, ids, h2, hu, ?_⟩
  have hd : exampleBuild.map (fun w =>
      ((w.scene.entities_.filter (fun q => (w.heap q).HasMaterialIDs)).map
        (fun q => (w.heap q).GetNumTriangles)).sum) = some 2 := by decide
  rw [h2] at hd
  simp only [Option.map_some', Option.some.injEq] at hd
  rw [hlen, hd]

/-- C7: after aggregation, the global index list has as many entries as all entities
have indices; for every entity at position `i` and every `k` below its index
count, the entry at position `index_offset + k` (the offset of metadata row
`i`) is the entity's own `k`-th index, unmodified. A non-empty list is what the
global index buffer holds. -/
theorem C7_global_index_list (d : Decoder) (w w' : World)
    (h : Scene.BuildAccelerationStructures d w = some w') :
    ∃ idx, Scene.global_indices w' = some idx ∧
      (idx ≠ [] → w'.scene.global_index_buffer_ = some { size := idx.length, data := idx }) ∧
      idx.length = (w'.scene.entities_.map (fun q => (w'.heap q).GetNumIndices)).sum ∧
      ∀ (i : Nat) (p : EntityPtr) (row : InstanceMetadata),
        w'.scene.entities_[i]? = some p → w'.scene.instance_metadata_[i]? = some row →
          ∀ k : Nat, k < (w'.heap p).GetNumIndices →
            idx[(row.index_offset + (k : Int)).toNat]? = some ((w'.heap p).GetIndices k) := by
  by_cases hnil : w.scene.entities_ = []
  · have hw := Scene.BuildAccelerationStructures_nil hnil h
    subst hw
    refine ⟨[], by simp [Scene.global_indices, hnil, Scene.ConstructIndexBuffer.collect],
      fun hc => absurd rfl hc, by simp [hnil], ?_⟩
    intro i p row hp
    rw [hnil] at hp
    simp at hp
  · obtain ⟨_, _, _, _, hu, _, _, hbuf⟩ := Scene.BuildAccelerationStructures_lists hnil h
    refine ⟨_, hu, hbuf _ hu, ?_, ?_⟩
    · rw [length_flatMap_eq_sum,
        sum_map_congr _ (fun q => (w'.heap q).GetNumIndices) _
          (fun q _ => Entity.indexChunk_length _)]
    · intro i p row hp hrow k hk
      rw [Scene.BuildAccelerationStructures_row h i p hp] at hrow
      simp only [Option.some.injEq] at hrow
      subst hrow
      have hoff : ((w'.heap p).metadataRow
          (prefixSum (fun q => (w'.heap q).uvCount) w'.scene.entities_ i : Nat)
          (prefixSum (fun q => (w'.heap q).idCount) w'.scene.entities_ i : Nat)
          (prefixSum (fun q => (w'.heap q).GetNumIndices)
            w'.scene.entities_ i : Nat)).index_offset
          = (prefixSum (fun q => (w'.heap q).GetNumIndices) w'.scene.entities_ i : Nat) := rfl
      rw [hoff]
      have hlen : k < ((fun q => (w'.heap q).indexChunk) p).length := by
        simp only [Entity.indexChunk_length]
        exact hk
      have hs : prefixSum (fun q => (w'.heap q).GetNumIndices) w'.scene.entities_ i =
          prefixSum (fun q => ((fun r => (w'.heap r).indexChunk) q).length)
            w'.scene.entities_ i :=
        prefixSum_congr _ _ _ _ (fun q _ => (Entity.indexChunk_length _).symm)
      have ht : (((prefixSum (fun q => (w'.heap q).GetNumIndices) w'.scene.entities_ i : Nat)
          : Int) + (k : Int)).toNat =
          prefixSum (fun q => ((fun r => (w'.heap r).indexChunk) q).length) w'.scene.entities_ i
            + k := by
        rw [hs]
        omega
      rw [ht, flatMap_getElem?_offset (fun r => (w'.heap r).indexChunk) _ i p k hp hlen]
      simp only [Entity.indexChunk]
      rw [readAll_getElem? _ _ _ k hk]
      rfl

/-- C7, witness: the two entities of the example scene have 6 indices each. -/
theorem C7_global_index_list_witness :
    ∃ (w' : World) (idx : List Nat), exampleBuild = some w' ∧
      Scene.global_indices w' = some idx ∧ idx.length = 12 := by
  obtain ⟨w1, w2, hb, h2⟩ := exampleBuild_eq_some
  obtain ⟨idx, hu, _, hlen, _⟩ := C7_global_index_list exampleDecoder w1 w2 hb
  refine ⟨w2, idx, h2, hu, ?_⟩
  have hd : exampleBuild.map (fun w =>
      (w.scene.entities_.map (fun q => (w.heap q).GetNumIndices)).sum) = some 12 := by decide
  rw [h2] at hd
  simp only [Option.map_some', Option.some.injEq] at hd
  rw [hlen, hd]

/-- C8: every row of the instance-metadata table produced by an aggregation of a
non-empty scene has `has_uv == 0` if and only if `uv_offset == -1` and
`vertex_count == 0`. -/
theorem C8_has_uv_iff_no_uv_window (d : Decoder) (w w' : World)
    (hne : w.scene.entities_ ≠ []) (h : Scene.BuildAccelerationStructures d w = some w')
    (row : InstanceMetadata) (hrow : row ∈ w'.scene.instance_metadata_) :
    row.has_uv = 0 ↔ (row.uv_offset = -1 ∧ row.vertex_count = 0) := by
  obtain ⟨_, _, hmd⟩ := Scene.BuildAccelerationStructures_table hne h
  obtain ⟨i, hi⟩ := List.mem_iff_getElem?.mp hrow
  have hlt : i < w'.scene.entities_.length := by
    rcases Nat.lt_or_ge i w'.scene.entities_.length with hlt | hge
    · exact hlt
    · rw [hmd, List.getElem?_eq_none (by rw [Scene.metadataRows_length]; exact hge)] at hi
      exact absurd hi (by simp)
  have hp : w'.scene.entities_[i]? = some (w'.scene.entities_[i]) :=
    List.getElem?_eq_getElem hlt
  rw [Scene.BuildAccelerationStructures_row h i _ hp] at hi
  simp only [Option.some.injEq] at hi
  subst hi
  unfold Entity.metadataRow
  cases (w'.heap w'.scene.entities_[i]).HasUVCoordinates
  · simp
  · simp only [if_true]
    constructor
    · intro h1
      exact absurd h1 (by decide)
    · rintro ⟨h1, _⟩
      omega

/-- C8, witness: the rows of the example scene. -/
theorem C8_has_uv_iff_no_uv_window_witness :
    ∃ (w' : World) (row : InstanceMetadata), exampleBuild = some w' ∧
      w'.scene.instance_metadata_[1]? = some row ∧
      (row.has_uv = 0 ↔ (row.uv_offset = -1 ∧ row.vertex_count = 0)) := by
  obtain ⟨w1, w2, hb, h2⟩ := exampleBuild_eq_some
  have hd : exampleBuild.map (fun w => (w.scene.instance_metadata_[1]?, w1.scene.entities_)) =
      some (some ⟨-1, 0, 0, 1, 0, 2, 6, 0⟩, w1.scene.entities_) := by
    rw [h2]
    have hd2 : exampleBuild.map (fun w => w.scene.instance_metadata_[1]?) =
        some (some ⟨-1, 0, 0, 1, 0, 2, 6, 0⟩) := by decide
    rw [h2] at hd2
    simpa using hd2
  rw [h2] at hd
  simp only [Option.map_some', Option.some.injEq, Prod.mk.injEq, and_true] at hd
  have hne : w1.scene.entities_ ≠ [] := by
    intro hnil
    have := Scene.BuildAccelerationStructures_nil hnil hb
    subst this
    have hd3 : exampleBuild.map (fun w => w.scene.entities_) = some [0, 1] := by decide
    rw [h2] at hd3
    simp only [Option.map_some', Option.some.injEq] at hd3
    rw [hnil] at hd3
    exact absurd hd3 (by simp)
  exact ⟨w2, _, h2, hd,
    C8_has_uv_iff_no_uv_window exampleDecoder w1 w2 hne hb _
      (List.mem_iff_getElem?.mpr ⟨1, hd⟩)⟩

/-- C9, counterexample: an ID-bearing entity whose mesh has no triangle, added to a
fresh scene and aggregated. Its metadata row has `has_material_ids == 1` and
`triangle_count == 0`. -/
theorem C9_counterexample_ids_without_triangles :
    ((Scene.AddEntities { heap := noTriangleHeap, scene := Scene.ctor } [some 0]).bind
      (Scene.BuildAccelerationStructures exampleDecoder)).map
        (fun w => w.scene.instance_metadata_.map
          (fun row => (row.has_material_ids, row.triangle_count))) = some [(1, 0)] := by
  decide

/-- C9, as amended: after aggregation, for the metadata row of every position `i`,
`has_material_ids == 0` implies `triangle_count == 0`; and when the entity at
position `i` has at least one triangle, `has_material_ids == 0` if and only if
`triangle_count == 0`. -/
theorem C9_has_material_ids_and_triangle_count (d : Decoder) (w w' : World)
    (h : Scene.BuildAccelerationStructures d w = some w') (i : Nat) (p : EntityPtr)
    (row : InstanceMetadata) (hp : w'.scene.entities_[i]? = some p)
    (hrow : w'.scene.instance_metadata_[i]? = some row) :
    (row.has_material_ids = 0 → row.triangle_count = 0) ∧
    (0 < (w'.heap p).GetNumTriangles →
      (row.has_material_ids = 0 ↔ row.triangle_count = 0)) := by
  rw [Scene.BuildAccelerationStructures_row h i p hp] at hrow
  simp only [Option.some.injEq] at hrow
  subst hrow
  unfold Entity.metadataRow
  cases (w'.heap p).HasMaterialIDs
  · simp
  · simp only [if_true]
    refine ⟨fun h1 => absurd h1 (by decide), fun hpos => ⟨fun h1 => absurd h1 (by decide), ?_⟩⟩
    intro h1
    omega

/-- C9, witness: the row of entity `1` of the example scene, which has IDs over two
triangles. -/
theorem C9_has_material_ids_and_triangle_count_witness :
    ∃ (w' : World) (row : InstanceMetadata), exampleBuild = some w' ∧
      w'.scene.instance_metadata_[1]? = some row ∧
      (row.has_material_ids = 0 ↔ row.triangle_count = 0) := by
  obtain ⟨w1, w2, hb, h2⟩ := exampleBuild_eq_some
  have hd : exampleBuild.map (fun w =>
      (w.scene.entities_[1]?, w.scene.instance_metadata_[1]?,
        decide (0 < (w.heap 1).GetNumTriangles))) =
      some (some 1, some ⟨-1, 0, 0, 1, 0, 2, 6, 0⟩, true) := by decide
  rw [h2] at hd
  simp only [Option.map_some', Option.some.injEq, Prod.mk.injEq, decide_eq_true_eq] at hd
  obtain ⟨he, hr, hpos⟩ := hd
  exact ⟨w2, _, h2, hr,
    (C9_has_material_ids_and_triangle_count exampleDecoder w1 w2 hb 1 1 _ he hr).2 hpos⟩

/-- C10: after aggregation, for every entity at position `i` without per-triangle
material IDs, metadata row `i` has `has_material_ids == 0` and its
`material_id_offset` is the entity's `material_offset`; the row of the flattened
materials list at that index is the entity's default material when it has no
material list, and its first listed material when it has one. -/
theorem C10_direct_material_index (d : Decoder) (w w' : World)
    (h : Scene.BuildAccelerationStructures d w = some w') (i : Nat) (p : EntityPtr)
    (hp : w'.scene.entities_[i]? = some p) (hno : (w'.heap p).HasMaterialIDs = false) :
    ∃ row, w'.scene.instance_metadata_[i]? = some row ∧
      row.has_material_ids = 0 ∧
      row.material_id_offset = (w'.heap p).GetMaterialOffset ∧
      (Scene.materials w')[row.material_id_offset.toNat]? =
        some (match (w'.heap p).GetMaterials with
          | [] => (w'.heap p).GetDefaultMaterial.ToGPUData
          | m :: _ => m.ToGPUData) := by
  have hmem : p ∈ w'.scene.entities_ := List.mem_iff_getElem?.mpr ⟨i, hp⟩
  refine ⟨_, Scene.BuildAccelerationStructures_row h i p hp, ?_, ?_, ?_⟩
  · simp [Entity.metadataRow, hno]
  · simp [Entity.metadataRow, hno]
  · have hoff : ((w'.heap p).metadataRow
        (prefixSum (fun q => (w'.heap q).uvCount) w'.scene.entities_ i : Nat)
        (prefixSum (fun q => (w'.heap q).idCount) w'.scene.entities_ i : Nat)
        (prefixSum (fun q => (w'.heap q).GetNumIndices)
          w'.scene.entities_ i : Nat)).material_id_offset
        = (w'.heap p).GetMaterialOffset := by
      simp [Entity.metadataRow, hno]
    rw [hoff]
    have hrow := Scene.BuildAccelerationStructures_material_row h p hmem 0
      (by rw [Entity.materialChunk_length]; exact Entity.materialSlots_pos _)
    simp only [Nat.cast_zero, add_zero] at hrow
    rw [hrow]
    unfold Entity.materialChunk Entity.HasMTLMaterials Entity.GetMaterials
    cases (w'.heap p).materials_ with
    | nil => rfl
    | cons m rest => simp

/-- C10, witness: entity `0` of the example scene has a material list and no
per-triangle IDs. -/
theorem C10_direct_material_index_witness :
    ∃ (w' : World) (row : InstanceMetadata), exampleBuild = some w' ∧
      w'.scene.instance_metadata_[0]? = some row ∧ row.has_material_ids = 0 ∧
      row.material_id_offset = (w'.heap 0).GetMaterialOffset := by
  obtain ⟨w1, w2, hb, h2⟩ := exampleBuild_eq_some
  have hd : exampleBuild.map (fun w =>
      (w.scene.entities_[0]?, (w.heap 0).HasMaterialIDs)) = some (some 0, false) := by decide
  rw [h2] at hd
  simp only [Option.map_some', Option.some.injEq, Prod.mk.injEq] at hd
  obtain ⟨he, hno⟩ := hd
  obtain ⟨row, hr, h0, hoff, _⟩ :=
    C10_direct_material_index exampleDecoder w1 w2 hb 0 0 he hno
  exact ⟨w2, row, h2, hr, h0, hoff⟩

/-! ## Instances, transform updates and rejected entities -/

namespace Scene

/-- The two instance loops compute the same list. -/
theorem UpdateInstances.instances_eq (heap : Heap) (ps : List EntityPtr) (i : Nat)
    (acc : List RayTracingInstance) :
    UpdateInstances.instances heap ps i acc = makeInstances heap ps i acc := by
  induction ps generalizing i acc with
  | nil => rfl
  | cons p rest ih =>
    unfold UpdateInstances.instances makeInstances
    cases (heap p).GetBLAS with
    | none => exact ih _ _
    | some blas => exact ih _ _

/-- After a successful aggregation of a non-empty scene, the top-level structure
holds the instance list built from the entity states the call started in. -/
theorem BuildAccelerationStructures_tlas {d : Decoder} {w w' : World}
    (hne : w.scene.entities_ ≠ []) (h : BuildAccelerationStructures d w = some w') :
    w'.scene.tlas_ = some ⟨makeInstances w.heap w.scene.entities_ 0 []⟩ := by
  obtain ⟨uvs, ids, idx, b, _, _, _, _, rfl⟩ := BuildAccelerationStructures_eq_some hne h
  show (prepared d w).scene.tlas_ = _
  unfold prepared AssignTextureIndices
  rw [(AssignTextureIndices.loop_frame_textures d _ _).1.tlas_eq]
  rfl

/-- The method `UpdateInstances` changes at most the top-level structure. -/
theorem UpdateInstances_eq (w : World) :
    UpdateInstances w =
      { w with scene := { w.scene with tlas_ := (UpdateInstances w).scene.tlas_ } } := by
  unfold UpdateInstances
  split
  · rename_i ht
    simp only [← ht]
  · split
    · rename_i t ht _
      simp only [← ht]
    · rfl

end Scene

/-- C18: for every scene state with a top-level structure and a non-empty entity
set, the instance loop of `UpdateInstances` computes the same list as the
instance loop of `BuildAccelerationStructures` on the same entity state;
`UpdateInstances` hands exactly this list to the refit, and an aggregation
started in the same state builds its top-level structure from exactly this
list. -/
theorem C18_update_instances_matches_build_step (w : World) (tlas : TopLevelAS)
    (htlas : w.scene.tlas_ = some tlas) (hne : w.scene.entities_ ≠ []) :
    Scene.UpdateInstances.instances w.heap w.scene.entities_ 0 [] =
      Scene.makeInstances w.heap w.scene.entities_ 0 [] ∧
    (Scene.UpdateInstances w).scene.tlas_ =
      some (tlas.UpdateInstances (Scene.makeInstances w.heap w.scene.entities_ 0 [])) ∧
    ∀ (d : Decoder) (w' : World), Scene.BuildAccelerationStructures d w = some w' →
      w'.scene.tlas_ = (Scene.UpdateInstances w).scene.tlas_ := by
  have hupd : (Scene.UpdateInstances w).scene.tlas_ =
      some (tlas.UpdateInstances (Scene.makeInstances w.heap w.scene.entities_ 0 [])) := by
    unfold Scene.UpdateInstances
    rw [htlas]
    simp only [isEmpty_eq_false_of_ne_nil hne, Bool.false_eq_true, if_false,
      Scene.UpdateInstances.instances_eq]
  refine ⟨Scene.UpdateInstances.instances_eq _ _ _ _, hupd, ?_⟩
  intro d w' h
  rw [hupd, Scene.BuildAccelerationStructures_tlas hne h]
  rfl

/-- C18, witness: the example scene after its aggregation has a top-level structure
and two entities. -/
theorem C18_update_instances_matches_build_step_witness :
    ∃ w : World, exampleBuild = some w ∧
      Scene.UpdateInstances.instances w.heap w.scene.entities_ 0 [] =
        Scene.makeInstances w.heap w.scene.entities_ 0 [] := by
  obtain ⟨w1, w2, hb, h2⟩ := exampleBuild_eq_some
  have hd : exampleBuild.map (fun w => (w.scene.tlas_.isSome, w.scene.entities_)) =
      some (true, [0, 1]) := by decide
  rw [h2] at hd
  simp only [Option.map_some', Option.some.injEq, Prod.mk.injEq] at hd
  obtain ⟨tlas, ht⟩ := Option.isSome_iff_exists.mp hd.1
  have hne : w2.scene.entities_ ≠ [] := by
    rw [hd.2]
    simp
  exact ⟨w2, h2, (C18_update_instances_matches_build_step w2 tlas ht hne).1⟩

/-- C19: `UpdateInstances` never changes an entity (so no `material_offset`, no
material), and of the scene it changes nothing but the top-level structure: the
texture and normal caches, the instance-metadata table, the global buffers and
the materials buffer are the same, and so are the global UV, material-ID and
index lists and the flattened materials list taken over the state. When no
top-level structure exists or the entity set is empty, it changes nothing at
all. -/
theorem C19_update_instances_frame (w : World) :
    (Scene.UpdateInstances w).heap = w.heap ∧
    (Scene.UpdateInstances w).scene =
      { w.scene with tlas_ := (Scene.UpdateInstances w).scene.tlas_ } ∧
    Scene.global_uv (Scene.UpdateInstances w) = Scene.global_uv w ∧
    Scene.global_material_ids (Scene.UpdateInstances w) = Scene.global_material_ids w ∧
    Scene.global_indices (Scene.UpdateInstances w) = Scene.global_indices w ∧
    Scene.materials (Scene.UpdateInstances w) = Scene.materials w ∧
    ((w.scene.tlas_ = none ∨ w.scene.entities_ = []) → Scene.UpdateInstances w = w) := by
  have hnoop : (w.scene.tlas_ = none ∨ w.scene.entities_ = []) →
      Scene.UpdateInstances w = w := by
    intro hc
    unfold Scene.UpdateInstances
    split
    · rfl
    · rcases hc with hc | hc
      · rename_i t ht
        rw [hc] at ht
        exact absurd ht (by simp)
      · rw [hc]
        rfl
  have e := Scene.UpdateInstances_eq w
  generalize (Scene.UpdateInstances w).scene.tlas_ = t at e
  refine ⟨?_, ?_, ?_, ?_, ?_, ?_, hnoop⟩
  · rw [e]
  · rw [e]
  · rw [e]; rfl
  · rw [e]; rfl
  · rw [e]; rfl
  · rw [e]; rfl

/-- C19, witness: `UpdateInstances` on a fresh scene changes nothing. -/
theorem C19_update_instances_frame_witness :
    Scene.UpdateInstances { heap := plainHeap, scene := Scene.ctor } =
      { heap := plainHeap, scene := Scene.ctor } :=
  (C19_update_instances_frame { heap := plainHeap, scene := Scene.ctor }).2.2.2.2.2.2
    (Or.inl rfl)

/-- C20: `BuildAccelerationStructures` on a scene with an empty entity set returns
the state it was given: no top-level structure is created, and the metadata
table, the global buffers, the materials buffer and the texture and normal
caches are the same as before the call. -/
theorem C20_build_on_empty_scene_is_noop (d : Decoder) (w : World)
    (hempty : w.scene.entities_ = []) :
    Scene.BuildAccelerationStructures d w = some w := by
  unfold Scene.BuildAccelerationStructures
  rw [hempty]
  rfl

/-- C20, witness: the fresh scene. -/
theorem C20_build_on_empty_scene_is_noop_witness :
    Scene.BuildAccelerationStructures exampleDecoder
      { heap := plainHeap, scene := Scene.ctor } =
      some { heap := plainHeap, scene := Scene.ctor } :=
  C20_build_on_empty_scene_is_noop exampleDecoder { heap := plainHeap, scene := Scene.ctor } rfl

/-- C16: `AddEntity` with a null entity, or with an entity that is not valid, returns
the state it was given, so the entity sequence and the entity count are those
of before (and a later aggregation sees the same scene); an entity whose load
failed, through `LoadMesh` or through the constructor, is not valid. With a
valid entity, a completed `AddEntity` leaves the previous sequence with that
entity appended at the end, and the call completes when the optional arrays of
the entity are present. -/
theorem C16_add_entity_rejects_null_and_invalid (w : World) :
    Scene.AddEntity w none = some w ∧
    (∀ p : EntityPtr, (w.heap p).IsValid = false → Scene.AddEntity w (some p) = some w) ∧
    (∀ (L : Loader) (e : Entity) (path : String),
      (L.LoadObjFile (L.FindAssetFile path) e.mesh_).1 ≠ 0 →
        (Entity.LoadMesh L e path).1 = false ∧ (Entity.LoadMesh L e path).2.IsValid = false) ∧
    (∀ (L : Loader) (path : String) (m : Material) (t : Mat4),
      (L.LoadObjFile (L.FindAssetFile path) Mesh.empty).1 ≠ 0 →
        (Entity.ctor L path m t).IsValid = false) ∧
    (∀ (p : EntityPtr) (w' : World), (w.heap p).IsValid = true →
      Scene.AddEntity w (some p) = some w' →
        w'.scene.entities_ = w.scene.entities_ ++ [p] ∧
        w'.scene.GetEntityCount = w.scene.GetEntityCount + 1) ∧
    (∀ p : EntityPtr, (w.heap p).IsValid = true → (w.heap p).UVReadable →
      (w.heap p).IDsReadable → ∃ w', Scene.AddEntity w (some p) = some w') := by
  refine ⟨rfl, ?_, ?_, ?_, ?_, ?_⟩
  · intro p hp
    unfold Scene.AddEntity
    simp only [hp, Bool.not_false, if_true]
  · intro L e path hfail
    unfold Entity.LoadMesh
    simp only [hfail, ne_eq, not_false_eq_true, if_true, Entity.IsValid, and_self]
  · intro L path m t hfail
    unfold Entity.ctor Entity.LoadMesh
    simp only [hfail, ne_eq, not_false_eq_true, if_true, Entity.IsValid]
  · intro p w' hv h
    obtain ⟨_, _, he⟩ := Scene.AddEntity_eq_some h
    simp only [hv, if_true] at he
    refine ⟨he, ?_⟩
    unfold Scene.GetEntityCount
    rw [he, List.length_append]
    rfl
  · intro p _ hu hi
    exact Scene.AddEntity_isSome w (some p) (fun q hq => by
      simp only [Option.some.injEq] at hq
      subst hq
      exact ⟨hu, hi⟩)

/-- C16, witness: a null entity offered to a fresh scene. -/
theorem C16_add_entity_rejects_null_and_invalid_witness :
    Scene.AddEntity { heap := plainHeap, scene := Scene.ctor } none =
      some { heap := plainHeap, scene := Scene.ctor } :=
  (C16_add_entity_rejects_null_and_invalid { heap := plainHeap, scene := Scene.ctor }).1

/-! ## The texture and normal caches -/

/-- C13, counterexample: a scene in which `a.png` has been loaded once. Two further
calls of `LoadTexture` on `a.png` both return index `0`, and the texture list
has one image before them and one image after them: it does not grow. -/
theorem C13_counterexample_path_already_cached :
    ((Scene.LoadTexture exampleDecoder Scene.ctor "a.png").1.textures_.length,
      (Scene.LoadTexture exampleDecoder
        (Scene.LoadTexture exampleDecoder Scene.ctor "a.png").1 "a.png").2,
      (Scene.LoadTexture exampleDecoder
        (Scene.LoadTexture exampleDecoder
          (Scene.LoadTexture exampleDecoder Scene.ctor "a.png").1 "a.png").1 "a.png").2,
      (Scene.LoadTexture exampleDecoder
        (Scene.LoadTexture exampleDecoder
          (Scene.LoadTexture exampleDecoder Scene.ctor "a.png").1
            "a.png").1 "a.png").1.textures_.length) = (1, 0, 0, 1) := by
  decide

/-- C13, as amended: for every scene state and every path whose image decodes,
calling `LoadTexture` on the path twice returns the same index both times and
the second call changes nothing (it creates no image); over the two calls the
texture list grows by exactly one image, put at the returned index, when the
path was not in the cache before the first call, and not at all when it was. -/
theorem C13_load_texture_twice (d : Decoder) (s : Scene) (path : String)
    (img : DecodedImage) (hdec : d path = some img) :
    (Scene.LoadTexture d (Scene.LoadTexture d s path).1 path).2 =
      (Scene.LoadTexture d s path).2 ∧
    (Scene.LoadTexture d (Scene.LoadTexture d s path).1 path).1 =
      (Scene.LoadTexture d s path).1 ∧
    (s.texture_path_to_index_ path = none →
      (Scene.LoadTexture d (Scene.LoadTexture d s path).1 path).1.textures_.length =
        s.textures_.length + 1 ∧
      (Scene.LoadTexture d s path).2 = (s.textures_.length : Int)) ∧
    (∀ i : Int, s.texture_path_to_index_ path = some i →
      (Scene.LoadTexture d (Scene.LoadTexture d s path).1 path).1 = s ∧
      (Scene.LoadTexture d s path).2 = i) := by
  cases hc : s.texture_path_to_index_ path with
  | some i =>
    have h1 : Scene.LoadTexture d s path = (s, i) := by
      unfold Scene.LoadTexture
      rw [hc]
    rw [h1]
    simp only [h1]
    exact ⟨trivial, trivial, fun h => absurd h (by simp), fun j hj => ⟨trivial, by
      simp only [Option.some.injEq] at hj
      exact hj⟩⟩
  | none =>
    have h1 : Scene.LoadTexture d s path =
        ({ s with
            textures_ := s.textures_ ++ [(CreateImage img.width img.height).UploadData img.data]
            texture_path_to_index_ := fun q =>
              if q = path then some (s.textures_.length : Int)
              else s.texture_path_to_index_ q },
          (s.textures_.length : Int)) := by
      unfold Scene.LoadTexture
      rw [hc, hdec]
    have h2 : Scene.LoadTexture d (Scene.LoadTexture d s path).1 path =
        ((Scene.LoadTexture d s path).1, (s.textures_.length : Int)) := by
      rw [h1]
      unfold Scene.LoadTexture
      simp only [if_true]
    rw [h2]
    refine ⟨by rw [h1], rfl, fun _ => ⟨by rw [h1]; simp, by rw [h1]⟩, fun j hj => ?_⟩
    exact absurd hj (by simp)

/-- C13, witness: `a.png` loaded twice into a fresh scene. -/
theorem C13_load_texture_twice_witness :
    (Scene.LoadTexture exampleDecoder
      (Scene.LoadTexture exampleDecoder Scene.ctor "a.png").1 "a.png").2 =
      (Scene.LoadTexture exampleDecoder Scene.ctor "a.png").2 :=
  (C13_load_texture_twice exampleDecoder Scene.ctor "a.png"
    { width := 1, height := 1, channels := 4, data := [255, 255, 255, 255] } rfl).1

/-- A second call of `LoadNormal` on a path that decodes returns the index after
the one of the first call and appends a second image. -/
theorem LoadNormal_twice (d : Decoder) (s : Scene) (path : String) (img : DecodedImage)
    (hdec : d path = some img) :
    (Scene.LoadNormal d s path).2 = (s.normals_.length : Int) ∧
    (Scene.LoadNormal d (Scene.LoadNormal d s path).1 path).2 =
      (s.normals_.length : Int) + 1 ∧
    (Scene.LoadNormal d (Scene.LoadNormal d s path).1 path).1.normals_.length =
      s.normals_.length + 2 := by
  unfold Scene.LoadNormal
  simp only [hdec, List.length_append, List.length_singleton]
  exact ⟨trivial, by push_cast; trivial, trivial⟩

/-- C14, evaluated at the failing input: `LoadNormal` called twice on the same path
in a fresh scene, with a decoder that decodes every path. The first call
returns `0`, the second returns `1`, and the normal-map list ends with two
entries. -/
theorem C14_load_normal_twice_appends_twice :
    ((Scene.LoadNormal exampleDecoder Scene.ctor "n.png").2,
      (Scene.LoadNormal exampleDecoder
        (Scene.LoadNormal exampleDecoder Scene.ctor "n.png").1 "n.png").2,
      (Scene.LoadNormal exampleDecoder
        (Scene.LoadNormal exampleDecoder Scene.ctor "n.png").1
          "n.png").1.normals_.length) = (0, 1, 2) := by
  decide

/-- C12: for the two-entity scene `A` (3 materials, UV coordinates, no per-triangle
IDs) then `B` (no material list, no UV coordinates, per-triangle IDs over 2
triangles), after aggregation `A.material_offset = 0`, `B.material_offset = 3`,
and the table is the row `{uv_offset 0, has_uv 1, vertex_count = A's vertex
count, material_id_offset 0, has_material_ids 0, triangle_count 0,
index_offset 0}` followed by the row `{uv_offset -1, has_uv 0, vertex_count 0,
material_id_offset 0, has_material_ids 1, triangle_count 2, index_offset = A's
index count}`. -/
theorem C12_two_entity_example (d : Decoder) (w w' : World) (a b : EntityPtr)
    (hseq : w.scene.entities_ = [a, b])
    (hA_mats : (w.heap a).GetMaterials.length = 3)
    (hA_uv : (w.heap a).HasUVCoordinates = true)
    (hA_ids : (w.heap a).HasMaterialIDs = false)
    (_hB_mats : (w.heap b).GetMaterials = [])
    (hB_uv : (w.heap b).HasUVCoordinates = false)
    (hB_ids : (w.heap b).HasMaterialIDs = true)
    (hB_tri : (w.heap b).GetNumTriangles = 2)
    (h : Scene.BuildAccelerationStructures d w = some w') :
    (w'.heap a).GetMaterialOffset = 0 ∧ (w'.heap b).GetMaterialOffset = 3 ∧
    w'.scene.instance_metadata_ =
      [({ uv_offset := 0, material_id_offset := 0, has_uv := 1, has_material_ids := 0,
          vertex_count := ((w.heap a).GetNumVertices : Int), triangle_count := 0,
          index_offset := 0, padding := 0 } : InstanceMetadata),
       ({ uv_offset := -1, material_id_offset := 0, has_uv := 0, has_material_ids := 1,
          vertex_count := 0, triangle_count := 2,
          index_offset := ((w.heap a).GetNumIndices : Int), padding := 0 } :
            InstanceMetadata)] := by
  have hab : a ≠ b := by
    intro e
    rw [e, hB_uv] at hA_uv
    exact absurd hA_uv (by simp)
  have hne : w.scene.entities_ ≠ [] := by rw [hseq]; simp
  obtain ⟨he, hh, hmd⟩ := Scene.BuildAccelerationStructures_table hne h
  have hgeo := fun q => Scene.BuildAccelerationStructures_sameGeometry h q
  have hslotA : (w.heap a).materialSlots = 3 := by
    rw [Entity.materialSlots_eq]
    unfold Entity.GetMaterials at hA_mats
    rw [hA_mats]
    rfl
  have hoffA : (w'.heap a).GetMaterialOffset = 0 := by
    unfold Entity.GetMaterialOffset
    rw [hh, Scene.prepared_offset_last d w 0 a (by rw [hseq]; rfl)
      (by rw [hseq]; simpa using hab), prefixSum_zero]
    rfl
  have hoffB : (w'.heap b).GetMaterialOffset = 3 := by
    unfold Entity.GetMaterialOffset
    rw [hh, Scene.prepared_offset_last d w 1 b (by rw [hseq]; rfl)
      (by rw [hseq]; simp), Scene.prepared_prefixSum_slots, hseq]
    simp [prefixSum, hslotA]
  refine ⟨hoffA, hoffB, ?_⟩
  rw [hmd, he, hseq]
  simp only [Scene.metadataRows, (hgeo a).metadataRow_eq, (hgeo b).metadataRow_eq,
    (hgeo a).uvCount_eq, (hgeo a).idCount_eq, (hgeo a).numIndices_eq, hoffA]
  simp [Entity.uvCount, Entity.idCount, hA_uv, hA_ids, hB_uv, hB_ids, hB_tri]

/-- C12, witness: the example scene is such a pair (`A` has 4 vertices and 6
indices). -/
theorem C12_two_entity_example_witness :
    ∃ w' : World, exampleBuild = some w' ∧
      (w'.heap 0).GetMaterialOffset = 0 ∧ (w'.heap 1).GetMaterialOffset = 3 ∧
      w'.scene.instance_metadata_ = [⟨0, 0, 1, 0, 4, 0, 0, 0⟩, ⟨-1, 0, 0, 1, 0, 2, 6, 0⟩] := by
  have hsome : (Scene.AddEntities { heap := exampleHeap, scene := Scene.ctor }
      [some 0, some 1]).isSome = true := by decide
  obtain ⟨w1, h1⟩ := Option.isSome_iff_exists.mp hsome
  have hd : (Scene.AddEntities { heap := exampleHeap, scene := Scene.ctor }
      [some 0, some 1]).map (fun w =>
        (w.scene.entities_, (w.heap 0).GetMaterials.length, (w.heap 0).HasUVCoordinates,
          (w.heap 0).HasMaterialIDs, (w.heap 0).GetNumVertices)) =
      some ([0, 1], 3, true, false, 4) := by decide
  have hd2 : (Scene.AddEntities { heap := exampleHeap, scene := Scene.ctor }
      [some 0, some 1]).map (fun w =>
        ((w.heap 1).GetMaterials.length, (w.heap 1).HasUVCoordinates,
          (w.heap 1).HasMaterialIDs, (w.heap 1).GetNumTriangles,
          (w.heap 0).GetNumIndices)) =
      some (0, false, true, 2, 6) := by decide
  rw [h1] at hd hd2
  simp only [Option.map_some', Option.some.injEq, Prod.mk.injEq] at hd hd2
  obtain ⟨hseq, hA1, hA2, hA3, hv⟩ := hd
  obtain ⟨hB1, hB2, hB3, hB4, hi⟩ := hd2
  obtain ⟨x1, w2, hb, h2⟩ := exampleBuild_eq_some
  have hw : Scene.BuildAccelerationStructures exampleDecoder w1 = some w2 := by
    have : exampleBuild = (some w1).bind (Scene.BuildAccelerationStructures exampleDecoder) := by
      unfold exampleBuild
      rw [h1]
    rw [this] at h2
    exact h2
  have hc := C12_two_entity_example exampleDecoder w1 w2 0 1 hseq hA1 hA2 hA3
    (List.length_eq_zero.mp hB1) hB2 hB3 hB4 hw
  rw [hv, hi] at hc
  exact ⟨w2, h2, hc⟩

/-! ## The instance list of the top-level structure -/

namespace Scene

theorem makeInstances_acc (heap : Heap) (ps : List EntityPtr) (i : Nat)
    (acc : List RayTracingInstance) :
    makeInstances heap ps i acc = acc ++ makeInstances heap ps i [] := by
  induction ps generalizing i acc with
  | nil => simp [makeInstances]
  | cons p rest ih =>
    unfold makeInstances
    cases (heap p).GetBLAS with
    | none => exact ih _ _
    | some blas =>
      simp only
      rw [ih (i + 1) (acc ++ _), ih (i + 1) ([] ++ _)]
      simp

/-- Every instance the loop appends was made from the bottom-level structure and
the truncated transform of an entity of the sequence, with that entity's
position (counted from `i`) as its custom index. -/
theorem makeInstances_mem (heap : Heap) (ps : List EntityPtr) (i : Nat)
    (inst : RayTracingInstance) (h : inst ∈ makeInstances heap ps i []) :
    ∃ (k : Nat) (p : EntityPtr) (blas : AccelerationStructure),
      ps[k]? = some p ∧ (heap p).GetBLAS = some blas ∧
      inst = blas.MakeInstance (Mat4x3.ofMat4 (heap p).GetTransform) (i + k) 0xFF 0
        RAYTRACING_INSTANCE_FLAG_NONE := by
  induction ps generalizing i with
  | nil => simp [makeInstances] at h
  | cons q rest ih =>
    unfold makeInstances at h
    cases hb : (heap q).GetBLAS with
    | none =>
      rw [hb] at h
      obtain ⟨k, p, blas, h1, h2, h3⟩ := ih (i + 1) h
      exact ⟨k + 1, p, blas, by simpa using h1, h2, by rw [h3]; congr 1; omega⟩
    | some b =>
      rw [hb] at h
      simp only at h
      rw [makeInstances_acc] at h
      rcases List.mem_append.mp h with h0 | h0
      · simp only [List.nil_append, List.mem_singleton] at h0
        exact ⟨0, q, b, by simp, hb, by rw [h0]; rfl⟩
      · obtain ⟨k, p, blas, h1, h2, h3⟩ := ih (i + 1) h0
        exact ⟨k + 1, p, blas, by simpa using h1, h2, by rw [h3]; congr 1; omega⟩

/-- When every entity has a bottom-level structure, the loop appends one instance
per entity, the `j`-th with custom index `i + j`. -/
theorem makeInstances_all (heap : Heap) (ps : List EntityPtr) (i : Nat)
    (hall : ∀ p ∈ ps, (heap p).GetBLAS ≠ none) :
    (makeInstances heap ps i []).length = ps.length ∧
    ∀ j, j < ps.length →
      ((makeInstances heap ps i [])[j]?).map (fun inst => inst.instanceCustomIndex) =
        some (i + j) := by
  induction ps generalizing i with
  | nil => exact ⟨rfl, fun j hj => absurd hj (by simp)⟩
  | cons q rest ih =>
    obtain ⟨b, hb⟩ := Option.ne_none_iff_exists'.mp (hall q (List.mem_cons_self _ _))
    obtain ⟨hl, hj⟩ := ih (i + 1) (fun p hp => hall p (List.mem_cons_of_mem _ hp))
    unfold makeInstances
    rw [hb]
    simp only
    rw [makeInstances_acc]
    refine ⟨by simp [hl], ?_⟩
    intro j hjlt
    cases j with
    | zero => simp [AccelerationStructure.MakeInstance]
    | succ j =>
      have := hj j (by simpa using hjlt)
      simp only [List.nil_append, List.singleton_append, List.getElem?_cons_succ]
      rw [this]
      congr 1
      omega

/-- The offset pass and the texture pass leave the bottom-level structure and the
transform of every entity alone. -/
theorem prepared_blas_transform (d : Decoder) (w : World) (q : EntityPtr) :
    ((prepared d w).heap q).blas_ = (w.heap q).blas_ ∧
    ((prepared d w).heap q).transform_ = (w.heap q).transform_ := by
  unfold prepared AssignTextureIndices
  have h1 := (AssignTextureIndices.loop_frame_textures d
    (AssignMaterialOffsets { w with scene := { w.scene with
      tlas_ := some ⟨makeInstances w.heap w.scene.entities_ 0 []⟩ } }).scene.entities_
    (AssignMaterialOffsets { w with scene := { w.scene with
      tlas_ := some ⟨makeInstances w.heap w.scene.entities_ 0 []⟩ } })).2 q
  rw [h1.blas_eq, h1.transform_eq]
  unfold AssignMaterialOffsets
  simp only
  rw [AssignMaterialOffsets.loop_frame_offsets]
  exact ⟨rfl, rfl⟩

end Scene

/-- C17: after an aggregation of a non-empty scene the scene has a top-level
structure, and every instance of it has a custom index `c` below the entity
count `K`; it was made from the bottom-level structure and the 3x4-truncated
transform of the entity at sequence position `c`, with mask `0xFF`,
shader-table offset `0` and no flags; and metadata row `c` is the record of that
same entity (its flags and counts, the index total of the positions before
`c`). When every entity has a bottom-level structure, the instance list has
exactly `K` instances and the `j`-th has custom index `j`. -/
theorem C17_instance_custom_index_is_position (d : Decoder) (w w' : World)
    (hne : w.scene.entities_ ≠ [])
    (h : Scene.BuildAccelerationStructures d w = some w') :
    ∃ tlas : TopLevelAS, w'.scene.tlas_ = some tlas ∧
      (∀ inst ∈ tlas.instances,
        ∃ (p : EntityPtr) (blas : AccelerationStructure) (row : InstanceMetadata),
          inst.instanceCustomIndex < w'.scene.GetEntityCount ∧
          w'.scene.entities_[inst.instanceCustomIndex]? = some p ∧
          (w'.heap p).GetBLAS = some blas ∧
          inst.blas = blas ∧
          inst.transform = Mat4x3.ofMat4 (w'.heap p).GetTransform ∧
          inst.instanceMask = 0xFF ∧
          inst.instanceShaderBindingTableRecordOffset = 0 ∧
          inst.flags = RAYTRACING_INSTANCE_FLAG_NONE ∧
          w'.scene.instance_metadata_[inst.instanceCustomIndex]? = some row ∧
          row.has_uv = (if (w'.heap p).HasUVCoordinates then 1 else 0) ∧
          row.vertex_count =
            (if (w'.heap p).HasUVCoordinates then ((w'.heap p).GetNumVertices : Int) else 0) ∧
          row.has_material_ids = (if (w'.heap p).HasMaterialIDs then 1 else 0) ∧
          row.triangle_count =
            (if (w'.heap p).HasMaterialIDs then ((w'.heap p).GetNumTriangles : Int) else 0) ∧
          row.index_offset =
            ((((w'.scene.entities_.take inst.instanceCustomIndex).map
              (fun q => (w'.heap q).GetNumIndices)).sum : Nat) : Int)) ∧
      ((∀ p ∈ w'.scene.entities_, (w'.heap p).GetBLAS ≠ none) →
        tlas.instances.length = w'.scene.GetEntityCount ∧
        ∀ j, j < w'.scene.GetEntityCount →
          (tlas.instances[j]?).map (fun inst => inst.instanceCustomIndex) = some j) := by
  obtain ⟨he, hh, _⟩ := Scene.BuildAccelerationStructures_table hne h
  have hbt : ∀ q, (w'.heap q).GetBLAS = (w.heap q).GetBLAS ∧
      (w'.heap q).GetTransform = (w.heap q).GetTransform := by
    intro q
    rw [hh]
    exact Scene.prepared_blas_transform d w q
  refine ⟨_, Scene.BuildAccelerationStructures_tlas hne h, ?_, ?_⟩
  · intro inst hinst
    obtain ⟨k, p, blas, hk, hb, hi⟩ := Scene.makeInstances_mem _ _ _ _ hinst
    rw [Nat.zero_add] at hi
    have hc : inst.instanceCustomIndex = k := by rw [hi]; rfl
    rw [hc, he]
    have hklt : k < w.scene.entities_.length := by
      rcases Nat.lt_or_ge k w.scene.entities_.length with hlt | hge
      · exact hlt
      · rw [List.getElem?_eq_none hge] at hk
        exact absurd hk (by simp)
    have hrow := Scene.BuildAccelerationStructures_row h k p (by rw [he]; exact hk)
    rw [he] at hrow
    refine ⟨p, blas, _, ?_, hk, by rw [(hbt p).1]; exact hb, by rw [hi]; rfl,
      by rw [hi, (hbt p).2]; rfl, by rw [hi]; rfl, by rw [hi]; rfl, by rw [hi]; rfl,
      hrow, rfl, rfl, rfl, rfl, rfl⟩
    unfold Scene.GetEntityCount
    rw [he]
    exact hklt
  · intro hall
    have hall2 : ∀ p ∈ w.scene.entities_, (w.heap p).GetBLAS ≠ none := by
      intro p hp
      rw [← (hbt p).1]
      exact hall p (by rw [he]; exact hp)
    obtain ⟨hl, hj⟩ := Scene.makeInstances_all w.heap w.scene.entities_ 0 hall2
    unfold Scene.GetEntityCount
    rw [he]
    refine ⟨hl, fun j hjlt => ?_⟩
    rw [hj j hjlt, Nat.zero_add]

/-- C17, witness: the example scene; both entities have a bottom-level structure,
so its top-level structure has two instances. -/
theorem C17_instance_custom_index_is_position_witness :
    ∃ (w' : World) (tlas : TopLevelAS), exampleBuild = some w' ∧
      w'.scene.tlas_ = some tlas ∧ tlas.instances.length = w'.scene.GetEntityCount := by
  have hsome : (Scene.AddEntities { heap := exampleHeap, scene := Scene.ctor }
      [some 0, some 1]).isSome = true := by decide
  obtain ⟨w1, h1⟩ := Option.isSome_iff_exists.mp hsome
  have hd : (Scene.AddEntities { heap := exampleHeap, scene := Scene.ctor }
      [some 0, some 1]).map (fun w => w.scene.entities_) = some [0, 1] := by decide
  rw [h1] at hd
  simp only [Option.map_some', Option.some.injEq] at hd
  obtain ⟨x1, w2, _, h2⟩ := exampleBuild_eq_some
  have hw : Scene.BuildAccelerationStructures exampleDecoder w1 = some w2 := by
    have : exampleBuild = (some w1).bind (Scene.BuildAccelerationStructures exampleDecoder) := by
      unfold exampleBuild
      rw [h1]
    rw [this] at h2
    exact h2
  have hne : w1.scene.entities_ ≠ [] := by rw [hd]; simp
  obtain ⟨tlas, ht, _, hall⟩ := C17_instance_custom_index_is_position exampleDecoder w1 w2 hne hw
  have hb : exampleBuild.map (fun w =>
      (w.scene.entities_, ((w.heap 0).GetBLAS).isSome, ((w.heap 1).GetBLAS).isSome)) =
      some ([0, 1], true, true) := by decide
  rw [h2] at hb
  simp only [Option.map_some', Option.some.injEq, Prod.mk.injEq] at hb
  refine ⟨w2, tlas, h2, ht, (hall ?_).1⟩
  intro p hp
  rw [hb.1] at hp
  simp only [List.mem_cons, List.mem_singleton, List.not_mem_nil, or_false] at hp
  rcases hp with rfl | rfl
  · exact Option.isSome_iff_ne_none.mp hb.2.1
  · exact Option.isSome_iff_ne_none.mp hb.2.2

/-! ## Every global material index points into the materials list -/

/-- Every entry of a concatenation of chunks lies in the chunk of some position, at
the total length of the chunks before it plus an index into that chunk. -/
theorem flatMap_getElem?_inv {α β : Type} (c : α → List β) (ps : List α) (k : Nat) (e : β)
    (h : (ps.flatMap c)[k]? = some e) :
    ∃ (i : Nat) (p : α) (j : Nat), ps[i]? = some p ∧
      k = prefixSum (fun q => (c q).length) ps i + j ∧ (c p)[j]? = some e := by
  induction ps generalizing k with
  | nil => simp at h
  | cons q rest ih =>
    rw [List.flatMap_cons, List.getElem?_append] at h
    by_cases hk : k < (c q).length
    · rw [if_pos hk] at h
      exact ⟨0, q, k, by simp, by rw [prefixSum_zero, Nat.zero_add], h⟩
    · rw [if_neg hk] at h
      obtain ⟨i, p, j, h1, h2, h3⟩ := ih _ h
      refine ⟨i + 1, p, j, by simpa using h1, ?_, h3⟩
      rw [prefixSum_cons_succ]
      omega

theorem Entity.materialSlots_eq_max (e : Entity) :
    e.materialSlots = max 1 e.GetMaterials.length := by
  rw [Entity.materialSlots_eq]
  unfold Entity.GetMaterials
  split <;> omega

namespace Scene

/-- After a successful aggregation, the offset of every entity of the sequence is
a running total, so it is not negative. -/
theorem BuildAccelerationStructures_offset_nonneg {d : Decoder} {w w' : World}
    (h : BuildAccelerationStructures d w = some w') (p : EntityPtr)
    (hp : p ∈ w'.scene.entities_) : 0 ≤ (w'.heap p).GetMaterialOffset := by
  by_cases hnil : w.scene.entities_ = []
  · rw [BuildAccelerationStructures_nil hnil h, hnil] at hp
    simp at hp
  · obtain ⟨he, hh, _⟩ := BuildAccelerationStructures_table hnil h
    rw [he] at hp
    obtain ⟨i, _, ho⟩ := prepared_offset_mem d w p hp
    unfold Entity.GetMaterialOffset
    rw [hh, ho]
    exact Int.natCast_nonneg _

end Scene

/-- C11: if the local per-triangle material IDs of every ID-bearing entity lie in
`[0, max(1, its material count))`, then after aggregation every entry `e` of
the global material-ID list satisfies `0 <= e < T`, `T` being the number of
rows of the flattened materials list (which fits the materials buffer); the
entry sits in the window of an ID-bearing entity, is that entity's local ID of
some triangle plus its `material_offset`, and the materials row at `e` is the
material of that same entity: its material with that local ID when it has a
material list, its default material (local ID `0`) when it has none. -/
theorem C11_global_ids_point_to_own_materials (d : Decoder) (w w' : World)
    (h : Scene.BuildAccelerationStructures d w = some w')
    (hrange : ∀ p ∈ w'.scene.entities_, (w'.heap p).HasMaterialIDs = true →
      ∀ a, (w'.heap p).GetMaterialIDs = some a → ∀ t, t < (w'.heap p).GetNumTriangles →
        0 ≤ a t ∧ a t < ((max 1 (w'.heap p).GetMaterials.length : Nat) : Int)) :
    ∃ ids, Scene.global_material_ids w' = some ids ∧
      (∀ b, w'.scene.materials_buffer_ = some b → (Scene.materials w').length ≤ b.size) ∧
      ∀ (k : Nat) (e : Int), ids[k]? = some e →
        0 ≤ e ∧ e < ((Scene.materials w').length : Int) ∧
        ∃ (i : Nat) (p : EntityPtr) (t : Nat) (a : Nat → Int) (row : InstanceMetadata),
          w'.scene.entities_[i]? = some p ∧ (w'.heap p).HasMaterialIDs = true ∧
          (w'.heap p).GetMaterialIDs = some a ∧ t < (w'.heap p).GetNumTriangles ∧
          w'.scene.instance_metadata_[i]? = some row ∧
          (k : Int) = row.material_id_offset + (t : Int) ∧
          e = a t + (w'.heap p).GetMaterialOffset ∧
          ((w'.heap p).HasMTLMaterials = true →
            ∃ mat, (w'.heap p).GetMaterials[(a t).toNat]? = some mat ∧
              (Scene.materials w')[e.toNat]? = some mat.ToGPUData) ∧
          ((w'.heap p).HasMTLMaterials = false →
            a t = 0 ∧
              (Scene.materials w')[e.toNat]? =
                some (w'.heap p).GetDefaultMaterial.ToGPUData) := by
  by_cases hnil : w.scene.entities_ = []
  · have hw := Scene.BuildAccelerationStructures_nil hnil h
    subst hw
    refine ⟨[], by simp [Scene.global_material_ids, hnil, Scene.ConstructMaterialIDBuffer.collect],
      ?_, ?_⟩
    · intro b _
      simp [Scene.materials, hnil, Scene.UpdateMaterialsBuffer.collect]
    · intro k e hk
      simp at hk
  · obtain ⟨_, hread, _, hu, _, _, _, _⟩ := Scene.BuildAccelerationStructures_lists hnil h
    obtain ⟨_, b0, hb1, hb2⟩ := Scene.BuildAccelerationStructures_materials hnil h
    refine ⟨_, hu, ?_, ?_⟩
    · intro b hb
      rw [hb1] at hb
      simp only [Option.some.injEq] at hb
      subst hb
      revert hb2
      cases w.scene.materials_buffer_ with
      | none =>
        simp only [CreateBuffer_UploadData, Option.some.injEq]
        intro hb2
        rw [← hb2]
      | some b1 =>
        simp only
        unfold Buffer.UploadData
        split
        · rename_i hfit
          intro hb2
          simp only [Option.some.injEq] at hb2
          rw [← hb2]
          exact hfit
        · intro hb2
          exact absurd hb2 (by simp)
    · intro k e hk
      obtain ⟨i, p, j, hp, hkeq, hj⟩ :=
        flatMap_getElem?_inv (fun q => (w'.heap q).idChunk) _ k e hk
      have hmem : p ∈ w'.scene.entities_ := List.mem_iff_getElem?.mpr ⟨i, hp⟩
      have hid : (w'.heap p).HasMaterialIDs = true := by
        cases hc : (w'.heap p).HasMaterialIDs with
        | true => rfl
        | false =>
          simp only [Entity.idChunk, hc, Bool.false_eq_true, if_false] at hj
          simp at hj
      have hjlt : j < (w'.heap p).GetNumTriangles := by
        have hl := Entity.idChunk_length _ (hread p hmem)
        simp only [Entity.idCount, hid, if_true] at hl
        rw [← hl]
        rcases Nat.lt_or_ge j (w'.heap p).idChunk.length with hlt | hge
        · exact hlt
        · rw [List.getElem?_eq_none hge] at hj
          exact absurd hj (by simp)
      obtain ⟨a, ha⟩ := hread p hmem hid (Nat.lt_of_le_of_lt (Nat.zero_le j) hjlt)
      have hchunk : (w'.heap p).idChunk =
          readAll (some a) (fun id => id + (w'.heap p).GetMaterialOffset)
            (w'.heap p).GetNumTriangles := by
        unfold Entity.idChunk
        rw [if_pos hid, ha]
      have he : e = a j + (w'.heap p).GetMaterialOffset := by
        simp only [hchunk] at hj
        rw [readAll_getElem? a _ _ j hjlt] at hj
        simp only [Option.some.injEq] at hj
        exact hj.symm
      obtain ⟨hlo, hhi⟩ := hrange p hmem hid a ha j hjlt
      rw [← Entity.materialSlots_eq_max] at hhi
      have hoff := Scene.BuildAccelerationStructures_offset_nonneg h p hmem
      have htn : ((a j).toNat : Int) = a j := Int.toNat_of_nonneg hlo
      have hjn : (a j).toNat < (w'.heap p).materialChunk.length := by
        rw [Entity.materialChunk_length]
        omega
      have hrowm := Scene.BuildAccelerationStructures_material_row h p hmem (a j).toNat hjn
      rw [htn, Int.add_comm, ← he] at hrowm
      have hlt : e.toNat < (Scene.materials w').length := by
        rcases Nat.lt_or_ge e.toNat (Scene.materials w').length with hlt | hge
        · exact hlt
        · rw [List.getElem?_eq_none hge] at hrowm
          exact absurd hrowm.symm (by
            rw [List.getElem?_eq_getElem hjn]
            simp)
      have hrow := Scene.BuildAccelerationStructures_row h i p hp
      refine ⟨by omega, by omega, i, p, j, a, _, hp, hid, ha, hjlt, hrow, ?_, he, ?_, ?_⟩
      · have hs : prefixSum (fun q => ((fun r => (w'.heap r).idChunk) q).length)
            w'.scene.entities_ i = prefixSum (fun q => (w'.heap q).idCount) w'.scene.entities_ i :=
          prefixSum_congr _ _ _ _ (fun q hq => Entity.idChunk_length _ (hread q hq))
        rw [hkeq, hs]
        simp [Entity.metadataRow, hid]
      · intro hmtl
        have hc : (w'.heap p).materialChunk =
            (w'.heap p).GetMaterials.map Material.ToGPUData := by
          unfold Entity.materialChunk
          rw [if_pos hmtl]
        have hjm : (a j).toNat < (w'.heap p).GetMaterials.length := by
          rw [hc, List.length_map] at hjn
          exact hjn
        refine ⟨(w'.heap p).GetMaterials[(a j).toNat], List.getElem?_eq_getElem hjm, ?_⟩
        rw [hrowm, hc, List.getElem?_map, List.getElem?_eq_getElem hjm]
        rfl
      · intro hmtl
        have hc : (w'.heap p).materialChunk = [(w'.heap p).GetDefaultMaterial.ToGPUData] := by
          unfold Entity.materialChunk
          rw [hmtl]
          rfl
        have hz : a j = 0 := by
          rw [hc] at hjn
          simp only [List.length_singleton] at hjn
          omega
        refine ⟨hz, ?_⟩
        rw [hrowm, hc, hz]
        rfl

/-- C11, witness: in the example scene the local IDs of entity `1` are all `0` and
it has no material list. -/
theorem C11_global_ids_point_to_own_materials_witness :
    ∃ (w' : World) (ids : List Int), exampleBuild = some w' ∧
      Scene.global_material_ids w' = some ids ∧
      ∀ (k : Nat) (e : Int), ids[k]? = some e →
        0 ≤ e ∧ e < ((Scene.materials w').length : Int) := by
  obtain ⟨w1, w2, hb, h2⟩ := exampleBuild_eq_some
  have hd : exampleBuild.map (fun w =>
      (w.scene.entities_, (w.heap 0).HasMaterialIDs, (w.heap 1).GetMaterialIDs.map (fun a => a 0),
        (w.heap 1).GetMaterials.length)) = some ([0, 1], false, some 0, 0) := by decide
  have hconst : ∀ w : World, exampleBuild = some w →
      ∀ a, (w.heap 1).GetMaterialIDs = some a → ∀ t, a t = 0 := by
    intro w hw a ha t
    have hg := Scene.BuildAccelerationStructures_sameGeometry
      (show Scene.BuildAccelerationStructures exampleDecoder w1 = some w2 from hb) 1
    have hw2 : w = w2 := by
      rw [hw] at h2
      simp only [Option.some.injEq] at h2
      exact h2
    subst hw2
    have hsome : (Scene.AddEntities { heap := exampleHeap, scene := Scene.ctor }
        [some 0, some 1]).isSome = true := by decide
    obtain ⟨x, hx⟩ := Option.isSome_iff_exists.mp hsome
    obtain ⟨f1, _, _⟩ := @Scene.AddEntities_valid { heap := exampleHeap, scene := Scene.ctor } x
      [0, 1] (by decide) hx
    have hx2 : Scene.BuildAccelerationStructures exampleDecoder x = some w := by
      have : exampleBuild = (some x).bind (Scene.BuildAccelerationStructures exampleDecoder) := by
        unfold exampleBuild
        rw [hx]
      rw [this] at hw
      exact hw
    have hg2 := (f1 1).geometry_of_handles.trans_geometry
      (Scene.BuildAccelerationStructures_sameGeometry hx2 1)
    unfold Entity.GetMaterialIDs at ha
    rw [hg2.1] at ha
    have : (exampleHeap 1).mesh_.MaterialIds = some (fun _ => 0) := rfl
    rw [this] at ha
    simp only [Option.some.injEq] at ha
    rw [← ha]
  rw [h2] at hd
  simp only [Option.map_some', Option.some.injEq, Prod.mk.injEq] at hd
  obtain ⟨hseq, h0, _, hlen⟩ := hd
  obtain ⟨ids, hids, _, hall⟩ := C11_global_ids_point_to_own_materials exampleDecoder w1 w2 hb
    (by
      intro p hp hid a ha t _
      rw [hseq] at hp
      simp only [List.mem_cons, List.mem_singleton, List.not_mem_nil, or_false] at hp
      rcases hp with rfl | rfl
      · rw [h0] at hid
        exact absurd hid (by simp)
      · rw [hconst w2 h2 a ha t, hlen]
        decide)
  exact ⟨w2, ids, h2, hids, fun k e hk => ⟨(hall k e hk).1, (hall k e hk).2.1⟩⟩

/-! ## Running the aggregation twice -/

/-- C15, evaluated at the failing input: one valid entity whose default material has
the normal path `n.png`, added to a fresh scene, with a decoder that decodes
every path. After the first aggregation the material has `normal_index` 0, the
scene has 1 normal map and the flattened materials list carries normal index
0; a second aggregation over the unchanged entity set completes and leaves
`normal_index` 1, 2 normal maps and normal index 1 in the flattened list. -/
theorem C15_second_build_reloads_normal_maps :
    ((Scene.AddEntities { heap := normalMapHeap, scene := Scene.ctor } [some 0]).bind
      (Scene.BuildAccelerationStructures exampleDecoder)).map
      (fun w1 =>
        ((w1.heap 0).GetDefaultMaterial.normal_index,
          w1.scene.GetNormalCount,
          (Scene.materials w1).map (fun row => row.normal_index))) =
      some (0, 1, [0]) ∧
    (((Scene.AddEntities { heap := normalMapHeap, scene := Scene.ctor } [some 0]).bind
      (Scene.BuildAccelerationStructures exampleDecoder)).bind
      (Scene.BuildAccelerationStructures exampleDecoder)).map
      (fun w2 =>
        ((w2.heap 0).GetDefaultMaterial.normal_index,
          w2.scene.GetNormalCount,
          (Scene.materials w2).map (fun row => row.normal_index))) =
      some (1, 2, [1]) := by
  constructor <;> decide

/-! ## Material lookup -/

namespace Entity

/-- The material loop maps every name to an index below the length of the list it
leaves behind, provided the names mapped before point below the counter, and
the counter is the length of the list so far. -/
theorem LoadMesh.materialsLoop_names (base_dir : String) (data : List MaterialData) (i : Nat)
    (materials : List Material) (names : String → Option Int)
    (hi : materials.length = i)
    (hnames : ∀ name index, names name = some index → 0 ≤ index ∧ index < (i : Int)) :
    ∀ name index, (LoadMesh.materialsLoop base_dir data i materials names).2 name = some index →
      0 ≤ index ∧
        index < ((LoadMesh.materialsLoop base_dir data i materials names).1.length : Int) := by
  induction data generalizing i materials names with
  | nil =>
    intro name index h
    simp only [LoadMesh.materialsLoop] at h ⊢
    rw [hi]
    exact hnames name index h
  | cons mat_data rest ih =>
    simp only [LoadMesh.materialsLoop]
    apply ih
    · rw [List.length_append, hi]
      rfl
    · intro name index h
      by_cases hq : name = mat_data.name
      · simp only [hq, if_true, Option.some.injEq] at h
        subst h
        omega
      · simp only [hq, if_false] at h
        have := hnames name index h
        omega

/-- The material loop appends one converted material per entry of the table. -/
theorem LoadMesh.materialsLoop_materials (base_dir : String) (data : List MaterialData) (i : Nat)
    (materials : List Material) (names : String → Option Int) :
    (LoadMesh.materialsLoop base_dir data i materials names).1 =
      materials ++ data.map (LoadMesh.convert base_dir) := by
  induction data generalizing i materials names with
  | nil => simp [LoadMesh.materialsLoop]
  | cons mat_data rest ih =>
    simp only [LoadMesh.materialsLoop]
    rw [ih]
    simp

/-- A failed `LoadMesh`: the three flags are cleared, the mesh is what the loader
left, everything else is kept. -/
theorem LoadMesh_failure (L : Loader) (e : Entity) (path : String)
    (hr : (L.LoadObjFile (L.FindAssetFile path) e.mesh_).1 ≠ 0) :
    LoadMesh L e path =
      (false, { e with
        mesh_ := (L.LoadObjFile (L.FindAssetFile path) e.mesh_).2
        mesh_loaded_ := false, has_uv_coords_ := false, has_material_ids_ := false }) := by
  unfold LoadMesh
  simp only [hr, ne_eq, not_false_eq_true, if_true]

/-- A successful `LoadMesh`, field by field. -/
theorem LoadMesh_success (L : Loader) (e : Entity) (path : String)
    (hr : (L.LoadObjFile (L.FindAssetFile path) e.mesh_).1 = 0) :
    LoadMesh L e path =
      (true, { e with
        mesh_ := (L.LoadObjFile (L.FindAssetFile path) e.mesh_).2
        has_uv_coords_ := (L.LoadObjFile (L.FindAssetFile path) e.mesh_).2.TexCoords.isSome
        has_material_ids_ :=
          match (L.LoadObjFile (L.FindAssetFile path) e.mesh_).2.MaterialIds with
          | some mtlid => if mtlid 0 ≠ -1 then true else e.has_material_ids_
          | none => e.has_material_ids_
        materials_ :=
          if (L.LoadObjFile (L.FindAssetFile path) e.mesh_).2.GetMaterialData.isEmpty then
            e.materials_
          else
            (LoadMesh.materialsLoop (L.parent_path (L.FindAssetFile path))
              (L.LoadObjFile (L.FindAssetFile path) e.mesh_).2.GetMaterialData 0 []
              (fun _ => none)).1
        material_name_to_index_ :=
          if (L.LoadObjFile (L.FindAssetFile path) e.mesh_).2.GetMaterialData.isEmpty then
            e.material_name_to_index_
          else
            (LoadMesh.materialsLoop (L.parent_path (L.FindAssetFile path))
              (L.LoadObjFile (L.FindAssetFile path) e.mesh_).2.GetMaterialData 0 []
              (fun _ => none)).2
        mesh_loaded_ := true }) := by
  unfold LoadMesh
  dsimp only
  generalize L.LoadObjFile (L.FindAssetFile path) e.mesh_ = r at hr ⊢
  obtain ⟨code, mesh⟩ := r
  simp only at hr
  subst hr
  simp only [ne_eq, not_true_eq_false, if_false]
  cases hm : mesh.MaterialIds with
  | none =>
    cases hd : mesh.GetMaterialData.isEmpty <;> simp [hm, hd]
  | some mtlid =>
    by_cases h1 : mtlid 0 = -1
    · cases hd : mesh.GetMaterialData.isEmpty <;> simp [hm, hd, h1]
    · cases hd : mesh.GetMaterialData.isEmpty <;> simp [hm, hd, h1]

end Entity

theorem Entity.NamesValid_LoadMesh (L : Loader) (e : Entity) (path : String)
    (h : e.NamesValid) : (Entity.LoadMesh L e path).2.NamesValid := by
  by_cases hr : (L.LoadObjFile (L.FindAssetFile path) e.mesh_).1 = 0
  · rw [Entity.LoadMesh_success L e path hr]
    cases hd : (L.LoadObjFile (L.FindAssetFile path) e.mesh_).2.GetMaterialData.isEmpty with
    | true =>
      intro name index hn
      simp only [if_true] at hn ⊢
      exact h name index hn
    | false =>
      intro name index hn
      simp only [Bool.false_eq_true, if_false] at hn ⊢
      exact Entity.LoadMesh.materialsLoop_names _ _ 0 [] (fun _ => none) rfl
        (fun _ _ hx => absurd hx (by simp)) name index hn
  · rw [Entity.LoadMesh_failure L e path hr]
    exact h

theorem Entity.NamesValid_ctor (L : Loader) (path : String) (m : Material) (t : Mat4) :
    (Entity.ctor L path m t).NamesValid := by
  unfold Entity.ctor
  apply Entity.NamesValid_LoadMesh
  intro name index h
  exact absurd h (by simp)

theorem Entity.NamesValid_LoadMeshes (e : Entity) (calls : List (Loader × String))
    (h : e.NamesValid) : (e.LoadMeshes calls).NamesValid := by
  induction calls generalizing e with
  | nil => exact h
  | cons call rest ih =>
    simp only [Entity.LoadMeshes]
    exact ih _ (Entity.NamesValid_LoadMesh call.1 e call.2 h)

/-- C21: for every entity and every integer index, `GetMaterial(index)` is the null
result exactly when `index < 0` or `index >= materials.size()`, and otherwise
the material stored at that index. For every name, `GetMaterial(name)` is the
null result when the name is not in the name map, and otherwise the material
at the mapped index; in an entity made by the constructor and any sequence of
further `LoadMesh` calls the mapped index is always a valid index into the
material list, so the lookup returns a material of the list. -/
theorem C21_material_lookup (e : Entity) :
    (∀ index : Int,
      (e.GetMaterial index = none ↔ (index < 0 ∨ index ≥ (e.GetMaterials.length : Int))) ∧
      (0 ≤ index → index < (e.GetMaterials.length : Int) →
        ∃ mat, e.GetMaterials[index.toNat]? = some mat ∧ e.GetMaterial index = some mat)) ∧
    (∀ name, e.material_name_to_index_ name = none → e.GetMaterialByName name = some none) ∧
    (∀ name index mat, e.material_name_to_index_ name = some index → 0 ≤ index →
      e.GetMaterials[index.toNat]? = some mat → e.GetMaterialByName name = some (some mat)) ∧
    (∀ (L : Loader) (path : String) (m : Material) (t : Mat4) (calls : List (Loader × String))
        (name : String) (index : Int),
      ((Entity.ctor L path m t).LoadMeshes calls).material_name_to_index_ name = some index →
        0 ≤ index ∧
        index < (((Entity.ctor L path m t).LoadMeshes calls).GetMaterials.length : Int) ∧
        ∃ mat, ((Entity.ctor L path m t).LoadMeshes calls).GetMaterials[index.toNat]? = some mat ∧
          ((Entity.ctor L path m t).LoadMeshes calls).GetMaterialByName name =
            some (some mat)) := by
  have hin : ∀ index : Int, 0 ≤ index → index < (e.GetMaterials.length : Int) →
      ∃ mat, e.GetMaterials[index.toNat]? = some mat ∧ e.GetMaterial index = some mat := by
    intro index h0 h1
    have hlt : index.toNat < e.GetMaterials.length := by omega
    refine ⟨e.GetMaterials[index.toNat], List.getElem?_eq_getElem hlt, ?_⟩
    unfold Entity.GetMaterial
    unfold Entity.GetMaterials at h1 hlt ⊢
    rw [if_pos ⟨h0, h1⟩]
    exact List.getElem?_eq_getElem hlt
  have hname : ∀ (x : Entity) name index mat, x.material_name_to_index_ name = some index →
      0 ≤ index → x.GetMaterials[index.toNat]? = some mat →
        x.GetMaterialByName name = some (some mat) := by
    intro x name index mat hn h0 hm
    unfold Entity.GetMaterialByName
    unfold Entity.GetMaterials at hm
    rw [hn]
    simp only [not_lt.mpr h0, if_false, hm, Option.map_some']
  refine ⟨fun index => ⟨?_, hin index⟩, ?_, hname e, ?_⟩
  · constructor
    · intro h
      by_contra hc
      have h0 : 0 ≤ index := by omega
      have h1 : index < (e.GetMaterials.length : Int) := by omega
      obtain ⟨mat, _, hg⟩ := hin index h0 h1
      rw [hg] at h
      exact absurd h (by simp)
    · intro h
      unfold Entity.GetMaterial
      unfold Entity.GetMaterials at h
      rw [if_neg]
      omega
  · intro name hn
    unfold Entity.GetMaterialByName
    rw [hn]
  · intro L path m t calls name index hn
    obtain ⟨h0, h1⟩ :=
      Entity.NamesValid_LoadMeshes _ calls (Entity.NamesValid_ctor L path m t) name index hn
    have hlt : index.toNat < ((Entity.ctor L path m t).LoadMeshes calls).GetMaterials.length := by
      unfold Entity.GetMaterials
      omega
    exact ⟨h0, h1, _, List.getElem?_eq_getElem hlt,
      hname _ name index _ hn h0 (List.getElem?_eq_getElem hlt)⟩

/-- C21, witness: an entity loaded from `ids.obj`, whose material table names `red`
and `white`; the name `white` is mapped to index `1` and the lookup returns a
material. -/
theorem C21_material_lookup_witness :
    ((Entity.ctor exampleLoader "ids.obj" Material.default Mat4.identity).LoadMeshes
        []).material_name_to_index_ "white" = some 1 ∧
      ∃ mat,
        ((Entity.ctor exampleLoader "ids.obj" Material.default Mat4.identity).LoadMeshes
          []).GetMaterialByName "white" = some (some mat) := by
  have hn : ((Entity.ctor exampleLoader "ids.obj" Material.default Mat4.identity).LoadMeshes
      []).material_name_to_index_ "white" = some 1 := by decide
  obtain ⟨_, _, mat, _, hm⟩ :=
    (C21_material_lookup (Entity.ctor exampleLoader "ids.obj" Material.default
      Mat4.identity)).2.2.2 exampleLoader "ids.obj" Material.default Mat4.identity [] "white" 1 hn
  exact ⟨hn, mat, hm⟩

/-! ## The flags `LoadMesh` sets -/

/-- The flags after `LoadMesh`. After a failed call the three flags are false.
After a successful call the entity is valid, `HasUVCoordinates` tells whether
the loader supplied UVs, and `HasMaterialIDs` is true when the loader supplied
per-triangle IDs whose first slot is not `-1`, and is otherwise what it was
before the call. -/
theorem Entity.LoadMesh_flags (L : Loader) (e : Entity) (path : String) :
    ((L.LoadObjFile (L.FindAssetFile path) e.mesh_).1 ≠ 0 →
      (Entity.LoadMesh L e path).1 = false ∧
      (Entity.LoadMesh L e path).2.IsValid = false ∧
      (Entity.LoadMesh L e path).2.HasUVCoordinates = false ∧
      (Entity.LoadMesh L e path).2.HasMaterialIDs = false) ∧
    ((L.LoadObjFile (L.FindAssetFile path) e.mesh_).1 = 0 →
      (Entity.LoadMesh L e path).1 = true ∧
      (Entity.LoadMesh L e path).2.IsValid = true ∧
      (Entity.LoadMesh L e path).2.HasUVCoordinates =
        (Entity.LoadMesh L e path).2.GetUVCoordinates.isSome ∧
      (Entity.LoadMesh L e path).2.HasMaterialIDs =
        match (Entity.LoadMesh L e path).2.GetMaterialIDs with
        | some mtlid => if mtlid 0 ≠ -1 then true else e.HasMaterialIDs
        | none => e.HasMaterialIDs) := by
  constructor
  · intro hr
    rw [Entity.LoadMesh_failure L e path hr]
    exact ⟨rfl, rfl, rfl, rfl⟩
  · intro hr
    rw [Entity.LoadMesh_success L e path hr]
    exact ⟨rfl, rfl, rfl, rfl⟩

/-- C24, evaluated at the failing input: an entity constructed from `ids.obj`, whose
mesh has per-triangle material IDs (first slot `0`), then loaded again from
`plain.obj`, whose mesh has none. The constructor leaves `HasMaterialIDs()`
true; the second `LoadMesh` succeeds, the loader supplies no material IDs, and
`HasMaterialIDs()` is still true; `AddEntity` on that entity then reads the
IDs through the null pointer. The flag also stays true when the entity is
loaded again from `sentinel.obj`, whose first ID is the sentinel `-1`. -/
theorem C24_reload_keeps_has_material_ids :
    ((Entity.ctor exampleLoader "ids.obj" Material.default Mat4.identity).IsValid,
      (Entity.ctor exampleLoader "ids.obj" Material.default Mat4.identity).HasMaterialIDs,
      (Entity.LoadMesh exampleLoader
        (Entity.ctor exampleLoader "ids.obj" Material.default Mat4.identity) "plain.obj").1,
      (Entity.LoadMesh exampleLoader
        (Entity.ctor exampleLoader "ids.obj" Material.default Mat4.identity)
          "plain.obj").2.GetMaterialIDs.isSome,
      (Entity.LoadMesh exampleLoader
        (Entity.ctor exampleLoader "ids.obj" Material.default Mat4.identity)
          "plain.obj").2.HasMaterialIDs) = (true, true, true, false, true) ∧
    (Scene.AddEntity
      { heap := fun _ => (Entity.LoadMesh exampleLoader
          (Entity.ctor exampleLoader "ids.obj" Material.default Mat4.identity) "plain.obj").2,
        scene := Scene.ctor } (some 0)).isSome = false ∧
    ((Entity.LoadMesh exampleLoader
        (Entity.ctor exampleLoader "ids.obj" Material.default Mat4.identity) "sentinel.obj").1,
      (Entity.LoadMesh exampleLoader
        (Entity.ctor exampleLoader "ids.obj" Material.default Mat4.identity)
          "sentinel.obj").2.GetMaterialIDs.map (fun mtlid => mtlid 0),
      (Entity.LoadMesh exampleLoader
        (Entity.ctor exampleLoader "ids.obj" Material.default Mat4.identity)
          "sentinel.obj").2.HasMaterialIDs) = (true, some (-1), true) := by
  refine ⟨?_, ?_, ?_⟩ <;> decide

/-! ## Converting the loader's materials -/

/-- With `lo ≤ hi`, `glm::clamp` gives `lo` below the interval, `hi` above it and the
value itself inside. -/
theorem glm_clamp_eq_clampCases (x lo hi : ℚ) (h : lo ≤ hi) :
    glm_clamp x lo hi = clampCases x lo hi := by
  unfold glm_clamp clampCases
  by_cases h1 : x < lo
  · rw [if_pos h1, max_eq_right (le_of_lt h1), min_eq_left h]
  · rw [if_neg h1, max_eq_left (not_lt.mp h1)]
    by_cases h2 : hi < x
    · rw [if_pos h2, min_eq_right (le_of_lt h2)]
    · rw [if_neg h2, min_eq_left (not_lt.mp h2)]

theorem glm_clamp_mem (x lo hi : ℚ) (h : lo ≤ hi) :
    lo ≤ glm_clamp x lo hi ∧ glm_clamp x lo hi ≤ hi := by
  unfold glm_clamp
  exact ⟨le_min (le_max_right _ _) h, min_le_right _ _⟩

theorem Entity.LoadMesh.convert_roughness (base_dir : String) (mat_data : MaterialData) :
    (Entity.LoadMesh.convert base_dir mat_data).roughness =
      1 - glm_clamp (mat_data.shininess / 1000) 0 1 := by
  unfold Entity.LoadMesh.convert
  split <;> rfl

theorem Entity.LoadMesh.convert_metallic (base_dir : String) (mat_data : MaterialData) :
    (Entity.LoadMesh.convert base_dir mat_data).metallic =
      glm_clamp ((mat_data.specular.x + mat_data.specular.y + mat_data.specular.z) / 3) 0 1 := by
  unfold Entity.LoadMesh.convert
  split <;> rfl

/-- C25: for every entry of the loader's material table, with shininess `s` and
specular `(r, g, b)`, the converted material has
`roughness = 1 - clamp(s/1000, 0, 1)` and `metallic = clamp((r+g+b)/3, 0, 1)`
in exact arithmetic, `clamp` giving `0` below, `1` above and the value itself
in between; both lie in `[0, 1]` for all inputs. A successful `LoadMesh` whose
loader supplies a non-empty table stores exactly these converted materials,
one per entry, in order. -/
theorem C25_roughness_and_metallic (base_dir : String) (mat_data : MaterialData) :
    (Entity.LoadMesh.convert base_dir mat_data).roughness =
      1 - clampCases (mat_data.shininess / 1000) 0 1 ∧
    (Entity.LoadMesh.convert base_dir mat_data).metallic =
      clampCases ((mat_data.specular.x + mat_data.specular.y + mat_data.specular.z) / 3) 0 1 ∧
    0 ≤ (Entity.LoadMesh.convert base_dir mat_data).roughness ∧
    (Entity.LoadMesh.convert base_dir mat_data).roughness ≤ 1 ∧
    0 ≤ (Entity.LoadMesh.convert base_dir mat_data).metallic ∧
    (Entity.LoadMesh.convert base_dir mat_data).metallic ≤ 1 ∧
    ∀ (L : Loader) (e : Entity) (path : String),
      (L.LoadObjFile (L.FindAssetFile path) e.mesh_).1 = 0 →
      (L.LoadObjFile (L.FindAssetFile path) e.mesh_).2.GetMaterialData ≠ [] →
        (Entity.LoadMesh L e path).2.GetMaterials =
          (L.LoadObjFile (L.FindAssetFile path) e.mesh_).2.GetMaterialData.map
            (Entity.LoadMesh.convert (L.parent_path (L.FindAssetFile path))) := by
  have h01 : (0 : ℚ) ≤ 1 := by norm_num
  have hr := glm_clamp_mem (mat_data.shininess / 1000) 0 1 h01
  have hm := glm_clamp_mem
    ((mat_data.specular.x + mat_data.specular.y + mat_data.specular.z) / 3) 0 1 h01
  rw [Entity.LoadMesh.convert_roughness, Entity.LoadMesh.convert_metallic,
    ← glm_clamp_eq_clampCases _ 0 1 h01, ← glm_clamp_eq_clampCases _ 0 1 h01]
  refine ⟨rfl, rfl, by linarith [hr.2], by linarith [hr.1], hm.1, hm.2, ?_⟩
  intro L e path hcode hdata
  rw [Entity.LoadMesh_success L e path hcode]
  unfold Entity.GetMaterials
  simp only [isEmpty_eq_false_of_ne_nil hdata, Bool.false_eq_true, if_false,
    Entity.LoadMesh.materialsLoop_materials, List.nil_append]

/-- C25, witness: the two entries of `exampleTable` (shininess 250 and 4000, specular
sum 0 and 6) become materials of roughness `3/4` and `0` and metallic `0` and
`1`. -/
theorem C25_roughness_and_metallic_witness :
    (Entity.ctor exampleLoader "ids.obj" Material.default Mat4.identity).GetMaterials =
        exampleTable.map (Entity.LoadMesh.convert "assets") ∧
      (exampleTable.map (fun x => (Entity.LoadMesh.convert "assets" x).roughness) =
        [3 / 4, 0]) ∧
      (exampleTable.map (fun x => (Entity.LoadMesh.convert "assets" x).metallic) =
        [0, 1]) := by
  refine ⟨(C25_roughness_and_metallic "assets" ⟨"red", ⟨1, 0, 0⟩, ⟨0, 0, 0⟩, 250, ⟨0, 0, 0⟩, ""⟩).2.2.2.2.2.2
    exampleLoader _ "ids.obj" rfl (by decide), ?_, ?_⟩
  · simp [exampleTable, Entity.LoadMesh.convert_roughness, glm_clamp]
    norm_num
  · simp [exampleTable, Entity.LoadMesh.convert_metallic, glm_clamp]
    norm_num

/-! ## Loading a texture that is not in the cache -/

/-- C23: for every scene state and every path that is not in the cache. If decoding
fails, `LoadTexture` returns `-1` and leaves the scene as it was, the texture
list and the path-to-index map included. If decoding succeeds, it returns the
texture count of before the call, the texture count grows by exactly one (the
decoded image is appended), and the path is mapped to the returned index,
every other path keeping its entry. -/
theorem C23_load_texture_not_cached (d : Decoder) (s : Scene) (path : String)
    (hmiss : s.texture_path_to_index_ path = none) :
    (d path = none →
      (Scene.LoadTexture d s path).2 = -1 ∧
      (Scene.LoadTexture d s path).1 = s ∧
      (Scene.LoadTexture d s path).1.textures_ = s.textures_ ∧
      (Scene.LoadTexture d s path).1.texture_path_to_index_ = s.texture_path_to_index_) ∧
    (∀ img, d path = some img →
      (Scene.LoadTexture d s path).2 = (s.GetTextureCount : Int) ∧
      (Scene.LoadTexture d s path).1.GetTextureCount = s.GetTextureCount + 1 ∧
      (Scene.LoadTexture d s path).1.textures_ =
        s.textures_ ++ [(CreateImage img.width img.height).UploadData img.data] ∧
      (Scene.LoadTexture d s path).1.texture_path_to_index_ path =
        some (Scene.LoadTexture d s path).2 ∧
      ∀ q, q ≠ path →
        (Scene.LoadTexture d s path).1.texture_path_to_index_ q =
          s.texture_path_to_index_ q) := by
  constructor
  · intro hd
    have h1 : Scene.LoadTexture d s path = (s, -1) := by
      unfold Scene.LoadTexture
      rw [hmiss, hd]
    rw [h1]
    exact ⟨rfl, rfl, rfl, rfl⟩
  · intro img hd
    have h1 : Scene.LoadTexture d s path =
        ({ s with
            textures_ := s.textures_ ++ [(CreateImage img.width img.height).UploadData img.data]
            texture_path_to_index_ := fun q =>
              if q = path then some (s.textures_.length : Int)
              else s.texture_path_to_index_ q },
          (s.textures_.length : Int)) := by
      unfold Scene.LoadTexture
      rw [hmiss, hd]
    rw [h1]
    refine ⟨rfl, ?_, rfl, ?_, ?_⟩
    · unfold Scene.GetTextureCount
      simp
    · simp
    · intro q hq
      simp [hq]

/-- C23, witness: `a.png` is not in the cache of a fresh scene and decodes; the call
returns `0` and leaves one texture. -/
theorem C23_load_texture_not_cached_witness :
    (Scene.LoadTexture exampleDecoder Scene.ctor "a.png").2 =
        ((Scene.ctor.GetTextureCount : Nat) : Int) ∧
      (Scene.LoadTexture exampleDecoder Scene.ctor "a.png").1.GetTextureCount =
        Scene.ctor.GetTextureCount + 1 := by
  have h := (C23_load_texture_not_cached exampleDecoder Scene.ctor "a.png" rfl).2
    { width := 1, height := 1, channels := 4, data := [255, 255, 255, 255] } rfl
  exact ⟨h.1, h.2.1⟩

/-! ## The size of the GPU material record -/

/-- C26, counterexample: the GPU record of the default material, laid out with 4-byte
floats and ints and no padding, takes 40 bytes, not 32. -/
theorem C26_counterexample_record_takes_40_bytes :
    (Material.default.ToGPUData).sizeof = 40 ∧ (Material.default.ToGPUData).sizeof ≠ 32 := by
  decide

/-- C26, as amended: the record `MaterialGPUData`, made of `base_color` (3 floats),
`roughness`, `metallic` (floats), `texture_index`, `normal_index` (ints) and
`emission` (3 floats), has ten scalars of 4 bytes, so without padding its size
is 40 bytes; the ten scalars determine the record, none of them is padding. -/
theorem C26_material_record_size (m : MaterialGPUData) :
    m.scalars.length = 10 ∧ (∀ x ∈ m.scalars, x.sizeof = 4) ∧ m.sizeof = 40 ∧
      ∀ m' : MaterialGPUData, m'.scalars = m.scalars → m' = m := by
  refine ⟨rfl, ?_, rfl, ?_⟩
  · intro x hx
    cases x <;> rfl
  · intro m' h
    obtain ⟨⟨a1, a2, a3⟩, b, c, i, j, ⟨e1, e2, e3⟩⟩ := m
    obtain ⟨⟨a1', a2', a3'⟩, b', c', i', j', ⟨e1', e2', e3'⟩⟩ := m'
    simp only [MaterialGPUData.scalars, Vec3.scalars, List.cons_append, List.nil_append,
      List.cons.injEq, Scalar.float.injEq, Scalar.int.injEq, and_true] at h
    obtain ⟨h1, h2, h3, h4, h5, h6, h7, h8, h9, h10⟩ := h
    subst h1 h2 h3 h4 h5 h6 h7 h8 h9 h10
    rfl

/-- C26, witness: the GPU record of the default material takes 40 bytes. -/
theorem C26_material_record_size_witness : (Material.default.ToGPUData).sizeof = 40 :=
  (C26_material_record_size Material.default.ToGPUData).2.2.1

/-! ## The texture-cache invariant -/

theorem Material.TextureIndexBelow.mono {n n' : Nat} {mat : Material}
    (h : mat.TextureIndexBelow n) (hn : n ≤ n') : mat.TextureIndexBelow n' := by
  intro ht h0
  have := h ht h0
  omega

namespace Scene

theorem CacheInv_ctor : CacheInv Scene.ctor := by
  refine ⟨?_, ?_, ?_⟩
  · intro p q i h
    exact absurd h (by simp [Scene.ctor])
  · intro p i h
    exact absurd h (by simp [Scene.ctor])
  · intro i h
    simp [Scene.ctor] at h

theorem CacheInv.of_caches {s s' : Scene} (h : CacheInv s)
    (ht : s'.textures_ = s.textures_)
    (hm : s'.texture_path_to_index_ = s.texture_path_to_index_) : CacheInv s' := by
  unfold CacheInv at *
  rw [ht, hm]
  exact h

theorem CacheInv_Clear (s : Scene) : CacheInv s.Clear :=
  CacheInv_ctor.of_caches rfl rfl

/-- An index within the texture list is accepted by `GetTexture`. -/
theorem GetTexture_isSome (s : Scene) (i : Int) (h0 : 0 ≤ i)
    (h1 : i < (s.textures_.length : Int)) : (s.GetTexture i).isSome = true := by
  unfold GetTexture
  have hlt : i.toNat < s.textures_.length := by omega
  rw [if_neg (by omega), List.getElem?_eq_getElem hlt]
  rfl

/-- The method `LoadTexture` keeps the cache invariant, never shrinks the texture list,
and returns `-1` or an index into the texture list it leaves. -/
theorem LoadTexture_cache (d : Decoder) (s : Scene) (f : String) (h : CacheInv s) :
    CacheInv (LoadTexture d s f).1 ∧
    s.textures_.length ≤ (LoadTexture d s f).1.textures_.length ∧
    ((LoadTexture d s f).2 = -1 ∨
      (0 ≤ (LoadTexture d s f).2 ∧
        (LoadTexture d s f).2 < ((LoadTexture d s f).1.textures_.length : Int))) := by
  unfold LoadTexture
  cases hc : s.texture_path_to_index_ f with
  | some i => exact ⟨h, le_refl _, Or.inr (h.2.1 f i hc)⟩
  | none =>
    cases hd : d f with
    | none => exact ⟨h, le_refl _, Or.inl rfl⟩
    | some img =>
      simp only
      refine ⟨⟨?_, ?_, ?_⟩, ?_, Or.inr ⟨?_, ?_⟩⟩
      · intro p q i hp hq
        by_cases h1 : p = f
        · by_cases h2 : q = f
          · rw [h1, h2]
          · simp only [h1, if_true, Option.some.injEq] at hp
            simp only [h2, if_false] at hq
            have := (h.2.1 q i hq).2
            omega
        · by_cases h2 : q = f
          · simp only [h2, if_true, Option.some.injEq] at hq
            simp only [h1, if_false] at hp
            have := (h.2.1 p i hp).2
            omega
          · simp only [h1, if_false] at hp
            simp only [h2, if_false] at hq
            exact h.1 p q i hp hq
      · intro p i hp
        rw [List.length_append, List.length_singleton]
        by_cases h1 : p = f
        · simp only [h1, if_true, Option.some.injEq] at hp
          omega
        · simp only [h1, if_false] at hp
          have := h.2.1 p i hp
          omega
      · intro i hi
        rw [List.length_append, List.length_singleton] at hi
        by_cases h1 : i = s.textures_.length
        · exact ⟨f, by simp [h1]⟩
        · obtain ⟨p, hp⟩ := h.2.2 i (by omega)
          refine ⟨p, ?_⟩
          have hpf : p ≠ f := by
            intro e
            rw [e, hc] at hp
            exact absurd hp (by simp)
          simp only [hpf, if_false]
          exact hp
      · simp
      · exact Int.natCast_nonneg _
      · simp

theorem LoadNormal_textures (d : Decoder) (s : Scene) (f : String) :
    (LoadNormal d s f).1.textures_ = s.textures_ ∧
      (LoadNormal d s f).1.texture_path_to_index_ = s.texture_path_to_index_ := by
  unfold LoadNormal
  cases d f with
  | none => exact ⟨rfl, rfl⟩
  | some img => exact ⟨rfl, rfl⟩

theorem AssignTextureIndices.texture_cache (d : Decoder) (s : Scene) (m : Material)
    (h : CacheInv s) :
    CacheInv (AssignTextureIndices.texture d s m).1 ∧
    s.textures_.length ≤ (AssignTextureIndices.texture d s m).1.textures_.length ∧
    (AssignTextureIndices.texture d s m).2.TextureIndexBelow
      (AssignTextureIndices.texture d s m).1.textures_.length := by
  unfold AssignTextureIndices.texture
  split
  · obtain ⟨h1, h2, h3⟩ := LoadTexture_cache d s m.GetTexturePath h
    refine ⟨h1, h2, ?_⟩
    intro _ h0
    simp only at h0 ⊢
    rcases h3 with h3 | h3
    · rw [h3] at h0
      omega
    · exact h3.2
  · rename_i hno
    refine ⟨h, le_refl _, ?_⟩
    intro ht
    exact absurd ht hno

theorem AssignTextureIndices.normal_textures (d : Decoder) (s : Scene) (m : Material) :
    (AssignTextureIndices.normal d s m).1.textures_ = s.textures_ ∧
    (AssignTextureIndices.normal d s m).1.texture_path_to_index_ = s.texture_path_to_index_ ∧
    (AssignTextureIndices.normal d s m).2.texture_index = m.texture_index ∧
    (AssignTextureIndices.normal d s m).2.texture_path = m.texture_path := by
  unfold AssignTextureIndices.normal
  split
  · exact ⟨(LoadNormal_textures d s _).1, (LoadNormal_textures d s _).2, rfl, rfl⟩
  · exact ⟨rfl, rfl, rfl, rfl⟩

theorem AssignTextureIndices.material_cache (d : Decoder) (s : Scene) (m : Material)
    (h : CacheInv s) :
    CacheInv (AssignTextureIndices.material d s m).1 ∧
    s.textures_.length ≤ (AssignTextureIndices.material d s m).1.textures_.length ∧
    (AssignTextureIndices.material d s m).2.TextureIndexBelow
      (AssignTextureIndices.material d s m).1.textures_.length := by
  unfold AssignTextureIndices.material
  obtain ⟨h1, h2, h3⟩ := AssignTextureIndices.texture_cache d s m h
  obtain ⟨n1, n2, n3, n4⟩ := AssignTextureIndices.normal_textures d
    (AssignTextureIndices.texture d s m).1 (AssignTextureIndices.texture d s m).2
  refine ⟨h1.of_caches n1 n2, by rw [n1]; exact h2, ?_⟩
  intro ht h0
  rw [n1, n3]
  rw [n3] at h0
  apply h3 _ h0
  unfold Material.HasTexture at ht ⊢
  rw [n4] at ht
  exact ht

theorem AssignTextureIndices.materials_cache (d : Decoder) (s : Scene) (ms : List Material)
    (h : CacheInv s) :
    CacheInv (AssignTextureIndices.materials d s ms).1 ∧
    s.textures_.length ≤ (AssignTextureIndices.materials d s ms).1.textures_.length ∧
    ∀ mat ∈ (AssignTextureIndices.materials d s ms).2,
      mat.TextureIndexBelow (AssignTextureIndices.materials d s ms).1.textures_.length := by
  induction ms generalizing s with
  | nil => exact ⟨h, le_refl _, fun mat hm => absurd hm (by simp [AssignTextureIndices.materials])⟩
  | cons m rest ih =>
    simp only [AssignTextureIndices.materials]
    obtain ⟨h1, h2, h3⟩ := AssignTextureIndices.material_cache d s m h
    obtain ⟨i1, i2, i3⟩ := ih (AssignTextureIndices.material d s m).1 h1
    refine ⟨i1, le_trans h2 i2, ?_⟩
    intro mat hm
    rcases List.mem_cons.mp hm with hm | hm
    · rw [hm]
      exact h3.mono i2
    · exact i3 mat hm

end Scene

namespace Scene

theorem AssignTextureIndices.loop_not_mem_textures (d : Decoder) (ps : List EntityPtr)
    (w : World) (q : EntityPtr) (hq : q ∉ ps) :
    (AssignTextureIndices.loop d ps w).heap q = w.heap q := by
  induction ps generalizing w with
  | nil => rfl
  | cons p rest ih =>
    have hqp : q ≠ p := fun e => hq (by rw [e]; exact List.mem_cons_self _ _)
    have hqr : q ∉ rest := fun e => hq (List.mem_cons_of_mem _ e)
    simp only [AssignTextureIndices.loop]
    split
    · rw [ih _ hqr]
      exact Heap.set_other _ _ _ _ hqp
    · rw [ih _ hqr]
      exact Heap.set_other _ _ _ _ hqp

/-- The texture pass keeps the cache invariant, never shrinks the texture list, and
leaves every material it processed with a texture index that is negative or
within the texture list. -/
theorem AssignTextureIndices.loop_cache (d : Decoder) (ps : List EntityPtr) (w : World)
    (h : CacheInv w.scene) :
    CacheInv (AssignTextureIndices.loop d ps w).scene ∧
    w.scene.textures_.length ≤ (AssignTextureIndices.loop d ps w).scene.textures_.length ∧
    ∀ p ∈ ps, ∀ mat ∈ ((AssignTextureIndices.loop d ps w).heap p).owned,
      mat.TextureIndexBelow (AssignTextureIndices.loop d ps w).scene.textures_.length := by
  induction ps generalizing w with
  | nil => exact ⟨h, le_refl _, fun p hp => absurd hp (by simp)⟩
  | cons p rest ih =>
    simp only [AssignTextureIndices.loop]
    by_cases hm : (w.heap p).HasMTLMaterials = true
    · simp only [hm, if_true]
      obtain ⟨c1, c2, c3⟩ :=
        AssignTextureIndices.materials_cache d w.scene (w.heap p).materials_ h
      obtain ⟨i1, i2, i3⟩ := ih
        { heap := w.heap.set p { w.heap p with
            materials_ := (AssignTextureIndices.materials d w.scene (w.heap p).materials_).2 },
          scene := (AssignTextureIndices.materials d w.scene (w.heap p).materials_).1 } c1
      refine ⟨i1, le_trans c2 i2, ?_⟩
      intro q hq mat hmat
      by_cases hqr : q ∈ rest
      · exact i3 q hqr mat hmat
      · have hqp : q = p := by
          rcases List.mem_cons.mp hq with e | e
          · exact e
          · exact absurd e hqr
        subst hqp
        rw [(AssignTextureIndices.loop_not_mem_textures d rest _ q hqr).trans
          (Heap.set_same _ _ _)] at hmat
        have hlen := List.Forall₂.length_eq
          (AssignTextureIndices.materials_frame d w.scene (w.heap q).materials_).2
        have hown : ({ w.heap q with materials_ :=
            (AssignTextureIndices.materials d w.scene (w.heap q).materials_).2 } : Entity).owned =
              (AssignTextureIndices.materials d w.scene (w.heap q).materials_).2 := by
          unfold Entity.owned Entity.HasMTLMaterials Entity.GetMaterials
          unfold Entity.HasMTLMaterials at hm
          simp only
          cases hr : (AssignTextureIndices.materials d w.scene (w.heap q).materials_).2 with
          | nil =>
            rw [hr] at hlen
            simp only [List.length_nil, List.length_eq_zero] at hlen
            rw [hlen] at hm
            simp at hm
          | cons a l => simp
        rw [hown] at hmat
        exact (c3 mat hmat).mono i2
    · have hm' : (w.heap p).HasMTLMaterials = false := by simpa using hm
      simp only [hm', Bool.false_eq_true, if_false]
      obtain ⟨c1, c2, c3⟩ :=
        AssignTextureIndices.material_cache d w.scene (w.heap p).default_material_ h
      obtain ⟨i1, i2, i3⟩ := ih
        { heap := w.heap.set p { w.heap p with
            default_material_ :=
              (AssignTextureIndices.material d w.scene (w.heap p).default_material_).2 },
          scene := (AssignTextureIndices.material d w.scene (w.heap p).default_material_).1 } c1
      refine ⟨i1, le_trans c2 i2, ?_⟩
      intro q hq mat hmat
      by_cases hqr : q ∈ rest
      · exact i3 q hqr mat hmat
      · have hqp : q = p := by
          rcases List.mem_cons.mp hq with e | e
          · exact e
          · exact absurd e hqr
        subst hqp
        rw [(AssignTextureIndices.loop_not_mem_textures d rest _ q hqr).trans
          (Heap.set_same _ _ _)] at hmat
        have hown : ({ w.heap q with default_material_ :=
            (AssignTextureIndices.material d w.scene (w.heap q).default_material_).2 } :
              Entity).owned =
              [(AssignTextureIndices.material d w.scene (w.heap q).default_material_).2] := by
          unfold Entity.owned Entity.HasMTLMaterials Entity.GetDefaultMaterial
          unfold Entity.HasMTLMaterials at hm'
          simp only [hm', Bool.false_eq_true, if_false]
        rw [hown, List.mem_singleton] at hmat
        rw [hmat]
        exact c3.mono i2

end Scene

namespace Scene

theorem LoadTexture_length_le (d : Decoder) (s : Scene) (f : String) :
    s.textures_.length ≤ (LoadTexture d s f).1.textures_.length := by
  unfold LoadTexture
  cases s.texture_path_to_index_ f with
  | some i => exact le_refl _
  | none =>
    cases d f with
    | none => exact le_refl _
    | some img => simp

/-- An aggregation step keeps the cache invariant and leaves every material owned by
an entity of the scene with a texture index that is negative or within the
texture list. -/
theorem step_aggregation {w wa : World} {agg : Op} (hagg : agg.isAggregation = true)
    (hinv : CacheInv w.scene) (h : step w agg = some wa) :
    CacheInv wa.scene ∧
      ∀ p ∈ wa.scene.entities_, ∀ mat ∈ (wa.heap p).owned,
        mat.TextureIndexBelow wa.scene.textures_.length := by
  cases agg with
  | AddEntity entity => exact absurd hagg (by simp [Op.isAggregation])
  | LoadTexture d f => exact absurd hagg (by simp [Op.isAggregation])
  | Clear => exact absurd hagg (by simp [Op.isAggregation])
  | AssignTextureIndices d =>
    simp only [step, Option.some.injEq] at h
    subst h
    obtain ⟨c1, _, c3⟩ := AssignTextureIndices.loop_cache d w.scene.entities_ w hinv
    refine ⟨c1, fun p hp => ?_⟩
    unfold AssignTextureIndices at hp ⊢
    rw [(AssignTextureIndices.loop_frame_textures d _ _).1.entities_eq] at hp
    exact c3 p hp
  | BuildAccelerationStructures d =>
    simp only [step] at h
    by_cases hnil : w.scene.entities_ = []
    · have hw := BuildAccelerationStructures_nil hnil h
      subst hw
      refine ⟨hinv, fun p hp => ?_⟩
      rw [hnil] at hp
      exact absurd hp (by simp)
    · obtain ⟨uvs, ids, idx, b, _, _, _, _, rfl⟩ := BuildAccelerationStructures_eq_some hnil h
      have hinv1 : CacheInv (AssignMaterialOffsets
          { w with scene := { w.scene with
            tlas_ := some ⟨makeInstances w.heap w.scene.entities_ 0 []⟩ } }).scene :=
        hinv.of_caches rfl rfl
      obtain ⟨c1, _, c3⟩ := AssignTextureIndices.loop_cache d w.scene.entities_ _ hinv1
      refine ⟨c1.of_caches rfl rfl, fun p hp => ?_⟩
      simp only [prepared_entities] at hp
      exact c3 p hp

/-- Every operation keeps the cache invariant. -/
theorem step_cache {w w' : World} (op : Op) (hinv : CacheInv w.scene)
    (h : step w op = some w') : CacheInv w'.scene := by
  cases op with
  | AddEntity entity =>
    simp only [step] at h
    obtain ⟨_, h2, _⟩ := AddEntity_eq_some h
    exact hinv.of_caches (by rw [h2]) (by rw [h2])
  | LoadTexture d f =>
    simp only [step, Option.some.injEq] at h
    subst h
    exact (LoadTexture_cache d w.scene f hinv).1
  | Clear =>
    simp only [step, Option.some.injEq] at h
    subst h
    exact CacheInv_Clear _
  | AssignTextureIndices d =>
    exact (step_aggregation (show (Op.AssignTextureIndices d).isAggregation = true from rfl)
      hinv h).1
  | BuildAccelerationStructures d =>
    exact (step_aggregation
      (show (Op.BuildAccelerationStructures d).isAggregation = true from rfl) hinv h).1

/-- Every state reached by a sequence of operations from a state with the cache
invariant has it. -/
theorem run_cache {w w' : World} (ops : List Op) (hinv : CacheInv w.scene)
    (h : run w ops = some w') : CacheInv w'.scene := by
  induction ops generalizing w with
  | nil =>
    simp only [run, Option.some.injEq] at h
    subst h
    exact hinv
  | cons op rest ih =>
    simp only [run, Option.bind_eq_some] at h
    obtain ⟨w1, h1, h2⟩ := h
    exact ih (step_cache op hinv h1) h2

theorem owned_eq_of_handles {e e' : Entity} (h : e.SameButHandles e') : e'.owned = e.owned := by
  unfold Entity.owned Entity.HasMTLMaterials Entity.GetMaterials Entity.GetDefaultMaterial
  rw [h.materials_eq, h.default_material_eq]

/-- An operation other than `Clear` and the aggregations leaves the owned materials
of every entity alone and does not shrink the texture list. -/
theorem step_keeps_indices {w w' : World} (op : Op) (hc : op.isClear = false)
    (ha : op.isAggregation = false) (h : step w op = some w') :
    (∀ q, (w'.heap q).owned = (w.heap q).owned) ∧
      w.scene.textures_.length ≤ w'.scene.textures_.length := by
  cases op with
  | AddEntity entity =>
    simp only [step] at h
    obtain ⟨h1, h2, _⟩ := AddEntity_eq_some h
    exact ⟨fun q => owned_eq_of_handles (h1 q), by rw [h2]⟩
  | LoadTexture d f =>
    simp only [step, Option.some.injEq] at h
    subst h
    exact ⟨fun q => rfl, LoadTexture_length_le d w.scene f⟩
  | Clear => exact absurd hc (by simp [Op.isClear])
  | AssignTextureIndices d => exact absurd ha (by simp [Op.isAggregation])
  | BuildAccelerationStructures d => exact absurd ha (by simp [Op.isAggregation])

theorem run_keeps_indices {w w' : World} (ops : List Op)
    (hops : ops.all (fun op => !op.isClear && !op.isAggregation) = true)
    (h : run w ops = some w') :
    (∀ q, (w'.heap q).owned = (w.heap q).owned) ∧
      w.scene.textures_.length ≤ w'.scene.textures_.length := by
  induction ops generalizing w with
  | nil =>
    simp only [run, Option.some.injEq] at h
    subst h
    exact ⟨fun q => rfl, le_refl _⟩
  | cons op rest ih =>
    simp only [run, Option.bind_eq_some] at h
    obtain ⟨w1, h1, h2⟩ := h
    simp only [List.all_cons, Bool.and_eq_true, Bool.not_eq_true'] at hops
    obtain ⟨s1, s2⟩ := step_keeps_indices op hops.1.1 hops.1.2 h1
    obtain ⟨r1, r2⟩ := ih (by simpa using hops.2) h2
    exact ⟨fun q => (r1 q).trans (s1 q), le_trans s2 r2⟩

end Scene

/-- C27, counterexample: an entity whose materials name the texture `a.png` is added
to a fresh scene and aggregated, then the scene is cleared. The latest
aggregation stored texture index `0` in the materials of the entity, and
`GetTexture(0)` returns null: the texture list is empty. The same holds once
the entity has been added to the cleared scene again. -/
theorem C27_counterexample_index_after_clear :
    (Scene.run { heap := texturedHeap, scene := Scene.ctor }
      [Scene.Op.AddEntity (some 0), Scene.Op.BuildAccelerationStructures exampleDecoder,
        Scene.Op.Clear]).map
      (fun w =>
        ((w.heap 0).owned.map (fun mat => (mat.HasTexture, mat.texture_index)),
          (w.scene.GetTexture 0).isSome,
          w.scene.GetTextureCount)) =
      some ([(true, 0), (true, 0)], false, 0) ∧
    (Scene.run { heap := texturedHeap, scene := Scene.ctor }
      [Scene.Op.AddEntity (some 0), Scene.Op.BuildAccelerationStructures exampleDecoder,
        Scene.Op.Clear, Scene.Op.AddEntity (some 0)]).map
      (fun w =>
        (w.scene.entities_,
          (w.heap 0).owned.map (fun mat => (mat.HasTexture, mat.texture_index)),
          (w.scene.GetTexture 0).isSome,
          w.scene.GetTextureCount)) =
      some ([0], [(true, 0), (true, 0)], false, 0) := by
  constructor <;> decide

/-- C27, as amended: in every scene state reachable from a fresh scene by `AddEntity`,
`LoadTexture`, `AssignTextureIndices`, `BuildAccelerationStructures` and
`Clear`, the path-to-index map is injective and its set of values is exactly
`{0, ..., texture count - 1}`; every non-negative index returned by
`LoadTexture` is accepted by `GetTexture`; and every non-negative index that
an aggregation started in such a state stores in the `texture_index` of a
material is accepted by `GetTexture` after the aggregation and after any
further `AddEntity` and `LoadTexture` calls, that is until the next `Clear`
or aggregation. -/
theorem C27_texture_cache_invariant (heap : Heap) (ops : List Scene.Op) (w : World)
    (h : Scene.run { heap := heap, scene := Scene.ctor } ops = some w) :
    Scene.CacheInv w.scene ∧
    (∀ (d : Decoder) (path : String), 0 ≤ (Scene.LoadTexture d w.scene path).2 →
      ((Scene.LoadTexture d w.scene path).1.GetTexture
        (Scene.LoadTexture d w.scene path).2).isSome = true) ∧
    (∀ (agg : Scene.Op) (post : List Scene.Op) (wa w' : World),
      agg.isAggregation = true →
      post.all (fun op => !op.isClear && !op.isAggregation) = true →
      Scene.step w agg = some wa → Scene.run wa post = some w' →
        ∀ p ∈ wa.scene.entities_, ∀ mat ∈ (w'.heap p).owned,
          mat.HasTexture = true → 0 ≤ mat.texture_index →
            (w'.scene.GetTexture mat.texture_index).isSome = true) := by
  have hinv : Scene.CacheInv w.scene := Scene.run_cache ops Scene.CacheInv_ctor h
  refine ⟨hinv, ?_, ?_⟩
  · intro d path h0
    obtain ⟨_, _, h3⟩ := Scene.LoadTexture_cache d w.scene path hinv
    rcases h3 with h3 | h3
    · rw [h3] at h0
      omega
    · exact Scene.GetTexture_isSome _ _ h3.1 h3.2
  · intro agg post wa w' hagg hpost hstep hrun p hp mat hmat ht h0
    obtain ⟨_, hacc⟩ := Scene.step_aggregation hagg hinv hstep
    obtain ⟨r1, r2⟩ := Scene.run_keeps_indices post hpost hrun
    rw [r1 p] at hmat
    have hlt := hacc p hp mat hmat ht h0
    exact Scene.GetTexture_isSome _ _ h0 (by omega)

/-- C27, witness: the state after adding the textured entity to a fresh scene, an
aggregation from it, and a further `LoadTexture`; the index `0` stored by the
aggregation is accepted. -/
theorem C27_texture_cache_invariant_witness :
    ∃ w' : World,
      Scene.run { heap := texturedHeap, scene := Scene.ctor }
        [Scene.Op.AddEntity (some 0), Scene.Op.BuildAccelerationStructures exampleDecoder,
          Scene.Op.LoadTexture exampleDecoder "b.png"] = some w' ∧
      ∀ mat ∈ (w'.heap 0).owned, mat.HasTexture = true → 0 ≤ mat.texture_index →
        (w'.scene.GetTexture mat.texture_index).isSome = true := by
  have hs1 : (Scene.run { heap := texturedHeap, scene := Scene.ctor }
      [Scene.Op.AddEntity (some 0)]).isSome = true := by decide
  obtain ⟨w, hw⟩ := Option.isSome_iff_exists.mp hs1
  have hs2 : ((Scene.run { heap := texturedHeap, scene := Scene.ctor }
      [Scene.Op.AddEntity (some 0)]).bind
        (fun x => Scene.step x (Scene.Op.BuildAccelerationStructures exampleDecoder))).isSome =
      true := by decide
  rw [hw] at hs2
  obtain ⟨wa, hwa⟩ := Option.isSome_iff_exists.mp hs2
  have hs3 : (((Scene.run { heap := texturedHeap, scene := Scene.ctor }
      [Scene.Op.AddEntity (some 0)]).bind
        (fun x => Scene.step x (Scene.Op.BuildAccelerationStructures exampleDecoder))).bind
        (fun x => Scene.run x [Scene.Op.LoadTexture exampleDecoder "b.png"])).isSome =
      true := by decide
  rw [hw] at hs3
  simp only [Option.some_bind] at hwa hs3
  rw [hwa] at hs3
  obtain ⟨w', hw'⟩ := Option.isSome_iff_exists.mp hs3
  have he : ((Scene.run { heap := texturedHeap, scene := Scene.ctor }
      [Scene.Op.AddEntity (some 0)]).bind
        (fun x => Scene.step x (Scene.Op.BuildAccelerationStructures exampleDecoder))).map
        (fun x => x.scene.entities_) = some [0] := by decide
  rw [hw] at he
  simp only [Option.some_bind] at he
  rw [hwa] at he
  simp only [Option.map_some', Option.some.injEq] at he
  refine ⟨w', ?_, ?_⟩
  · have hrun : Scene.run { heap := texturedHeap, scene := Scene.ctor }
        [Scene.Op.AddEntity (some 0), Scene.Op.BuildAccelerationStructures exampleDecoder,
          Scene.Op.LoadTexture exampleDecoder "b.png"] =
        ((Scene.run { heap := texturedHeap, scene := Scene.ctor }
          [Scene.Op.AddEntity (some 0)]).bind
            (fun x =>
              Scene.step x (Scene.Op.BuildAccelerationStructures exampleDecoder))).bind
            (fun x => Scene.run x [Scene.Op.LoadTexture exampleDecoder "b.png"]) := by
      simp only [Scene.run, Option.bind_eq_bind]
      cases Scene.step { heap := texturedHeap, scene := Scene.ctor }
        (Scene.Op.AddEntity (some 0)) with
      | none => rfl
      | some x => rfl
    rw [hrun, hw]
    simp only [Option.some_bind]
    rw [hwa]
    exact hw'
  · exact (C27_texture_cache_invariant texturedHeap [Scene.Op.AddEntity (some 0)] w hw).2.2
      (Scene.Op.BuildAccelerationStructures exampleDecoder)
      [Scene.Op.LoadTexture exampleDecoder "b.png"] wa w' rfl (by decide) hwa hw' 0
      (by rw [he]; exact List.mem_singleton.mpr rfl)

/-! ## What the texture pass resolves -/

theorem Scene.CacheExtends.refl_extends (d : Decoder) (s : Scene) : Scene.CacheExtends d s s :=
  ⟨fun _ _ h => h, fun _ h _ => h⟩

theorem Scene.CacheExtends.trans_extends {d : Decoder} {a b c : Scene}
    (h1 : Scene.CacheExtends d a b) (h2 : Scene.CacheExtends d b c) :
    Scene.CacheExtends d a c :=
  ⟨fun p i h => h2.1 p i (h1.1 p i h), fun p h hd => h2.2 p (h1.2 p h hd) hd⟩

theorem Scene.CacheExtends.of_map_eq (d : Decoder) {s s' : Scene}
    (h : s'.texture_path_to_index_ = s.texture_path_to_index_) : Scene.CacheExtends d s s' := by
  unfold Scene.CacheExtends
  rw [h]
  exact ⟨fun _ _ h => h, fun _ h _ => h⟩

theorem Material.TextureResolved.mono_resolved {d : Decoder} {s s' : Scene} {mat : Material}
    (h : mat.TextureResolved d s) (he : Scene.CacheExtends d s s') :
    mat.TextureResolved d s' := by
  intro ht
  rcases h ht with h1 | ⟨h1, h2, h3⟩
  · exact Or.inl (he.1 _ _ h1)
  · exact Or.inr ⟨he.2 _ h1 h2, h2, h3⟩

/-- A resolved texture index is what `LoadTexture` returns for the path. -/
theorem Material.TextureResolved.eq_LoadTexture {d : Decoder} {s : Scene} {mat : Material}
    (h : mat.TextureResolved d s) (ht : mat.HasTexture = true) :
    mat.texture_index = (Scene.LoadTexture d s mat.texture_path).2 := by
  unfold Scene.LoadTexture
  rcases h ht with h1 | ⟨h1, h2, h3⟩
  · rw [h1]
  · rw [h1, h2]
    exact h3

namespace Scene

theorem LoadTexture_extends (d : Decoder) (s : Scene) (f : String) :
    CacheExtends d s (LoadTexture d s f).1 ∧
    ((LoadTexture d s f).1.texture_path_to_index_ f = some (LoadTexture d s f).2 ∨
      ((LoadTexture d s f).1.texture_path_to_index_ f = none ∧ d f = none ∧
        (LoadTexture d s f).2 = -1)) := by
  unfold LoadTexture
  cases hc : s.texture_path_to_index_ f with
  | some i => exact ⟨CacheExtends.refl_extends d s, Or.inl hc⟩
  | none =>
    cases hd : d f with
    | none => exact ⟨CacheExtends.refl_extends d s, Or.inr ⟨hc, rfl, rfl⟩⟩
    | some img =>
      simp only
      refine ⟨⟨?_, ?_⟩, Or.inl (by simp)⟩
      · intro p i hp
        have hpf : p ≠ f := by
          intro e
          rw [e, hc] at hp
          exact absurd hp (by simp)
        simp only [hpf, if_false]
        exact hp
      · intro p hp hdp
        have hpf : p ≠ f := by
          intro e
          rw [e, hd] at hdp
          exact absurd hdp (by simp)
        simp only [hpf, if_false]
        exact hp

theorem AssignTextureIndices.texture_resolved (d : Decoder) (s : Scene) (m : Material) :
    CacheExtends d s (AssignTextureIndices.texture d s m).1 ∧
    (AssignTextureIndices.texture d s m).2.TextureResolved d
      (AssignTextureIndices.texture d s m).1 := by
  unfold AssignTextureIndices.texture
  split
  · obtain ⟨h1, h2⟩ := LoadTexture_extends d s m.GetTexturePath
    exact ⟨h1, fun _ => h2⟩
  · rename_i hno
    exact ⟨CacheExtends.refl_extends d s, fun ht => absurd ht hno⟩

theorem AssignTextureIndices.material_resolved (d : Decoder) (s : Scene) (m : Material) :
    CacheExtends d s (AssignTextureIndices.material d s m).1 ∧
    (AssignTextureIndices.material d s m).2.TextureResolved d
      (AssignTextureIndices.material d s m).1 := by
  unfold AssignTextureIndices.material
  obtain ⟨h1, h2⟩ := AssignTextureIndices.texture_resolved d s m
  obtain ⟨_, n2, n3, n4⟩ := AssignTextureIndices.normal_textures d
    (AssignTextureIndices.texture d s m).1 (AssignTextureIndices.texture d s m).2
  refine ⟨h1.trans_extends (CacheExtends.of_map_eq d n2), ?_⟩
  intro ht
  rw [n2, n3, n4]
  apply h2
  unfold Material.HasTexture at ht ⊢
  rw [n4] at ht
  exact ht

theorem AssignTextureIndices.materials_resolved (d : Decoder) (s : Scene) (ms : List Material) :
    CacheExtends d s (AssignTextureIndices.materials d s ms).1 ∧
    ∀ mat ∈ (AssignTextureIndices.materials d s ms).2,
      mat.TextureResolved d (AssignTextureIndices.materials d s ms).1 := by
  induction ms generalizing s with
  | nil =>
    exact ⟨CacheExtends.refl_extends d s,
      fun mat hm => absurd hm (by simp [AssignTextureIndices.materials])⟩
  | cons m rest ih =>
    simp only [AssignTextureIndices.materials]
    obtain ⟨h1, h2⟩ := AssignTextureIndices.material_resolved d s m
    obtain ⟨i1, i2⟩ := ih (AssignTextureIndices.material d s m).1
    refine ⟨h1.trans_extends i1, ?_⟩
    intro mat hm
    rcases List.mem_cons.mp hm with hm | hm
    · rw [hm]
      exact h2.mono_resolved i1
    · exact i2 mat hm

/-- The texture pass only extends the cache, and leaves the texture index of every
material it processed resolved against the cache it leaves behind. -/
theorem AssignTextureIndices.loop_resolved (d : Decoder) (ps : List EntityPtr) (w : World) :
    CacheExtends d w.scene (AssignTextureIndices.loop d ps w).scene ∧
    ∀ p ∈ ps, ∀ mat ∈ ((AssignTextureIndices.loop d ps w).heap p).owned,
      mat.TextureResolved d (AssignTextureIndices.loop d ps w).scene := by
  induction ps generalizing w with
  | nil => exact ⟨CacheExtends.refl_extends d _, fun p hp => absurd hp (by simp)⟩
  | cons p rest ih =>
    simp only [AssignTextureIndices.loop]
    by_cases hm : (w.heap p).HasMTLMaterials = true
    · simp only [hm, if_true]
      obtain ⟨c1, c3⟩ := AssignTextureIndices.materials_resolved d w.scene (w.heap p).materials_
      obtain ⟨i1, i3⟩ := ih
        { heap := w.heap.set p { w.heap p with
            materials_ := (AssignTextureIndices.materials d w.scene (w.heap p).materials_).2 },
          scene := (AssignTextureIndices.materials d w.scene (w.heap p).materials_).1 }
      refine ⟨c1.trans_extends i1, ?_⟩
      intro q hq mat hmat
      by_cases hqr : q ∈ rest
      · exact i3 q hqr mat hmat
      · have hqp : q = p := by
          rcases List.mem_cons.mp hq with e | e
          · exact e
          · exact absurd e hqr
        subst hqp
        rw [(AssignTextureIndices.loop_not_mem_textures d rest _ q hqr).trans
          (Heap.set_same _ _ _)] at hmat
        have hlen := List.Forall₂.length_eq
          (AssignTextureIndices.materials_frame d w.scene (w.heap q).materials_).2
        have hown : ({ w.heap q with materials_ :=
            (AssignTextureIndices.materials d w.scene (w.heap q).materials_).2 } : Entity).owned =
              (AssignTextureIndices.materials d w.scene (w.heap q).materials_).2 := by
          unfold Entity.owned Entity.HasMTLMaterials Entity.GetMaterials
          unfold Entity.HasMTLMaterials at hm
          simp only
          cases hr : (AssignTextureIndices.materials d w.scene (w.heap q).materials_).2 with
          | nil =>
            rw [hr] at hlen
            simp only [List.length_nil, List.length_eq_zero] at hlen
            rw [hlen] at hm
            simp at hm
          | cons a l => simp
        rw [hown] at hmat
        exact (c3 mat hmat).mono_resolved i1
    · have hm' : (w.heap p).HasMTLMaterials = false := by simpa using hm
      simp only [hm', Bool.false_eq_true, if_false]
      obtain ⟨c1, c3⟩ :=
        AssignTextureIndices.material_resolved d w.scene (w.heap p).default_material_
      obtain ⟨i1, i3⟩ := ih
        { heap := w.heap.set p { w.heap p with
            default_material_ :=
              (AssignTextureIndices.material d w.scene (w.heap p).default_material_).2 },
          scene := (AssignTextureIndices.material d w.scene (w.heap p).default_material_).1 }
      refine ⟨c1.trans_extends i1, ?_⟩
      intro q hq mat hmat
      by_cases hqr : q ∈ rest
      · exact i3 q hqr mat hmat
      · have hqp : q = p := by
          rcases List.mem_cons.mp hq with e | e
          · exact e
          · exact absurd e hqr
        subst hqp
        rw [(AssignTextureIndices.loop_not_mem_textures d rest _ q hqr).trans
          (Heap.set_same _ _ _)] at hmat
        have hown : ({ w.heap q with default_material_ :=
            (AssignTextureIndices.material d w.scene (w.heap q).default_material_).2 } :
              Entity).owned =
              [(AssignTextureIndices.material d w.scene (w.heap q).default_material_).2] := by
          unfold Entity.owned Entity.HasMTLMaterials Entity.GetDefaultMaterial
          unfold Entity.HasMTLMaterials at hm'
          simp only [hm', Bool.false_eq_true, if_false]
        rw [hown, List.mem_singleton] at hmat
        rw [hmat]
        exact c3.mono_resolved i1

/-- The texture half of the pass: after `AssignTextureIndices`, every material the
pass owns that has a texture path carries the index `LoadTexture` gives for
that path; two such materials with the same path carry the same index; and in
a scene with the cache invariant, two such materials with different paths and
non-negative indices carry different indices. -/
theorem AssignTextureIndices_textures (d : Decoder) (w : World) :
    (∀ p ∈ w.scene.entities_, ∀ mat ∈ ((AssignTextureIndices d w).heap p).owned,
      mat.HasTexture = true →
        mat.texture_index = (LoadTexture d (AssignTextureIndices d w).scene mat.texture_path).2) ∧
    (∀ p ∈ w.scene.entities_, ∀ q ∈ w.scene.entities_,
      ∀ m1 ∈ ((AssignTextureIndices d w).heap p).owned,
      ∀ m2 ∈ ((AssignTextureIndices d w).heap q).owned,
        m1.HasTexture = true → m1.texture_path = m2.texture_path →
          m1.texture_index = m2.texture_index) ∧
    (CacheInv w.scene →
      ∀ p ∈ w.scene.entities_, ∀ q ∈ w.scene.entities_,
      ∀ m1 ∈ ((AssignTextureIndices d w).heap p).owned,
      ∀ m2 ∈ ((AssignTextureIndices d w).heap q).owned,
        m1.HasTexture = true → m2.HasTexture = true →
        0 ≤ m1.texture_index → 0 ≤ m2.texture_index →
        m1.texture_path ≠ m2.texture_path → m1.texture_index ≠ m2.texture_index) := by
  obtain ⟨_, hres⟩ := AssignTextureIndices.loop_resolved d w.scene.entities_ w
  have hres' : ∀ p ∈ w.scene.entities_, ∀ mat ∈ ((AssignTextureIndices d w).heap p).owned,
      mat.TextureResolved d (AssignTextureIndices d w).scene := hres
  refine ⟨fun p hp mat hmat ht => (hres' p hp mat hmat).eq_LoadTexture ht, ?_, ?_⟩
  · intro p hp q hq m1 h1 m2 h2 ht hpath
    have ht2 : m2.HasTexture = true := by
      unfold Material.HasTexture at ht ⊢
      rw [← hpath]
      exact ht
    rw [(hres' p hp m1 h1).eq_LoadTexture ht, (hres' q hq m2 h2).eq_LoadTexture ht2, hpath]
  · intro hinv p hp q hq m1 h1 m2 h2 ht1 ht2 h01 h02 hne heq
    have hinv' : CacheInv (AssignTextureIndices d w).scene :=
      (AssignTextureIndices.loop_cache d w.scene.entities_ w hinv).1
    have r1 : (AssignTextureIndices d w).scene.texture_path_to_index_ m1.texture_path =
        some m1.texture_index := by
      rcases hres' p hp m1 h1 ht1 with r | ⟨_, _, r⟩
      · exact r
      · rw [r] at h01
        omega
    have r2 : (AssignTextureIndices d w).scene.texture_path_to_index_ m2.texture_path =
        some m1.texture_index := by
      rcases hres' q hq m2 h2 ht2 with r | ⟨_, _, r⟩
      · rw [heq]
        exact r
      · rw [r] at h02
        omega
    exact hne (hinv'.1 _ _ _ r1 r2)

end Scene

/-! ## The texture pass and `Clear` -/

/-- What `Clear` resets: the entity sequence, the texture list and the path map are
emptied and the handles of the top-level structure and of the materials buffer
are dropped; the normal-map list, like every other field, is kept. -/
theorem Scene.Clear_resets (s : Scene) :
    s.Clear.GetEntityCount = 0 ∧ s.Clear.GetTextureCount = 0 ∧
    (∀ path, s.Clear.texture_path_to_index_ path = none) ∧
    s.Clear.tlas_ = none ∧ s.Clear.materials_buffer_ = none ∧
    s.Clear.GetNormalCount = s.GetNormalCount ∧
    s.Clear = { Scene.ctor with
      point_lights_ := s.point_lights_
      global_uv_buffer_ := s.global_uv_buffer_
      global_material_id_buffer_ := s.global_material_id_buffer_
      global_index_buffer_ := s.global_index_buffer_
      instance_metadata_buffer_ := s.instance_metadata_buffer_
      instance_metadata_ := s.instance_metadata_
      normals_ := s.normals_ } :=
  ⟨rfl, rfl, fun _ => rfl, rfl, rfl, rfl, rfl⟩

/-- C22, evaluated at the failing input: one entity whose two listed materials both
name the texture `a.png` and the normal map `n.png`, added to a fresh scene,
with a decoder that decodes every path. After `AssignTextureIndices` both
materials carry texture index `0`, but the first carries normal index `0` and
the second normal index `1`, and the scene holds one texture and two normal
maps. -/
theorem C22_same_normal_path_two_indices :
    ((Scene.AddEntities { heap := texturedHeap, scene := Scene.ctor } [some 0]).map
      (Scene.AssignTextureIndices exampleDecoder)).map
      (fun w =>
        ((w.heap 0).owned.map (fun mat => mat.normal_path),
          (w.heap 0).owned.map (fun mat => mat.texture_index),
          (w.heap 0).owned.map (fun mat => mat.normal_index),
          w.scene.GetTextureCount,
          w.scene.GetNormalCount)) =
      some (["n.png", "n.png"], [0, 0], [0, 1], 1, 2) := by
  decide

/-- C28, evaluated at the failing input: one entity whose default material names the
normal map `n.png`, added to a fresh scene and aggregated; then `Clear`, the
same entity added again, and a second aggregation. After `Clear` the entity
count and the texture count are `0` but the normal count is `1`, and the
second aggregation stores normal index `1`; the same entity state added to a
newly constructed scene and aggregated gets normal index `0`. -/
theorem C28_clear_keeps_normal_maps :
    (Scene.run { heap := normalMapHeap, scene := Scene.ctor }
      [Scene.Op.AddEntity (some 0), Scene.Op.BuildAccelerationStructures exampleDecoder,
        Scene.Op.Clear]).map
      (fun w => (w.scene.GetEntityCount, w.scene.GetTextureCount, w.scene.GetNormalCount)) =
      some (0, 0, 1) ∧
    (Scene.run { heap := normalMapHeap, scene := Scene.ctor }
      [Scene.Op.AddEntity (some 0), Scene.Op.BuildAccelerationStructures exampleDecoder,
        Scene.Op.Clear, Scene.Op.AddEntity (some 0),
        Scene.Op.BuildAccelerationStructures exampleDecoder]).map
      (fun w => ((w.heap 0).GetDefaultMaterial.normal_index, w.scene.GetNormalCount)) =
      some (1, 2) ∧
    ((Scene.run { heap := normalMapHeap, scene := Scene.ctor }
      [Scene.Op.AddEntity (some 0), Scene.Op.BuildAccelerationStructures exampleDecoder,
        Scene.Op.Clear]).bind
      (fun w => Scene.run { heap := w.heap, scene := Scene.ctor }
        [Scene.Op.AddEntity (some 0),
          Scene.Op.BuildAccelerationStructures exampleDecoder])).map
      (fun w => ((w.heap 0).GetDefaultMaterial.normal_index, w.scene.GetNormalCount)) =
      some (0, 1) := by
  refine ⟨?_, ?_, ?_⟩ <;> decide

end ShortMarch
